import Mathlib

/-! # Octavia controller: a shallow embedding of `controllers/octavia_controller.go`

The reconciler is embedded as pure functions over an explicit instance value, an
explicit record of collaborator responses (`Env`) and an explicit log of the
collaborator calls a pass performs.  Every `return` statement of the source is
tagged with its source line, so that a path through a function can be named.

Go standard-library functions used by the controller (`strings.Fields`,
`strings.CutSuffix`, `fmt.Sprintf` with `%s` verbs) and the controller-runtime
finalizer helpers are embedded by their documented behaviour.  The condition
ledger and `util.SetHash` belong to lib-common, which is not part of the sources at
hand; their embeddings say so.  A collaborator is embedded by the contract of its
call site: it returns values and does not write the instance status.  A Go map or
slice that is `nil` is embedded as the empty list, and `reconcileNormal` is cut into
stages that follow its statements in source order.
-/

set_option autoImplicit false

namespace OctaviaOperator

/-! ## Errors and results -/

/-- A Go `error` value: its text, and whether `k8s_errors.IsNotFound` holds of it. -/
structure Err where
  notFound : Bool
  msg : String
deriving DecidableEq, Repr

/-- The controller-runtime `ctrl.Result`; `RequeueAfter` is counted in seconds. -/
structure Result where
  Requeue : Bool := false
  RequeueAfter : Nat := 0
deriving DecidableEq, Repr

/-- The zero value `ctrl.Result{}`. -/
def Result.empty : Result := {}

/-- `k8s_errors.IsNotFound(err)` on a possibly-nil error. -/
def IsNotFound : Option Err → Bool
  | some e => e.notFound
  | none => false

/-! ## Go standard library -/

namespace unicode

/-- Go `unicode.IsSpace`: the code points with the Unicode White Space property. -/
def IsSpace (c : Char) : Bool :=
  let n := c.toNat
  (9 ≤ n && n ≤ 13) || n == 32 || n == 133 || n == 160 || n == 5760 ||
  (8192 ≤ n && n ≤ 8202) || n == 8232 || n == 8233 || n == 8239 || n == 8287 ||
  n == 12288

end unicode

namespace strings

/-- The loop of `strings.Fields` over the characters still to read; `cur` is the
field being collected, most recent character first. -/
def fieldsAux : List Char → List Char → List (List Char)
  | [], cur => if cur.isEmpty then [] else [cur.reverse]
  | c :: cs, cur =>
    if unicode.IsSpace c then
      if cur.isEmpty then fieldsAux cs [] else cur.reverse :: fieldsAux cs []
    else fieldsAux cs (c :: cur)

/-- Go `strings.Fields`: the maximal runs of non-space characters of `s`. -/
def Fields (s : String) : List String :=
  (fieldsAux s.data []).map String.mk

/-- Go `strings.HasSuffix`. -/
def HasSuffix (s suffix : String) : Bool :=
  suffix.data.length ≤ s.data.length &&
    s.data.drop (s.data.length - suffix.data.length) == suffix.data

/-- Go `strings.CutSuffix`: `s` without the trailing `suffix` and whether it was found. -/
def CutSuffix (s suffix : String) : String × Bool :=
  if HasSuffix s suffix then
    (String.mk (s.data.take (s.data.length - suffix.data.length)), true)
  else (s, false)

end strings

/-! ## Asset manifest (`getLocalImageURLs`, lines 1031-1059) -/

/-- The `octavia.OctaviaAmphoraImage` record. -/
structure OctaviaAmphoraImage where
  Name : String
  URL : String
  Checksum : String
deriving DecidableEq, Repr

/-- The URL read by `getLocalImageURLs` (line 1037). -/
def listUrl (endpoint : String) : String :=
  endpoint ++ "/octavia-amphora-images.sha256sum"

/-- One iteration of the scanner loop (lines 1046-1056). -/
def scanStep (endpoint : String) (ret : List OctaviaAmphoraImage) (text : String) :
    List OctaviaAmphoraImage :=
  match strings.Fields text with
  | [f0, f1] =>
    let name := (strings.CutSuffix f1 ".qcow2").1
    ret ++ [{ Name := name, URL := endpoint ++ "/" ++ f1, Checksum := f0 }]
  | _ => ret

/-- `getLocalImageURLs`: `httpGet` answers `http.Get` with either an error or the
lines the scanner yields from the response body. -/
def getLocalImageURLs (httpGet : String → Except Err (List String)) (endpoint : String) :
    Except Err (List OctaviaAmphoraImage) :=
  match httpGet (listUrl endpoint) with
  | .error err => .error err
  | .ok lines => .ok (lines.foldl (scanStep endpoint) [])

/-! ## Condition ledger -/

/-- The `corev1.ConditionStatus` values. -/
inductive ConditionStatus where
  | ConditionTrue
  | ConditionFalse
  | ConditionUnknown
deriving DecidableEq, Repr

open ConditionStatus

/-- The `condition.Condition` record; `Message` is the formatted text and
`LastTransitionTime` a clock reading in seconds. -/
structure Condition where
  Type_ : String
  Status : ConditionStatus
  Reason : String
  Severity : String
  Message : String
  LastTransitionTime : Nat
deriving DecidableEq, Repr

/-- The text of a message constant is declared outside src/: a formatted message
is the name of its format constant followed by the arguments formatted into it. -/
def formatMessage (format : String) (args : List String) : String :=
  args.foldl (fun acc a => acc ++ " | " ++ a) format

namespace condition

def ReadyCondition : String := "Ready"
def DBReadyCondition : String := "DBReady"
def DBSyncReadyCondition : String := "DBSyncReady"
def RabbitMqTransportURLReadyCondition : String := "RabbitMqTransportURLReady"
def InputReadyCondition : String := "InputReady"
def ServiceConfigReadyCondition : String := "ServiceConfigReady"
def ServiceAccountReadyCondition : String := "ServiceAccountReady"
def RoleReadyCondition : String := "RoleReady"
def RoleBindingReadyCondition : String := "RoleBindingReady"
def NetworkAttachmentsReadyCondition : String := "NetworkAttachmentsReady"
def ExposeServiceReadyCondition : String := "ExposeServiceReady"
def DeploymentReadyCondition : String := "DeploymentReady"

def InitReason : String := "Init"
def ErrorReason : String := "Error"
def RequestedReason : String := "Requested"
def ReadyReason : String := "Ready"

def SeverityNone : String := ""
def SeverityInfo : String := "Info"
def SeverityWarning : String := "Warning"

/-- `condition.TrueCondition(t, message)`. -/
def TrueCondition (t message : String) : Condition :=
  { Type_ := t, Status := ConditionTrue, Reason := ReadyReason, Severity := SeverityNone,
    Message := message, LastTransitionTime := 0 }

/-- `condition.FalseCondition(t, reason, severity, messageFormat, args...)`. -/
def FalseCondition (t reason severity format : String) (args : List String) : Condition :=
  { Type_ := t, Status := ConditionFalse, Reason := reason, Severity := severity,
    Message := formatMessage format args, LastTransitionTime := 0 }

/-- `condition.UnknownCondition(t, reason, message)`. -/
def UnknownCondition (t reason message : String) : Condition :=
  { Type_ := t, Status := ConditionUnknown, Reason := reason, Severity := SeverityNone,
    Message := message, LastTransitionTime := 0 }

/-- `Conditions.Get(t)`: the first condition of type `t`. -/
def Get (conds : List Condition) (t : String) : Option Condition :=
  conds.find? (fun c => c.Type_ == t)

/-- Modelled from the spec: `Conditions.Set` of lib-common is not under src/.  Per
spec 4.1 it upserts a condition, preserving the transition time if the status is
unchanged; otherwise the condition is stamped with the current time. -/
def Set (now : Nat) : List Condition → Condition → List Condition
  | [], c => [{ c with LastTransitionTime := now }]
  | e :: rest, c =>
    if e.Type_ = c.Type_ then
      (if e.Status = c.Status then { c with LastTransitionTime := e.LastTransitionTime }
       else { c with LastTransitionTime := now }) :: rest
    else e :: Set now rest c

/-- `Conditions.MarkTrue(t, message)`: the wrapper of spec 4.1 around `Set`. -/
def MarkTrue (now : Nat) (conds : List Condition) (t message : String) : List Condition :=
  Set now conds (TrueCondition t message)

/-- `condition.CreateList`: the conditions passed in, nil pointers left out. -/
def CreateList (cs : List (Option Condition)) : List Condition :=
  cs.filterMap id

/-- Modelled from the spec: `Conditions.Init` of lib-common is not under src/.  The
status is rebuilt on every pass (spec 3): each condition of the list is asserted
through `Set`; a condition type that is not listed persists. -/
def Init (now : Nat) (conds cl : List Condition) : List Condition :=
  cl.foldl (Set now) conds

/-- Modelled from the spec: `Conditions.AllSubConditionIsTrue` of lib-common is not
under src/.  Per spec 4.1 it tells whether every condition except the umbrella
Ready condition is True. -/
def AllSubConditionIsTrue (conds : List Condition) : Bool :=
  conds.all (fun c => c.Type_ == ReadyCondition || c.Status == ConditionTrue)

/-- Modelled from the spec: `Conditions.IsUnknown` of lib-common is not under src/.
The condition of type `t` has status Unknown; a missing condition counts as
Unknown. -/
def IsUnknown (conds : List Condition) (t : String) : Bool :=
  match Get conds t with
  | some c => c.Status == ConditionUnknown
  | none => true

/-- Modelled from the spec: `Conditions.Mirror` of lib-common is not under src/.
Per spec 4.1 it copies the ledger's matching condition, or returns nothing if the
ledger has none yet. -/
def Mirror (conds : List Condition) (t : String) : Option Condition :=
  Get conds t

/-- Modelled from the spec: `condition.RestoreLastTransitionTimes` of lib-common is
not under src/.  Per spec 3, re-asserting the same status preserves the previous
timestamp: a condition whose status is the saved one takes the saved time. -/
def RestoreLastTransitionTimes (conds saved : List Condition) : List Condition :=
  conds.map (fun c =>
    match Get saved c.Type_ with
    | some s => if s.Status = c.Status then { c with LastTransitionTime := s.LastTransitionTime } else c
    | none => c)

end condition

/-! ## Constants of `api/v1beta1` and `pkg/octavia` -/

namespace octaviav1

def HealthManager : String := "healthmanager"
def Housekeeping : String := "housekeeping"
def Worker : String := "worker"

def OctaviaAPIReadyCondition : String := "OctaviaAPIReady"
def OctaviaHealthManagerReadyCondition : String := "OctaviaHealthManagerReady"
def OctaviaHousekeepingReadyCondition : String := "OctaviaHousekeepingReady"
def OctaviaWorkerReadyCondition : String := "OctaviaWorkerReady"

def DbSyncHash : String := "dbsync"
def ImageUploadHash : String := "image-upload"

end octaviav1

namespace octavia

def DatabaseCRName : String := "octavia"
def PersistenceDatabaseCRName : String := "octavia-persistence"

end octavia

namespace common

def InputHashName : String := "input"

end common

namespace mariadbv1

def MariaDBAccountReadyCondition : String := "MariaDBAccountReady"

end mariadbv1

/-! ## Go maps with string keys and values -/

/-- The Go map read `m[k]`: the zero value for a missing key. -/
def mapGet (m : List (String × String)) (k : String) : String :=
  (m.lookup k).getD ""

/-- The Go map write `m[k] = v`. -/
def mapPut : List (String × String) → String → String → List (String × String)
  | [], k, v => [(k, v)]
  | (k0, v0) :: rest, k, v => if k0 = k then (k, v) :: rest else (k0, v0) :: mapPut rest k v

namespace util

/-- Modelled from the spec: `util.SetHash` of lib-common is not under src/.  Per
spec 4.2 it returns true and updates the map iff the new hash differs from the
stored one; a first observation (no stored hash) always counts as changed. -/
def SetHash (hashMap : List (String × String)) (resourceName hash : String) :
    List (String × String) × Bool :=
  if hashMap.lookup resourceName = some hash then (hashMap, false)
  else (mapPut hashMap resourceName hash, true)

end util

/-! ## The declared topology and its status -/

/-- The fields of `octaviav1.OctaviaSpec` the controller branches on. -/
structure OctaviaSpec where
  Secret : String
  DatabaseAccount : String
  PersistenceDatabaseAccount : String
  NetworkAttachments : List String
  AmphoraImageContainerImage : String
deriving DecidableEq, Repr

/-- The `octaviav1.OctaviaStatus` record. -/
structure OctaviaStatus where
  Conditions : List Condition
  Hash : List (String × String)
  TransportURLSecret : String
  DatabaseHostname : String
  OctaviaAPIReadyCount : Int
  OctaviaHealthManagerReadyCount : Int
  OctaviaHousekeepingReadyCount : Int
  OctaviaWorkerReadyCount : Int
  ObservedGeneration : Int
deriving DecidableEq, Repr

/-- The `octaviav1.Octavia` object; `DeletionTimestamp` is `none` when it is zero. -/
structure Octavia where
  Name : String
  Generation : Int
  DeletionTimestamp : Option Nat
  Finalizers : List String
  Spec : OctaviaSpec
  Status : OctaviaStatus
deriving DecidableEq, Repr

namespace controllerutil

/-- The controller-runtime `AddFinalizer`: appends the finalizer unless it is there
already, and tells whether it was added. -/
def AddFinalizer (fs : List String) (finalizer : String) : List String × Bool :=
  if finalizer ∈ fs then (fs, false) else (fs ++ [finalizer], true)

/-- The controller-runtime `RemoveFinalizer`: drops every occurrence. -/
def RemoveFinalizer (fs : List String) (finalizer : String) : List String :=
  fs.filter (fun f => f != finalizer)

end controllerutil

/-! ## Collaborators -/

/-- A collaborator call, with the arguments the controller passes that come from
the instance. -/
inductive Call where
  | ClientGet
  | NewHelper
  | PatchInstance
  | GetDatabaseByNameAndAccount (crName account : String)
  | DeleteFinalizer (crName : String)
  | ReconcileRbac
  | transportURLCreateOrUpdate
  | EnsureAmphoraCerts
  | EnsureQuotas
  | GetNADWithName (name : String)
  | CreateNetworksAnnotation_
  | GetSecret (name : String)
  | EnsureMariaDBAccount (account : String)
  | CreateOrPatchAll (crName : String)
  | WaitForDBCreated (crName : String)
  | EnsureSecrets
  | DoJob (beforeHash : String)
  | apiDeploymentCreateOrUpdate
  | EnsureAmphoraManagementNetwork
  | amphoraControllerDaemonSetCreateOrUpdate (role : String)
  | DeleteUnusedMariaDBAccountFinalizers (crName account : String)
  | EnsureAmpSSHConfig
  | DeploymentCreateOrPatch
  | NewService
  | ServiceCreateOrPatch
  | GetAPIEndpoint
  | HttpGet (url : String)
  | EnsureAmphoraImages (urlMap : List OctaviaAmphoraImage)
  | DeploymentDelete
deriving DecidableEq, Repr

/-- What `job.NewJob(...).DoJob` leaves behind: its return values, `HasChanged()`
and `GetHash()`. -/
structure JobOutcome where
  result : Result
  err : Option Err
  changed : Bool
  hash : String
deriving DecidableEq, Repr

/-- The status of an `OctaviaAPI` child as read back after the upsert. -/
structure OctaviaAPIStatus where
  ReadyCount : Int
  Conditions : List Condition
deriving DecidableEq, Repr

/-- The status of an `OctaviaAmphoraController` child as read back after the upsert. -/
structure OctaviaAmphoraControllerStatus where
  ReadyCount : Int
  DesiredNumberScheduled : Int
  Conditions : List Condition
deriving DecidableEq, Repr

/-- The responses of the collaborators during one pass.  A pair `Result × Option Err`
is a Go `(ctrl.Result, error)`; an `Except` is a Go `(value, error)` whose value the
controller reads only when the error is nil. -/
structure Env where
  ClientGet : Except Err Octavia
  NewHelper : Option Err
  GetFinalizer : String
  PatchInstance : Option Err
  GetDatabaseByNameAndAccount : String → String → Option Err
  DeleteFinalizer : String → Option Err
  ReconcileRbac : Result × Option Err
  transportURLCreateOrUpdate : Except Err String
  EnsureAmphoraCerts : Option Err
  EnsureQuotas : Option Err
  GetNADWithName : String → Option Err
  CreateNetworksAnnotation_ : Option Err
  GetSecret : String → Except Err (String × String)
  EnsureMariaDBAccount : String → Option Err
  CreateOrPatchAll : String → Result × Option Err
  WaitForDBCreated : String → Result × Option Err
  GetDatabaseHostname : String
  EnsureSecrets : Except Err (List (String × String))
  ObjectHashEnvVars : List (String × String) → Except Err String
  ObjectHashString : String → Except Err String
  DoJob : String → JobOutcome
  apiDeploymentCreateOrUpdate : Except Err OctaviaAPIStatus
  EnsureAmphoraManagementNetwork : Option Err
  amphoraControllerDaemonSetCreateOrUpdate : String → Except Err OctaviaAmphoraControllerStatus
  DeleteUnusedMariaDBAccountFinalizers : String → String → Option Err
  EnsureAmpSSHConfig : Option Err
  DeploymentCreateOrPatch : Result × Option Err
  ReadyReplicas : Int
  NewService : Option Err
  ServiceCreateOrPatch : Result × Option Err
  GetAPIEndpoint : Except Err String
  HttpGet : String → Except Err (List String)
  EnsureAmphoraImages : List OctaviaAmphoraImage → Bool × Option Err
  DeploymentDelete : Option Err

/-- The state a pass threads through its statements: the instance, the collaborator
calls made so far and the source lines of the `return` statements executed so far. -/
structure Pass where
  inst : Octavia
  calls : List Call
  returns : List Nat
deriving DecidableEq, Repr

/-- What a function of the controller hands back: the state, the Go return values
and the source line of the `return` statement taken. -/
structure Ret where
  pass : Pass
  result : Result
  err : Option Err
  line : Nat
deriving DecidableEq, Repr

namespace Pass

/-- Record a collaborator call. -/
def call (p : Pass) (c : Call) : Pass :=
  { p with calls := p.calls ++ [c] }

/-- The statement `instance.Status.Conditions.Set(c)`. -/
def setCond (p : Pass) (now : Nat) (c : Condition) : Pass :=
  { p with inst := { p.inst with Status := { p.inst.Status with
      Conditions := condition.Set now p.inst.Status.Conditions c } } }

/-- The statement `instance.Status.Conditions.MarkTrue(t, message)`. -/
def markTrue (p : Pass) (now : Nat) (t message : String) : Pass :=
  p.setCond now (condition.TrueCondition t message)

/-- The statement `instance.Status.Hash[k] = v`. -/
def putHash (p : Pass) (k v : String) : Pass :=
  { p with inst := { p.inst with Status := { p.inst.Status with
      Hash := mapPut p.inst.Status.Hash k v } } }

/-- The statement `instance.Status.TransportURLSecret = v`. -/
def setTransportURLSecret (p : Pass) (v : String) : Pass :=
  { p with inst := { p.inst with Status := { p.inst.Status with TransportURLSecret := v } } }

/-- The statement `instance.Status.DatabaseHostname = v`. -/
def setDatabaseHostname (p : Pass) (v : String) : Pass :=
  { p with inst := { p.inst with Status := { p.inst.Status with DatabaseHostname := v } } }

/-- The statement `instance.Status.OctaviaAPIReadyCount = v`. -/
def setOctaviaAPIReadyCount (p : Pass) (v : Int) : Pass :=
  { p with inst := { p.inst with Status := { p.inst.Status with OctaviaAPIReadyCount := v } } }

/-- The statement `instance.Status.OctaviaHealthManagerReadyCount = v`. -/
def setOctaviaHealthManagerReadyCount (p : Pass) (v : Int) : Pass :=
  { p with inst := { p.inst with Status := { p.inst.Status with
      OctaviaHealthManagerReadyCount := v } } }

/-- The statement `instance.Status.OctaviaHousekeepingReadyCount = v`. -/
def setOctaviaHousekeepingReadyCount (p : Pass) (v : Int) : Pass :=
  { p with inst := { p.inst with Status := { p.inst.Status with
      OctaviaHousekeepingReadyCount := v } } }

/-- The statement `instance.Status.OctaviaWorkerReadyCount = v`. -/
def setOctaviaWorkerReadyCount (p : Pass) (v : Int) : Pass :=
  { p with inst := { p.inst with Status := { p.inst.Status with OctaviaWorkerReadyCount := v } } }

/-- The statement `instance.Status.ObservedGeneration = instance.Generation`. -/
def setObservedGeneration (p : Pass) : Pass :=
  { p with inst := { p.inst with Status := { p.inst.Status with
      ObservedGeneration := p.inst.Generation } } }

/-- The statement `instance.Status.Hash = hashMap`. -/
def setHashMap (p : Pass) (hashMap : List (String × String)) : Pass :=
  { p with inst := { p.inst with Status := { p.inst.Status with Hash := hashMap } } }

/-- The statement `controllerutil.RemoveFinalizer(instance, finalizer)`. -/
def removeFinalizer (p : Pass) (finalizer : String) : Pass :=
  { p with inst := { p.inst with
      Finalizers := controllerutil.RemoveFinalizer p.inst.Finalizers finalizer } }

/-- The statement `return result, err` at source line `line`. -/
def ret (p : Pass) (result : Result) (err : Option Err) (line : Nat) : Ret :=
  { pass := { p with returns := p.returns ++ [line] }, result := result, err := err,
    line := line }

end Pass

/-! ## Deletion cascade (`reconcileDelete`, lines 255-289) -/

/-- `reconcileDelete`. -/
def reconcileDelete (env : Env) (p : Pass) : Ret :=
  -- remove db finalizer first
  let p := p.call (.GetDatabaseByNameAndAccount octavia.DatabaseCRName p.inst.Spec.DatabaseAccount)
  let err := env.GetDatabaseByNameAndAccount octavia.DatabaseCRName p.inst.Spec.DatabaseAccount
  if err.isSome && !IsNotFound err then p.ret Result.empty err 262 else
  let p := if !IsNotFound err then p.call (.DeleteFinalizer octavia.DatabaseCRName) else p
  let derr := if !IsNotFound err then env.DeleteFinalizer octavia.DatabaseCRName else none
  if derr.isSome then p.ret Result.empty derr 267 else
  let p := p.call (.GetDatabaseByNameAndAccount octavia.PersistenceDatabaseCRName
    p.inst.Spec.PersistenceDatabaseAccount)
  let err := env.GetDatabaseByNameAndAccount octavia.PersistenceDatabaseCRName
    p.inst.Spec.PersistenceDatabaseAccount
  if err.isSome && !IsNotFound err then p.ret Result.empty err 273 else
  let p := if !IsNotFound err then p.call (.DeleteFinalizer octavia.PersistenceDatabaseCRName) else p
  let derr := if !IsNotFound err then env.DeleteFinalizer octavia.PersistenceDatabaseCRName else none
  if derr.isSome then p.ret Result.empty derr 278 else
  -- We did all the cleanup on the objects we created so we can remove the
  -- finalizer from ourselves to allow the deletion
  let p := p.removeFinalizer env.GetFinalizer
  p.ret Result.empty none 288

/-! ## Databases (`ensureDB`, lines 760-879) -/

/-- Either the function returns here, or the pass goes on to the next statement. -/
inductive Step where
  | stop (r : Ret)
  | next (p : Pass)

open condition in
/-- The loop of `ensureDB` over the two databases (lines 829-870). -/
def ensureDBLoop (env : Env) (now : Nat) : List String → Pass → Step
  | [], p => .next p
  | db :: dbs, p =>
    -- create or patch the DB
    let p := p.call (.CreateOrPatchAll db)
    match (env.CreateOrPatchAll db).2 with
    | some err =>
      .stop ((p.setCond now (FalseCondition DBReadyCondition ErrorReason SeverityWarning
        "condition.DBReadyErrorMessage" [err.msg])).ret Result.empty (some err) 840)
    | none =>
    if (env.CreateOrPatchAll db).1 ≠ Result.empty then
      .stop ((p.setCond now (FalseCondition DBReadyCondition RequestedReason SeverityInfo
        "condition.DBReadyRunningMessage" [])).ret (env.CreateOrPatchAll db).1 none 848)
    else
    -- wait for the DB to be setup
    let p := p.call (.WaitForDBCreated db)
    match (env.WaitForDBCreated db).2 with
    | some err =>
      .stop ((p.setCond now (FalseCondition DBReadyCondition ErrorReason SeverityWarning
        "condition.DBReadyErrorMessage" [err.msg])).ret (env.WaitForDBCreated db).1 (some err) 860)
    | none =>
    if (env.WaitForDBCreated db).1 ≠ Result.empty then
      .stop ((p.setCond now (FalseCondition DBReadyCondition RequestedReason SeverityInfo
        "condition.DBReadyRunningMessage" [])).ret (env.WaitForDBCreated db).1 none 868)
    else ensureDBLoop env now dbs p

open condition in
/-- `ensureDB`: set up the main database and the persistence database. -/
def ensureDB (env : Env) (now : Nat) (p : Pass) : Ret :=
  let p := p.call (.EnsureMariaDBAccount p.inst.Spec.DatabaseAccount)
  match env.EnsureMariaDBAccount p.inst.Spec.DatabaseAccount with
  | some err =>
    (p.setCond now (FalseCondition mariadbv1.MariaDBAccountReadyCondition ErrorReason
      SeverityWarning "mariadbv1.MariaDBAccountNotReadyMessage" [err.msg])).ret
      Result.empty (some err) 786
  | none =>
  let p := p.call (.EnsureMariaDBAccount p.inst.Spec.PersistenceDatabaseAccount)
  match env.EnsureMariaDBAccount p.inst.Spec.PersistenceDatabaseAccount with
  | some err =>
    (p.setCond now (FalseCondition mariadbv1.MariaDBAccountReadyCondition ErrorReason
      SeverityWarning "mariadbv1.MariaDBAccountNotReadyMessage" [err.msg])).ret
      Result.empty (some err) 802
  | none =>
  let p := p.markTrue now mariadbv1.MariaDBAccountReadyCondition
    "mariadbv1.MariaDBAccountReadyMessage"
  match ensureDBLoop env now [octavia.DatabaseCRName, octavia.PersistenceDatabaseCRName] p with
  | .stop r => r
  | .next p =>
  -- update Status.DatabaseHostname, used to bootstrap/config the service
  let p := p.setDatabaseHostname env.GetDatabaseHostname
  let p := p.markTrue now DBReadyCondition "condition.DBReadyMessage"
  p.ret Result.empty none 876

/-! ## Input hash (`createHashOfInputHashes`, lines 1150-1172) -/

/-- The return values of `createHashOfInputHashes` together with the state it leaves
behind. -/
structure HashOfInputHashes where
  pass : Pass
  hash : String
  changed : Bool
  err : Option Err
deriving DecidableEq, Repr

/-- `createHashOfInputHashes`: `env.ObjectHashEnvVars` is `util.ObjectHash` after
`env.MergeEnvs`. -/
def createHashOfInputHashes (env : Env) (p : Pass) (envVars : List (String × String)) :
    HashOfInputHashes :=
  match env.ObjectHashEnvVars envVars with
  | .error err => { pass := p, hash := "", changed := false, err := some err }
  | .ok hash =>
    if (util.SetHash p.inst.Status.Hash common.InputHashName hash).2 then
      { pass := p.setHashMap (util.SetHash p.inst.Status.Hash common.InputHashName hash).1,
        hash := hash, changed := true, err := none }
    else { pass := p, hash := hash, changed := false, err := none }

/-! ## Service init (`reconcileInit`, lines 291-430) -/

/-- `generateServiceConfigMaps` (lines 1063-1148): the error of `secret.EnsureSecrets`
and the environment variables it adds to `envVars`. -/
def generateServiceConfigMaps (env : Env) (envVars : List (String × String)) :
    List (String × String) × Option Err :=
  match env.EnsureSecrets with
  | .error err => (envVars, some err)
  | .ok added => (added.foldl (fun m kv => mapPut m kv.1 kv.2) envVars, none)

open condition in
/-- `reconcileInit`. -/
def reconcileInit (env : Env) (now : Nat) (p : Pass) : Ret :=
  -- check for required OpenStack secret holding passwords for service/admin user
  let p := p.call (.GetSecret p.inst.Spec.Secret)
  match env.GetSecret p.inst.Spec.Secret with
  | .error err =>
    if err.notFound then
      (p.setCond now (FalseCondition InputReadyCondition RequestedReason SeverityInfo
        "condition.InputReadyWaitingMessage" [])).ret { RequeueAfter := 10 }
        (some ⟨false, "OpenStack secret " ++ p.inst.Spec.Secret ++ " not found"⟩) 315
    else
      (p.setCond now (FalseCondition InputReadyCondition ErrorReason SeverityWarning
        "condition.InputReadyErrorMessage" [err.msg])).ret Result.empty (some err) 323
  | .ok ospSecret =>
  let configMapVars := mapPut [] ospSecret.1 ospSecret.2
  let p := p.call (.GetSecret p.inst.Status.TransportURLSecret)
  match env.GetSecret p.inst.Status.TransportURLSecret with
  | .error err =>
    if err.notFound then
      (p.setCond now (FalseCondition InputReadyCondition RequestedReason SeverityInfo
        "condition.InputReadyWaitingMessage" [])).ret { RequeueAfter := 10 }
        (some ⟨false, "TransportURL secret " ++ p.inst.Status.TransportURLSecret ++ " not found"⟩)
        335
    else
      (p.setCond now (FalseCondition InputReadyCondition ErrorReason SeverityWarning
        "condition.InputReadyErrorMessage" [err.msg])).ret Result.empty (some err) 343
  | .ok transportURLSecret =>
  let configMapVars := mapPut configMapVars transportURLSecret.1 transportURLSecret.2
  let db := ensureDB env now p
  if db.err.isSome then db.pass.ret Result.empty db.err 349 else
  if db.result ≠ Result.empty then db.pass.ret db.result none 351 else
  let p := db.pass
  -- create Configmap required for octavia input
  let p := p.call .EnsureSecrets
  match (generateServiceConfigMaps env configMapVars).2 with
  | some err =>
    (p.setCond now (FalseCondition ServiceConfigReadyCondition ErrorReason SeverityWarning
      "condition.ServiceConfigReadyErrorMessage" [err.msg])).ret Result.empty (some err) 368
  | none =>
  let configMapVars := (generateServiceConfigMaps env configMapVars).1
  -- create hash over all the different input resources to identify if any those
  -- changed and a restart/recreate is required.
  let h := createHashOfInputHashes env p configMapVars
  let p := h.pass
  if h.err.isSome then p.ret Result.empty h.err 377 else
  if h.changed then
    -- Hash changed and instance status should be updated (which will be done by main
    -- defer func), so we need to return and reconcile again
    p.ret Result.empty none 381
  else
  let p := p.markTrue now ServiceConfigReadyCondition "condition.ServiceConfigReadyMessage"
  -- run octavia db sync
  let dbSyncHash := mapGet p.inst.Status.Hash octaviav1.DbSyncHash
  let p := p.call (.DoJob dbSyncHash)
  let dbSyncjob := env.DoJob dbSyncHash
  if dbSyncjob.result ≠ Result.empty then
    (p.setCond now (FalseCondition DBSyncReadyCondition RequestedReason SeverityInfo
      "condition.DBSyncReadyRunningMessage" [])).ret dbSyncjob.result none 410
  else
  match dbSyncjob.err with
  | some err =>
    (p.setCond now (FalseCondition DBSyncReadyCondition ErrorReason SeverityWarning
      "condition.DBSyncReadyErrorMessage" [err.msg])).ret Result.empty (some err) 419
  | none =>
  let p := if dbSyncjob.changed then p.putHash octaviav1.DbSyncHash dbSyncjob.hash else p
  let p := p.markTrue now DBSyncReadyCondition "condition.DBSyncReadyMessage"
  p.ret Result.empty none 429

/-! ## Asset pipeline (`reconcileAmphoraImages`, lines 881-1029) -/

open condition in
/-- `reconcileAmphoraImages`. -/
def reconcileAmphoraImages (env : Env) (now : Nat) (p : Pass) : Ret :=
  if p.inst.Spec.AmphoraImageContainerImage = "" then
    let p := if mapGet p.inst.Status.Hash octaviav1.ImageUploadHash ≠ "" then
      p.putHash octaviav1.ImageUploadHash "" else p
    p.ret Result.empty none 893
  else
  match env.ObjectHashString p.inst.Spec.AmphoraImageContainerImage with
  | .error err => p.ret Result.empty (some err) 898
  | .ok hash =>
  if hash = mapGet p.inst.Status.Hash octaviav1.ImageUploadHash then
    -- No change
    p.ret Result.empty none 902
  else
  let p := p.call .DeploymentCreateOrPatch
  match env.DeploymentCreateOrPatch.2 with
  | some err =>
    (p.setCond now (FalseCondition DeploymentReadyCondition ErrorReason SeverityWarning
      "condition.DeploymentReadyErrorMessage" [err.msg])).ret env.DeploymentCreateOrPatch.1
      (some err) 922
  | none =>
  if env.DeploymentCreateOrPatch.1 ≠ Result.empty then
    (p.setCond now (FalseCondition DeploymentReadyCondition RequestedReason SeverityInfo
      "condition.DeploymentReadyRunningMessage" [])).ret env.DeploymentCreateOrPatch.1 none 929
  else
  if env.ReadyReplicas = 0 then
    -- Not ready, wait for the next loop
    p.ret { Requeue := true, RequeueAfter := 1 } none 936
  else
  let p := p.markTrue now DeploymentReadyCondition "condition.DeploymentReadyMessage"
  let p := p.call .NewService
  match env.NewService with
  | some err =>
    (p.setCond now (FalseCondition ExposeServiceReadyCondition ErrorReason SeverityWarning
      "condition.ExposeServiceReadyErrorMessage" [err.msg])).ret Result.empty (some err) 973
  | none =>
  let p := p.call .ServiceCreateOrPatch
  match env.ServiceCreateOrPatch.2 with
  | some err =>
    (p.setCond now (FalseCondition ExposeServiceReadyCondition ErrorReason SeverityWarning
      "condition.ExposeServiceReadyErrorMessage" [err.msg])).ret env.ServiceCreateOrPatch.1
      (some err) 991
  | none =>
  if env.ServiceCreateOrPatch.1 ≠ Result.empty then
    (p.setCond now (FalseCondition ExposeServiceReadyCondition RequestedReason SeverityInfo
      "condition.ExposeServiceReadyRunningMessage" [])).ret env.ServiceCreateOrPatch.1 none 998
  else
  let p := p.call .GetAPIEndpoint
  match env.GetAPIEndpoint with
  | .error err => p.ret Result.empty (some err) 1002
  | .ok endpoint =>
  let p := p.markTrue now ExposeServiceReadyCondition "condition.ExposeServiceReadyMessage"
  let p := p.call (.HttpGet (listUrl endpoint))
  match getLocalImageURLs env.HttpGet endpoint with
  | .error err => p.ret { Requeue := true, RequeueAfter := 1 } (some err) 1009
  | .ok urlMap =>
  let p := p.call (.EnsureAmphoraImages urlMap)
  match (env.EnsureAmphoraImages urlMap).2 with
  | some err => p.ret Result.empty (some err) 1014
  | none =>
  if !(env.EnsureAmphoraImages urlMap).1 then
    -- Images are not ready
    p.ret { Requeue := true, RequeueAfter := 5 } none 1019
  else
  let p := p.putHash octaviav1.ImageUploadHash hash
  -- Tasks are successfull, the deployment can be deleted
  let p := p.call .DeploymentDelete
  p.ret Result.empty none 1028

/-! ## Role lookup tables (lines 1268-1302) -/

/-- `amphoraControllerReadyCondition`: a Go map read, the zero value for a role
that is not in the table. -/
def amphoraControllerReadyCondition (role : String) : String :=
  mapGet [(octaviav1.HealthManager, octaviav1.OctaviaHealthManagerReadyCondition),
          (octaviav1.Housekeeping, octaviav1.OctaviaHousekeepingReadyCondition),
          (octaviav1.Worker, octaviav1.OctaviaWorkerReadyCondition)] role

/-- `amphoraControllerInitCondition`: a Go map read, nil for a role that is not in
the table. -/
def amphoraControllerInitCondition (role : String) : Option Condition :=
  [(octaviav1.HealthManager, condition.UnknownCondition (amphoraControllerReadyCondition role)
      condition.InitReason "octaviav1.OctaviaHealthManagerReadyInitMessage"),
   (octaviav1.Housekeeping, condition.UnknownCondition (amphoraControllerReadyCondition role)
      condition.InitReason "octaviav1.OctaviaHousekeepingReadyInitMessage"),
   (octaviav1.Worker, condition.UnknownCondition (amphoraControllerReadyCondition role)
      condition.InitReason "octaviav1.OctaviaWorkerReadyInitMessage")].lookup role

/-- `amphoraControllerErrorMessage`. -/
def amphoraControllerErrorMessage (role : String) : String :=
  mapGet [(octaviav1.HealthManager, "octaviav1.OctaviaHealthManagerReadyErrorMessage"),
          (octaviav1.Housekeeping, "octaviav1.OctaviaHousekeepingReadyErrorMessage"),
          (octaviav1.Worker, "octaviav1.OctaviaWorkerReadyErrorMessage")] role

/-! ## Normal convergence (`reconcileNormal`, lines 454-756) -/

/-- `reconcileUpdate` (lines 432-441). -/
def reconcileUpdate (p : Pass) : Ret :=
  p.ret Result.empty none 440

/-- `reconcileUpgrade` (lines 443-452). -/
def reconcileUpgrade (p : Pass) : Ret :=
  p.ret Result.empty none 451

open condition in
/-- The loop over the declared network attachments (lines 537-557). -/
def checkNetworkAttachments (env : Env) (now : Nat) : List String → Pass → Step
  | [], p => .next p
  | networkAttachment :: rest, p =>
    let p := p.call (.GetNADWithName networkAttachment)
    match env.GetNADWithName networkAttachment with
    | some err =>
      if err.notFound then
        .stop ((p.setCond now (FalseCondition NetworkAttachmentsReadyCondition RequestedReason
          SeverityInfo "condition.NetworkAttachmentsReadyWaitingMessage"
          [networkAttachment])).ret { RequeueAfter := 10 }
          (some ⟨false, "network-attachment-definition " ++ networkAttachment ++ " not found"⟩)
          547)
      else
        .stop ((p.setCond now (FalseCondition NetworkAttachmentsReadyCondition ErrorReason
          SeverityWarning "condition.NetworkAttachmentsReadyErrorMessage" [err.msg])).ret
          Result.empty (some err) 555)
    | none => checkNetworkAttachments env now rest p

namespace Step

/-- Sequencing of statements: a `return` ends the function, otherwise the next
statements run on the state reached. -/
def bind (s : Step) (f : Pass → Step) : Step :=
  match s with
  | .stop r => .stop r
  | .next p => f p

/-- The last statements of a function, which end in a `return`. -/
def finish (s : Step) (f : Pass → Ret) : Ret :=
  match s with
  | .stop r => r
  | .next p => f p

/-- The state a step leaves behind. -/
def pass : Step → Pass
  | .stop r => r.pass
  | .next p => p

end Step

/-- `reconcileNormal`, lines 458-477: service account, role, binding. -/
def stageRbac (env : Env) (p : Pass) : Step :=
  let p := p.call .ReconcileRbac
  if env.ReconcileRbac.2.isSome then .stop (p.ret env.ReconcileRbac.1 env.ReconcileRbac.2 474)
  else
  if env.ReconcileRbac.1 ≠ Result.empty then .stop (p.ret env.ReconcileRbac.1 none 476) else
  .next p

open condition in
/-- `reconcileNormal`, lines 479-504: the transport URL. -/
def stageTransportURL (env : Env) (now : Nat) (p : Pass) : Step :=
  let p := p.call .transportURLCreateOrUpdate
  match env.transportURLCreateOrUpdate with
  | .error err =>
    .stop ((p.setCond now (FalseCondition RabbitMqTransportURLReadyCondition ErrorReason
      SeverityWarning "condition.RabbitMqTransportURLReadyErrorMessage" [err.msg])).ret
      Result.empty (some err) 486)
  | .ok secretName =>
  let p := p.setTransportURLSecret secretName
  if p.inst.Status.TransportURLSecret = "" then
    .stop ((p.setCond now (FalseCondition InputReadyCondition RequestedReason SeverityInfo
      "condition.InputReadyWaitingMessage" [])).ret { RequeueAfter := 10 } none 502)
  else
  .next (p.markTrue now RabbitMqTransportURLReadyCondition
    "condition.RabbitMqTransportURLReadyMessage")

open condition in
/-- `reconcileNormal`, lines 506-527: amphora certificates and quotas. -/
def stageCertsQuotas (env : Env) (now : Nat) (p : Pass) : Step :=
  let p := p.call .EnsureAmphoraCerts
  match env.EnsureAmphoraCerts with
  | some err =>
    .stop ((p.setCond now (FalseCondition ServiceConfigReadyCondition ErrorReason SeverityWarning
      "condition.ServiceConfigReadyErrorMessage" [err.msg])).ret Result.empty (some err) 514)
  | none =>
  let p := p.call .EnsureQuotas
  match env.EnsureQuotas with
  | some err =>
    .stop ((p.setCond now (FalseCondition InputReadyCondition ErrorReason SeverityWarning
      "condition.InputReadyErrorMessage" [err.msg])).ret Result.empty (some err) 524)
  | none =>
  .next (p.markTrue now InputReadyCondition "condition.InputReadyMessage")

open condition in
/-- `reconcileNormal`, lines 537-564: the declared network attachments and their
annotation. -/
def stageNetworkAttachments (env : Env) (now : Nat) (p : Pass) : Step :=
  (checkNetworkAttachments env now p.inst.Spec.NetworkAttachments p).bind fun p =>
  let p := p.call .CreateNetworksAnnotation_
  match env.CreateNetworksAnnotation_ with
  | some err =>
    .stop (p.ret Result.empty (some ⟨err.notFound, "failed create network annotation from [" ++
      " ".intercalate p.inst.Spec.NetworkAttachments ++ "]: " ++ err.msg⟩) 561)
  | none =>
  .next (p.markTrue now NetworkAttachmentsReadyCondition
    "condition.NetworkAttachmentsReadyMessage")

open condition in
/-- `reconcileNormal`, lines 566-573: service init. -/
def stageInit (env : Env) (now : Nat) (p : Pass) : Step :=
  let init := reconcileInit env now p
  if init.err.isSome then .stop (init.pass.ret init.result init.err 569) else
  if init.result ≠ Result.empty then .stop (init.pass.ret init.result none 571) else
  .next (init.pass.markTrue now NetworkAttachmentsReadyCondition
    "condition.NetworkAttachmentsReadyMessage")

/-- `reconcileNormal`, lines 575-581: service update. -/
def stageUpdate (p : Pass) : Step :=
  let upd := reconcileUpdate p
  if upd.err.isSome then .stop (upd.pass.ret upd.result upd.err 578) else
  if upd.result ≠ Result.empty then .stop (upd.pass.ret upd.result none 580) else
  .next upd.pass

/-- `reconcileNormal`, lines 583-589: service upgrade. -/
def stageUpgrade (p : Pass) : Step :=
  let upg := reconcileUpgrade p
  if upg.err.isSome then .stop (upg.pass.ret upg.result upg.err 586) else
  if upg.result ≠ Result.empty then .stop (upg.pass.ret upg.result none 588) else
  .next upg.pass

open condition in
/-- `reconcileNormal`, lines 591-617: the API deployment and its mirrored condition. -/
def stageAPI (env : Env) (now : Nat) (p : Pass) : Step :=
  let p := p.call .apiDeploymentCreateOrUpdate
  match env.apiDeploymentCreateOrUpdate with
  | .error err =>
    .stop ((p.setCond now (FalseCondition octaviav1.OctaviaAPIReadyCondition ErrorReason
      SeverityWarning "octaviav1.OctaviaAPIReadyErrorMessage" [err.msg])).ret
      Result.empty (some err) 602)
  | .ok octaviaAPI =>
  -- Mirror OctaviaAPI status' ReadyCount to this parent CR
  let p := p.setOctaviaAPIReadyCount octaviaAPI.ReadyCount
  match Mirror octaviaAPI.Conditions octaviav1.OctaviaAPIReadyCondition with
  | some conditionStatus => .next (p.setCond now conditionStatus)
  | none =>
    .next (p.markTrue now octaviav1.OctaviaAPIReadyCondition "condition.DeploymentReadyMessage")

/-- `reconcileNormal`, lines 623-636: the load balancer management network. -/
def stageManagementNetwork (env : Env) (p : Pass) : Step :=
  let p := p.call .EnsureAmphoraManagementNetwork
  match env.EnsureAmphoraManagementNetwork with
  | some err => .stop (p.ret Result.empty (some err) 634)
  | none => .next p

open condition in
/-- `reconcileNormal`, lines 638-668: the health manager and the barrier behind it. -/
def stageHealthManager (env : Env) (now : Nat) (p : Pass) : Step :=
  let p := p.call (.amphoraControllerDaemonSetCreateOrUpdate octaviav1.HealthManager)
  match env.amphoraControllerDaemonSetCreateOrUpdate octaviav1.HealthManager with
  | .error err =>
    .stop ((p.setCond now (FalseCondition (amphoraControllerReadyCondition octaviav1.HealthManager)
      ErrorReason SeverityWarning (amphoraControllerErrorMessage octaviav1.HealthManager)
      [err.msg])).ret Result.empty (some err) 647)
  | .ok octaviaHealthManager =>
  let p := p.setOctaviaHealthManagerReadyCount octaviaHealthManager.ReadyCount
  let p := match Mirror octaviaHealthManager.Conditions
      (amphoraControllerReadyCondition octaviav1.HealthManager) with
    | some conditionStatus => p.setCond now conditionStatus
    | none => p.markTrue now (amphoraControllerReadyCondition octaviav1.HealthManager)
        "condition.DeploymentReadyMessage"
  -- We do not try and reconcile the other controller PODs until after the health
  -- manager Pods are all deployed.
  if octaviaHealthManager.ReadyCount ≠ octaviaHealthManager.DesiredNumberScheduled then
    .stop (p.ret Result.empty none 667)
  else .next p

open condition in
/-- `reconcileNormal`, lines 670-693: housekeeping. -/
def stageHousekeeping (env : Env) (now : Nat) (p : Pass) : Step :=
  let p := p.call (.amphoraControllerDaemonSetCreateOrUpdate octaviav1.Housekeeping)
  match env.amphoraControllerDaemonSetCreateOrUpdate octaviav1.Housekeeping with
  | .error err =>
    .stop ((p.setCond now (FalseCondition (amphoraControllerReadyCondition octaviav1.Housekeeping)
      ErrorReason SeverityWarning (amphoraControllerErrorMessage octaviav1.Housekeeping)
      [err.msg])).ret Result.empty (some err) 680)
  | .ok octaviaHousekeeping =>
  let p := p.setOctaviaHousekeepingReadyCount octaviaHousekeeping.ReadyCount
  match Mirror octaviaHousekeeping.Conditions
      (amphoraControllerReadyCondition octaviav1.Housekeeping) with
  | some conditionStatus => .next (p.setCond now conditionStatus)
  | none => .next (p.markTrue now (amphoraControllerReadyCondition octaviav1.Housekeeping)
      "condition.DeploymentReadyMessage")

open condition in
/-- `reconcileNormal`, lines 695-717: worker. -/
def stageWorker (env : Env) (now : Nat) (p : Pass) : Step :=
  let p := p.call (.amphoraControllerDaemonSetCreateOrUpdate octaviav1.Worker)
  match env.amphoraControllerDaemonSetCreateOrUpdate octaviav1.Worker with
  | .error err =>
    .stop ((p.setCond now (FalseCondition (amphoraControllerReadyCondition octaviav1.Worker)
      ErrorReason SeverityWarning (amphoraControllerErrorMessage octaviav1.Worker)
      [err.msg])).ret Result.empty (some err) 704)
  | .ok octaviaWorker =>
  let p := p.setOctaviaWorkerReadyCount octaviaWorker.ReadyCount
  match Mirror octaviaWorker.Conditions (amphoraControllerReadyCondition octaviav1.Worker) with
  | some conditionStatus => .next (p.setCond now conditionStatus)
  | none => .next (p.markTrue now (amphoraControllerReadyCondition octaviav1.Worker)
      "condition.DeploymentReadyMessage")

/-- `reconcileNormal`, lines 719-734: finalizers of unused database accounts and the
amphora SSH configuration. -/
def stageAccountsSSH (env : Env) (p : Pass) : Step :=
  -- remove finalizers from unused MariaDBAccount records
  let p := p.call (.DeleteUnusedMariaDBAccountFinalizers octavia.DatabaseCRName
    p.inst.Spec.DatabaseAccount)
  match env.DeleteUnusedMariaDBAccountFinalizers octavia.DatabaseCRName
    p.inst.Spec.DatabaseAccount with
  | some err => .stop (p.ret Result.empty (some err) 722)
  | none =>
  let p := p.call (.DeleteUnusedMariaDBAccountFinalizers octavia.PersistenceDatabaseCRName
    p.inst.Spec.PersistenceDatabaseAccount)
  match env.DeleteUnusedMariaDBAccountFinalizers octavia.PersistenceDatabaseCRName
    p.inst.Spec.PersistenceDatabaseAccount with
  | some err => .stop (p.ret Result.empty (some err) 727)
  | none =>
  -- Amphora SSH key config for debugging
  let p := p.call .EnsureAmpSSHConfig
  match env.EnsureAmpSSHConfig with
  | some err => .stop (p.ret Result.empty (some err) 733)
  | none => .next p

/-- `reconcileNormal`, lines 736-742: the asset pipeline. -/
def stageAmphoraImages (env : Env) (now : Nat) (p : Pass) : Step :=
  let img := reconcileAmphoraImages env now p
  if img.result ≠ Result.empty then .stop (img.pass.ret img.result none 738) else
  if img.err.isSome then .stop (img.pass.ret Result.empty img.err 741) else
  .next img.pass

open condition in
/-- `reconcileNormal`, lines 746-755: the observed generation and the Ready condition. -/
def stageReady (now : Nat) (p : Pass) : Ret :=
  -- Update the lastObserved generation before evaluating conditions
  let p := p.setObservedGeneration
  -- We reached the end of the Reconcile, update the Ready condition based on the sub
  -- conditions
  let p := if AllSubConditionIsTrue p.inst.Status.Conditions then
    p.markTrue now ReadyCondition "condition.ReadyMessage" else p
  p.ret Result.empty none 755

/-- `reconcileNormal`, lines 454-617: the stages up to the API deployment. -/
def reconcileNormalAPI (env : Env) (now : Nat) (p : Pass) : Step :=
  stageRbac env p
    |>.bind (stageTransportURL env now)
    |>.bind (stageCertsQuotas env now)
    |>.bind (stageNetworkAttachments env now)
    |>.bind (stageInit env now)
    |>.bind stageUpdate
    |>.bind stageUpgrade
    |>.bind (stageAPI env now)

/-- `reconcileNormal`, lines 619-756: the amphora reconciliation. -/
def reconcileNormalAmphora (env : Env) (now : Nat) (p : Pass) : Ret :=
  stageManagementNetwork env p
    |>.bind (stageHealthManager env now)
    |>.bind (stageHousekeeping env now)
    |>.bind (stageWorker env now)
    |>.bind (stageAccountsSSH env)
    |>.bind (stageAmphoraImages env now)
    |>.finish (stageReady now)

/-- `reconcileNormal`: its statements in source order, grouped into stages. -/
def reconcileNormal (env : Env) (now : Nat) (p : Pass) : Ret :=
  (reconcileNormalAPI env now p).finish (reconcileNormalAmphora env now)

/-! ## Dispatcher (`Reconcile`, lines 118-216) -/

/-- What one invocation of `Reconcile` leaves behind: the collaborator calls, the
`return` statements executed, the instance handed to `PatchInstance` (if the deferred
function ran) and the Go return values. -/
structure Outcome where
  calls : List Call
  returns : List Nat
  patched : Option Octavia
  result : Result
  err : Option Err
deriving DecidableEq, Repr

open condition in
/-- The deferred function of `Reconcile` (lines 161-173), run on the way out of every
`return` that follows it. -/
def deferredPatch (env : Env) (now : Nat) (savedConditions : List Condition) (r : Ret) :
    Outcome :=
  let conds := RestoreLastTransitionTimes r.pass.inst.Status.Conditions savedConditions
  let conds := if IsUnknown conds ReadyCondition then
      match Mirror conds ReadyCondition with
      | some c => Set now conds c
      | none => conds
    else conds
  let inst := { r.pass.inst with Status := { r.pass.inst.Status with Conditions := conds } }
  match env.PatchInstance with
  | some err =>
    { calls := r.pass.calls ++ [.PatchInstance], returns := r.pass.returns,
      patched := some inst, result := r.result, err := some err }
  | none =>
    { calls := r.pass.calls ++ [.PatchInstance], returns := r.pass.returns,
      patched := some inst, result := r.result, err := r.err }

open condition in
/-- The list of conditions `Reconcile` initialises (lines 179-196). -/
def initialConditions : List Condition :=
  CreateList [
    some (UnknownCondition ReadyCondition InitReason "condition.ReadyInitMessage"),
    some (UnknownCondition DBReadyCondition InitReason "condition.DBReadyInitMessage"),
    some (UnknownCondition DBSyncReadyCondition InitReason "condition.DBSyncReadyInitMessage"),
    some (UnknownCondition RabbitMqTransportURLReadyCondition InitReason
      "condition.RabbitMqTransportURLReadyInitMessage"),
    some (UnknownCondition InputReadyCondition InitReason "condition.InputReadyInitMessage"),
    some (UnknownCondition ServiceConfigReadyCondition InitReason
      "condition.ServiceConfigReadyInitMessage"),
    some (UnknownCondition ServiceAccountReadyCondition InitReason
      "condition.ServiceAccountReadyInitMessage"),
    some (UnknownCondition RoleReadyCondition InitReason "condition.RoleReadyInitMessage"),
    some (UnknownCondition RoleBindingReadyCondition InitReason
      "condition.RoleBindingReadyInitMessage"),
    some (UnknownCondition octaviav1.OctaviaAPIReadyCondition InitReason
      "octaviav1.OctaviaAPIReadyInitMessage"),
    some (UnknownCondition NetworkAttachmentsReadyCondition InitReason
      "condition.NetworkAttachmentsReadyInitMessage"),
    some (UnknownCondition ExposeServiceReadyCondition InitReason
      "condition.ExposeServiceReadyInitMessage"),
    some (UnknownCondition DeploymentReadyCondition InitReason
      "condition.DeploymentReadyInitMessage"),
    amphoraControllerInitCondition octaviav1.HealthManager,
    amphoraControllerInitCondition octaviav1.Housekeeping,
    amphoraControllerInitCondition octaviav1.Worker]

open condition in
/-- `Reconcile`, lines 175-215: the statements that follow the registration of the
deferred function. -/
def dispatch (env : Env) (now : Nat) (isNewInstance : Bool) (inst : Octavia) : Ret :=
  -- initialize status
  let inst := { inst with Status := { inst.Status with
    Conditions := Init now inst.Status.Conditions initialConditions } }
  -- If we're not deleting this and the service object doesn't have our finalizer, add it.
  let added := if inst.DeletionTimestamp.isNone then
    controllerutil.AddFinalizer inst.Finalizers env.GetFinalizer else (inst.Finalizers, false)
  let p : Pass := { inst := { inst with Finalizers := added.1 },
                    calls := [.ClientGet, .NewHelper], returns := [] }
  if added.2 || isNewInstance then p.ret Result.empty none 202 else
  if !p.inst.DeletionTimestamp.isNone then
    -- Handle service delete
    let del := reconcileDelete env p
    del.pass.ret del.result del.err 211
  else
  -- Handle non-deleted clusters
  let nrm := reconcileNormal env now p
  nrm.pass.ret nrm.result nrm.err 215

/-- `Reconcile`: `env.ClientGet` is the instance the store returns for the request.
The deferred function runs on the way out of every `return` of lines 175-215. -/
def Reconcile (env : Env) (now : Nat) : Outcome :=
  -- Fetch the Octavia instance
  match env.ClientGet with
  | .error err =>
    if err.notFound then
      { calls := [.ClientGet], returns := [129], patched := none, result := Result.empty,
        err := none }
    else
      { calls := [.ClientGet], returns := [133], patched := none, result := Result.empty,
        err := some err }
  | .ok inst =>
  match env.NewHelper with
  | some err =>
    { calls := [.ClientGet, .NewHelper], returns := [145], patched := none,
      result := Result.empty, err := some err }
  | none =>
  -- initialize status if Conditions is nil, but do not reset if it already exists
  let isNewInstance := inst.Status.Conditions.isEmpty
  -- Save a copy of the condtions so that we can restore the LastTransitionTime when a
  -- condition's state doesn't change.
  let savedConditions := inst.Status.Conditions
  deferredPatch env now savedConditions (dispatch env now isNewInstance inst)

/-! ## Auxiliary definitions for the statements -/

/-- The entry a scanned line contributes to the manifest, if it contributes one. -/
def lineEntry (endpoint text : String) : Option OctaviaAmphoraImage :=
  match strings.Fields text with
  | [f0, f1] =>
    some { Name := (strings.CutSuffix f1 ".qcow2").1, URL := endpoint ++ "/" ++ f1, Checksum := f0 }
  | _ => none

/-- Whether a call is the upsert of a role controller resource. -/
def Call.isAmphoraUpsert : Call → Bool
  | .amphoraControllerDaemonSetCreateOrUpdate _ => true
  | _ => false

/-- A stage that performs no role-controller upsert. -/
def NoUpsert (f : Pass → Step) : Prop :=
  ∀ p, (f p).pass.calls.filter Call.isAmphoraUpsert = p.calls.filter Call.isAmphoraUpsert

/-! ## Concrete collaborator responses -/

/-- Collaborator responses under which every stage succeeds at once: three health
managers are desired and two are ready, and the asset endpoint serves the manifest
of the spec's example. -/
def sampleEnv : Env where
  ClientGet := .error ⟨true, "not found"⟩
  NewHelper := none
  GetFinalizer := "openstack.org/octavia"
  PatchInstance := none
  GetDatabaseByNameAndAccount := fun _ _ => none
  DeleteFinalizer := fun _ => none
  ReconcileRbac := (Result.empty, none)
  transportURLCreateOrUpdate := .ok "rabbitmq-transport-url"
  EnsureAmphoraCerts := none
  EnsureQuotas := none
  GetNADWithName := fun _ => none
  CreateNetworksAnnotation_ := none
  GetSecret := fun n => .ok (n, "hash-of-" ++ n)
  EnsureMariaDBAccount := fun _ => none
  CreateOrPatchAll := fun _ => (Result.empty, none)
  WaitForDBCreated := fun _ => (Result.empty, none)
  GetDatabaseHostname := "openstack.svc"
  EnsureSecrets := .ok [("octavia-config-data", "c1")]
  ObjectHashEnvVars := fun _ => .ok "inputhash"
  ObjectHashString := fun s => .ok ("hash-of-" ++ s)
  DoJob := fun _ => ⟨Result.empty, none, true, "jobhash"⟩
  apiDeploymentCreateOrUpdate := .ok ⟨1, []⟩
  EnsureAmphoraManagementNetwork := none
  amphoraControllerDaemonSetCreateOrUpdate := fun _ => .ok ⟨2, 3, []⟩
  DeleteUnusedMariaDBAccountFinalizers := fun _ _ => none
  EnsureAmpSSHConfig := none
  DeploymentCreateOrPatch := (Result.empty, none)
  ReadyReplicas := 1
  NewService := none
  ServiceCreateOrPatch := (Result.empty, none)
  GetAPIEndpoint := .ok "http://img"
  HttpGet := fun _ => .ok ["abc123 cirros.qcow2", "badline", "d4 e5 f6"]
  EnsureAmphoraImages := fun _ => (true, none)
  DeploymentDelete := none

/-- An instance that carries the finalizer and whose stored input hash is the one
`sampleEnv` computes. -/
def sampleInstance : Octavia where
  Name := "octavia"
  Generation := 1
  DeletionTimestamp := none
  Finalizers := ["openstack.org/octavia"]
  Spec := { Secret := "osp-secret", DatabaseAccount := "octavia",
            PersistenceDatabaseAccount := "octavia-persistence",
            NetworkAttachments := ["internalapi"],
            AmphoraImageContainerImage := "quay.io/amphora:latest" }
  Status := { Conditions := [], Hash := [("input", "inputhash")], TransportURLSecret := "",
              DatabaseHostname := "", OctaviaAPIReadyCount := 0,
              OctaviaHealthManagerReadyCount := 0, OctaviaHousekeepingReadyCount := 0,
              OctaviaWorkerReadyCount := 0, ObservedGeneration := 0 }

/-- A database is released: its lookup reports NotFound, or it is found and the
removal of its finalizer succeeds. -/
def dbReleased (env : Env) (crName account : String) : Bool :=
  IsNotFound (env.GetDatabaseByNameAndAccount crName account) ||
    ((env.GetDatabaseByNameAndAccount crName account).isNone &&
      (env.DeleteFinalizer crName).isNone)

/-- Responses for a deletion: the main database is gone, the persistence database is
still there and gives up its finalizer. -/
def deleteEnv : Env :=
  { sampleEnv with
    GetDatabaseByNameAndAccount := fun crName _ =>
      if crName = octavia.DatabaseCRName then some ⟨true, "mariadbdatabase not found"⟩ else none }

/-- Responses for a deletion in which the persistence database refuses to give up its
finalizer. -/
def deleteFailEnv : Env :=
  { sampleEnv with
    DeleteFinalizer := fun crName =>
      if crName = octavia.PersistenceDatabaseCRName then some ⟨false, "conflict"⟩ else none }

/-- An instance whose stored image-upload hash is the hash of its asset-image
reference under `sampleEnv`. -/
def settledInstance : Octavia :=
  { sampleInstance with
    Status := { sampleInstance.Status with
      Hash := [("input", "inputhash"), ("image-upload", "hash-of-quay.io/amphora:latest")] } }

/-- Collaborator responses under which every stage succeeds at once and all three
desired health managers are ready. -/
def readyEnv : Env :=
  { sampleEnv with amphoraControllerDaemonSetCreateOrUpdate := fun _ => .ok ⟨3, 3, []⟩ }

/-- An instance for which no input hash is stored yet. -/
def freshInstance : Octavia :=
  { sampleInstance with Status := { sampleInstance.Status with Hash := [] } }

/-- The responses of `readyEnv` when the store returns an instance that was seen on an
earlier pass and has no input hash stored yet. -/
def pendingEnv : Env :=
  { readyEnv with
    ClientGet := .ok { sampleInstance with
      Status := { sampleInstance.Status with
        Hash := [],
        Conditions := [condition.UnknownCondition condition.ReadyCondition
          condition.InitReason "condition.ReadyInitMessage"] } } }

/-- A status with the transition times of its conditions blanked. -/
def eraseTimes (s : OctaviaStatus) : OctaviaStatus :=
  { s with Conditions := s.Conditions.map (fun c => { c with LastTransitionTime := 0 }) }

/-- An instance seen on an earlier pass: its input was found complete at time 1. -/
def seenInstance : Octavia :=
  { sampleInstance with
    Status := { sampleInstance.Status with
      Conditions := [{ Type_ := condition.InputReadyCondition,
                       Status := ConditionStatus.ConditionTrue,
                       Reason := condition.ReadyReason, Severity := condition.SeverityNone,
                       Message := "condition.InputReadyMessage", LastTransitionTime := 1 }] } }

/-- The responses of `sampleEnv` when the store returns `seenInstance`. -/
def seenEnv : Env :=
  { sampleEnv with ClientGet := .ok seenInstance }

/-- The responses of `sampleEnv` with an uploader deployment that has no ready
replica yet. -/
def waitingEnv : Env :=
  { sampleEnv with ReadyReplicas := 0 }

/-- The responses of `sampleEnv` with an asset import that is not complete yet. -/
def importingEnv : Env :=
  { sampleEnv with EnsureAmphoraImages := fun _ => (false, none) }

/-- The responses of `sampleEnv` with an uploader deployment that cannot be deleted. -/
def teardownFailEnv : Env :=
  { sampleEnv with DeploymentDelete := some ⟨false, "delete failed"⟩ }

/-- The responses of `sampleEnv` when no network attachment definition exists. -/
def nadMissingEnv : Env :=
  { sampleEnv with
    GetNADWithName := fun _ => some ⟨true, "network-attachment-definitions not found"⟩ }

/-! ## Stages of the pipeline -/

/-- The stages of `reconcileNormal`, listed in the order in which its statements run
them.  `CertsAndQuotas` (lines 506-527) and `AccountsAndSSH` (lines 719-734) are
statements the list of states in the specification does not name. -/
inductive Stage where
  | RbacReady
  | TransportReady
  | CertsAndQuotas
  | NetworkAttachmentsVerified
  | CredentialsResolved
  | DatabaseReady
  | ConfigRendered
  | MigrationComplete
  | APIDeployed
  | NetworkProvisioned
  | PrimaryRoleReady
  | DependentRolesDeployed
  | AccountsAndSSH
  | AssetPipelineSettled
deriving DecidableEq, Repr

/-- The rank of a stage in the order of the source. -/
def Stage.rank : Stage → Nat
  | .RbacReady => 0
  | .TransportReady => 1
  | .CertsAndQuotas => 2
  | .NetworkAttachmentsVerified => 3
  | .CredentialsResolved => 4
  | .DatabaseReady => 5
  | .ConfigRendered => 6
  | .MigrationComplete => 7
  | .APIDeployed => 8
  | .NetworkProvisioned => 9
  | .PrimaryRoleReady => 10
  | .DependentRolesDeployed => 11
  | .AccountsAndSSH => 12
  | .AssetPipelineSettled => 13

/-- The rank of a stage in the order of states of spec 4.4 (`InputHashStable`, rank 3,
makes no collaborator call); `none` for a stage that list does not name. -/
def Stage.specRank : Stage → Option Nat
  | .CredentialsResolved => some 0
  | .DatabaseReady => some 1
  | .ConfigRendered => some 2
  | .MigrationComplete => some 4
  | .RbacReady => some 5
  | .TransportReady => some 6
  | .NetworkAttachmentsVerified => some 7
  | .NetworkProvisioned => some 8
  | .APIDeployed => some 9
  | .PrimaryRoleReady => some 10
  | .DependentRolesDeployed => some 11
  | .AssetPipelineSettled => some 12
  | .CertsAndQuotas => none
  | .AccountsAndSSH => none

/-- The stage a collaborator call belongs to; `none` for the calls of the dispatcher
and of the deletion cascade. -/
def Call.stage : Call → Option Stage
  | .ReconcileRbac => some .RbacReady
  | .transportURLCreateOrUpdate => some .TransportReady
  | .EnsureAmphoraCerts => some .CertsAndQuotas
  | .EnsureQuotas => some .CertsAndQuotas
  | .GetNADWithName _ => some .NetworkAttachmentsVerified
  | .CreateNetworksAnnotation_ => some .NetworkAttachmentsVerified
  | .GetSecret _ => some .CredentialsResolved
  | .EnsureMariaDBAccount _ => some .DatabaseReady
  | .CreateOrPatchAll _ => some .DatabaseReady
  | .WaitForDBCreated _ => some .DatabaseReady
  | .EnsureSecrets => some .ConfigRendered
  | .DoJob _ => some .MigrationComplete
  | .apiDeploymentCreateOrUpdate => some .APIDeployed
  | .EnsureAmphoraManagementNetwork => some .NetworkProvisioned
  | .amphoraControllerDaemonSetCreateOrUpdate role =>
    if role = octaviav1.HealthManager then some .PrimaryRoleReady
    else some .DependentRolesDeployed
  | .DeleteUnusedMariaDBAccountFinalizers _ _ => some .AccountsAndSSH
  | .EnsureAmpSSHConfig => some .AccountsAndSSH
  | .DeploymentCreateOrPatch => some .AssetPipelineSettled
  | .NewService => some .AssetPipelineSettled
  | .ServiceCreateOrPatch => some .AssetPipelineSettled
  | .GetAPIEndpoint => some .AssetPipelineSettled
  | .HttpGet _ => some .AssetPipelineSettled
  | .EnsureAmphoraImages _ => some .AssetPipelineSettled
  | .DeploymentDelete => some .AssetPipelineSettled
  | .ClientGet => none
  | .NewHelper => none
  | .PatchInstance => none
  | .GetDatabaseByNameAndAccount _ _ => none
  | .DeleteFinalizer _ => none

/-- The rank of the stage of a call in the order of the source. -/
def Call.rank (c : Call) : Nat :=
  match c.stage with
  | some s => s.rank
  | none => 0

/-- The rank of the stage in which a `return` statement of `reconcileNormal` lies.
Lines 569-588 follow service init, whose last stage is the migration; for lines 569
and 571, which hand on a `return` of `reconcileInit`, this is an upper bound only, and
`returnRank` tells the stages of service init apart. -/
def lineRank (line : Nat) : Nat :=
  if line ≤ 476 then 0
  else if line ≤ 502 then 1
  else if line ≤ 524 then 2
  else if line ≤ 561 then 3
  else if line ≤ 588 then 7
  else if line ≤ 602 then 8
  else if line ≤ 634 then 9
  else if line ≤ 667 then 10
  else if line ≤ 704 then 11
  else if line ≤ 733 then 12
  else 13

/-- The calls are in the order of the stages of the source, and none belongs to a
stage of rank above `k`. -/
def OrderedUpTo (k : Nat) (cs : List Call) : Prop :=
  (cs.map Call.rank).Pairwise (· ≤ ·) ∧ ∀ c ∈ cs, c.rank ≤ k

/-- A property of the outcome of a step: `S` of what it returns, `N` of the state it
passes on. -/
def Step.Holds (S : Ret → Prop) (N : Pass → Prop) : Step → Prop
  | .stop r => S r
  | .next p => N p

/-- What the ordering asks of a `return` of `reconcileNormal`: the calls made are in
the order of the stages and none belongs to a stage behind the one that returns. -/
def OrderedAtReturn (r : Ret) : Prop :=
  OrderedUpTo (lineRank r.line) r.pass.calls

/-- The rank in the order of spec 4.4 of the stage of a call, for the calls of the
stages that order names. -/
def Call.specRank (c : Call) : Option Nat :=
  c.stage.bind Stage.specRank

/-- The responses of `sampleEnv` when neither input secret exists. -/
def noSecretEnv : Env :=
  { sampleEnv with GetSecret := fun _ => .error ⟨true, "secrets not found"⟩ }

/-- The responses of `sampleEnv` with a job runner that compares the hash it is
handed with the hash of the job, `jobhash`, and reports a change when they differ. -/
def jobEnv : Env :=
  { sampleEnv with
    DoJob := fun beforeHash => ⟨Result.empty, none, beforeHash != "jobhash", "jobhash"⟩ }

/-- An instance whose stored migration hash is the hash of the job under `jobEnv`. -/
def migratedInstance : Octavia :=
  { sampleInstance with
    Status := { sampleInstance.Status with
      Hash := [("input", "inputhash"), ("dbsync", "jobhash")],
      TransportURLSecret := "rabbitmq-transport-url" } }

/-- The Ready condition of the status a pass has reached. -/
def Pass.ready (p : Pass) : Option Condition :=
  condition.Get p.inst.Status.Conditions condition.ReadyCondition

/-- A `return` that leaves the Ready condition as `X` and is not the last line of
`reconcileNormal`. -/
def ReadyKept (X : Option Condition) (r : Ret) : Prop :=
  r.pass.ready = X ∧ r.line ≠ 755

/-- An instance that carries the deletion marker and whose condition list has not
been initialised yet. -/
def deletedFreshInstance : Octavia :=
  { sampleInstance with DeletionTimestamp := some 7 }

/-- The responses of `sampleEnv` when the store returns `deletedFreshInstance`. -/
def deletedFreshEnv : Env :=
  { sampleEnv with ClientGet := .ok deletedFreshInstance }

/-- An instance that carries the deletion marker and was seen on an earlier pass. -/
def deletedSeenInstance : Octavia :=
  { seenInstance with DeletionTimestamp := some 7 }

/-- The responses of `sampleEnv` when the store returns `deletedSeenInstance`. -/
def deletedSeenEnv : Env :=
  { sampleEnv with ClientGet := .ok deletedSeenInstance }

/-- The responses of `readyEnv` when the manifest of the asset endpoint cannot be
fetched. -/
def manifestFailEnv : Env :=
  { readyEnv with HttpGet := fun _ => .error ⟨false, "connection refused"⟩ }

/-- The responses of `readyEnv` when the migration job answers with a requeue and an
error at once. -/
def jobFailEnv : Env :=
  { readyEnv with DoJob := fun _ => ⟨{ RequeueAfter := 5 }, some ⟨false, "job failed"⟩, false, ""⟩ }

/-- The responses of `readyEnv` when the upsert of the uploader deployment answers
with a requeue and an error at once. -/
def uploaderFailEnv : Env :=
  { readyEnv with DeploymentCreateOrPatch := ({ RequeueAfter := 5 }, some ⟨false, "conflict"⟩) }

/-- The responses of `readyEnv` when the management network cannot be provisioned. -/
def mgmtNetFailEnv : Env :=
  { readyEnv with EnsureAmphoraManagementNetwork := some ⟨false, "neutron unavailable"⟩ }

/-- The responses of `readyEnv` when the network annotation cannot be created. -/
def annotationFailEnv : Env :=
  { readyEnv with CreateNetworksAnnotation_ := some ⟨false, "encode failed"⟩ }

/-- The responses of `readyEnv` when the hash of the inputs cannot be computed. -/
def inputHashFailEnv : Env :=
  { readyEnv with ObjectHashEnvVars := fun _ => .error ⟨false, "hash failed"⟩ }

/-- The responses of `readyEnv` when the finalizers of unused database accounts
cannot be removed. -/
def accountCleanupFailEnv : Env :=
  { readyEnv with DeleteUnusedMariaDBAccountFinalizers := fun _ _ => some ⟨false, "conflict"⟩ }

/-- The responses of `readyEnv` when the amphora SSH configuration cannot be
provisioned. -/
def sshFailEnv : Env :=
  { readyEnv with EnsureAmpSSHConfig := some ⟨false, "keypair failed"⟩ }

/-- The responses of `readyEnv` when the asset import fails. -/
def importFailEnv : Env :=
  { readyEnv with EnsureAmphoraImages := fun _ => (false, some ⟨false, "glance unavailable"⟩) }

/-- No condition of the status is False. -/
def NoFalseCondition (inst : Octavia) : Bool :=
  inst.Status.Conditions.all (fun c => c.Status != ConditionStatus.ConditionFalse)

/-- What `reconcileInit` leaves behind when the lookup of an input secret fails with
`e`: NotFound is reported as a wait (InputReady False, Requested, Info), with an
error that names the secret and a requeue after ten seconds; any other error is
reported as an error (InputReady False, Error, Warning) and returned as it is with an
empty result. -/
def InputNotReady (r : Ret) (e : Err) (notFoundText : String) : Prop :=
  (e.notFound = true →
    r.result = { RequeueAfter := 10 } ∧ r.err = some ⟨false, notFoundText⟩ ∧
    ∃ t, condition.Get r.pass.inst.Status.Conditions condition.InputReadyCondition = some
      { condition.FalseCondition condition.InputReadyCondition condition.RequestedReason
          condition.SeverityInfo "condition.InputReadyWaitingMessage" [] with
        LastTransitionTime := t }) ∧
  (e.notFound = false →
    r.result = Result.empty ∧ r.err = some e ∧
    ∃ t, condition.Get r.pass.inst.Status.Conditions condition.InputReadyCondition = some
      { condition.FalseCondition condition.InputReadyCondition condition.ErrorReason
          condition.SeverityWarning "condition.InputReadyErrorMessage" [e.msg] with
        LastTransitionTime := t })

/-- The responses of `sampleEnv` when the lookup of the transport URL secret fails
with an error other than NotFound. -/
def transportSecretFailEnv : Env :=
  { sampleEnv with
    GetSecret := fun n =>
      if n = "osp-secret" then .ok (n, "hash-of-" ++ n) else .error ⟨false, "forbidden"⟩ }

/-- An instance whose asset-image reference was emptied after its image was
imported: the image-upload hash of that import is still stored. -/
def clearedInstance : Octavia :=
  { settledInstance with
    Spec := { settledInstance.Spec with AmphoraImageContainerImage := "" } }

/-- The instance `clearedInstance` becomes when the pass on the empty reference has
reset the stored hash and the reference imported before is declared again. -/
def redeclaredInstance : Octavia :=
  { sampleInstance with
    Status := { sampleInstance.Status with
      Hash := [("input", "inputhash"), ("image-upload", "")] } }

/-- The call log `b` extends the call log `a` by calls of the stages of
`reconcileNormal` of rank at most `k`. -/
def Appends (k : Nat) (a b : List Call) : Prop :=
  ∃ cs, b = a ++ cs ∧ ∀ c ∈ cs, c.stage.isSome = true ∧ c.rank ≤ k

/-- An instance seen on an earlier pass that does not carry the finalizer of the
controller and is not being deleted. -/
def unfinalizedInstance : Octavia :=
  { seenInstance with Finalizers := ["kubernetes.io/other"] }

/-- The responses of `sampleEnv` when the store returns `unfinalizedInstance`. -/
def unfinalizedEnv : Env :=
  { sampleEnv with ClientGet := .ok unfinalizedInstance }

/-- The responses of `unfinalizedEnv` when the status patch fails. -/
def patchFailEnv : Env :=
  { unfinalizedEnv with PatchInstance := some ⟨false, "conflict"⟩ }

/-- The responses of `seenEnv` when the status patch fails. -/
def seenPatchFailEnv : Env :=
  { seenEnv with PatchInstance := some ⟨false, "conflict"⟩ }

/-- The responses of `sampleEnv` on a health manager resource that was just created:
no pod is desired yet and none is ready. -/
def justCreatedEnv : Env :=
  { sampleEnv with amphoraControllerDaemonSetCreateOrUpdate := fun _ => .ok ⟨0, 0, []⟩ }

/-- The parent ledger `conds` holds, under the type `T`, what the mirror of the child
ledger gives: the mirrored condition if there is one, the True condition with the
deployment message if there is none.  `Set` stamps the transition time. -/
def MirroredInto (conds child : List Condition) (T : String) : Prop :=
  match condition.Mirror child T with
  | some c => ∃ t, condition.Get conds T = some { c with LastTransitionTime := t }
  | none => ∃ t, condition.Get conds T = some
      { condition.TrueCondition T "condition.DeploymentReadyMessage" with
        LastTransitionTime := t }

/-- The responses of `readyEnv` when the API resource reports its deployment as not
ready yet and the worker resource has no condition yet. -/
def mirrorEnv : Env :=
  { readyEnv with
    apiDeploymentCreateOrUpdate := .ok ⟨0,
      [condition.FalseCondition octaviav1.OctaviaAPIReadyCondition condition.RequestedReason
        condition.SeverityInfo "condition.DeploymentReadyRunningMessage" []]⟩ }

/-- The rank of the stage in which a `return` statement of `reconcileInit` lies: the
credentials up to line 343, the database at lines 349 and 351, the config up to
line 381, the migration behind it. -/
def initLineRank (line : Nat) : Nat :=
  if line ≤ 343 then 4
  else if line ≤ 351 then 5
  else if line ≤ 381 then 6
  else 7

/-- The rank of the stage in which a pass of `reconcileNormal` returned, read from the
`return` statements it executed.  The last of them is the `return` of
`reconcileNormal`.  At lines 569 and 571 that statement hands on what `reconcileInit`
returned, and the stage is the one of the `return` of `reconcileInit`, the statement
executed just before. -/
def returnRank (returns : List Nat) : Nat :=
  match returns.getLast? with
  | none => 0
  | some line =>
    if line = 569 ∨ line = 571 then
      match returns.dropLast.getLast? with
      | some inner => initLineRank inner
      | none => 7
    else lineRank line

/-- The `return` a step stops at is the last one executed, and it is not one of the two
that hand on the outcome of `reconcileInit`. -/
def ReturnsAt (r : Ret) : Prop :=
  r.pass.returns.getLast? = some r.line ∧ r.line ≠ 569 ∧ r.line ≠ 571

/-- The responses of `sampleEnv` when the databases cannot be created. -/
def dbFailEnv : Env :=
  { sampleEnv with CreateOrPatchAll := fun _ => (Result.empty, some ⟨false, "db failed"⟩) }

/-! # Theorems -/

/-! ## Projections of the state operations -/

@[simp] theorem Step.pass_stop (r : Ret) : (Step.stop r).pass = r.pass := rfl
@[simp] theorem Step.pass_next (p : Pass) : (Step.next p).pass = p := rfl
@[simp] theorem Step.bind_stop (r : Ret) (f : Pass → Step) : (Step.stop r).bind f = .stop r := rfl
@[simp] theorem Step.bind_next (p : Pass) (f : Pass → Step) : (Step.next p).bind f = f p := rfl
@[simp] theorem Step.finish_stop (r : Ret) (f : Pass → Ret) : (Step.stop r).finish f = r := rfl
@[simp] theorem Step.finish_next (p : Pass) (f : Pass → Ret) : (Step.next p).finish f = f p := rfl

@[simp] theorem Pass.call_calls (p : Pass) (c : Call) : (p.call c).calls = p.calls ++ [c] := rfl
@[simp] theorem Pass.call_inst (p : Pass) (c : Call) : (p.call c).inst = p.inst := rfl
@[simp] theorem Pass.call_returns (p : Pass) (c : Call) : (p.call c).returns = p.returns := rfl
@[simp] theorem Pass.setCond_calls (p : Pass) (now : Nat) (c : Condition) :
    (p.setCond now c).calls = p.calls := rfl
@[simp] theorem Pass.setCond_returns (p : Pass) (now : Nat) (c : Condition) :
    (p.setCond now c).returns = p.returns := rfl
@[simp] theorem Pass.markTrue_calls (p : Pass) (now : Nat) (t m : String) :
    (p.markTrue now t m).calls = p.calls := rfl
@[simp] theorem Pass.markTrue_returns (p : Pass) (now : Nat) (t m : String) :
    (p.markTrue now t m).returns = p.returns := rfl
@[simp] theorem Pass.putHash_calls (p : Pass) (k v : String) : (p.putHash k v).calls = p.calls := rfl
@[simp] theorem Pass.putHash_returns (p : Pass) (k v : String) :
    (p.putHash k v).returns = p.returns := rfl
@[simp] theorem Pass.setTransportURLSecret_calls (p : Pass) (v : String) :
    (p.setTransportURLSecret v).calls = p.calls := rfl
@[simp] theorem Pass.setDatabaseHostname_calls (p : Pass) (v : String) :
    (p.setDatabaseHostname v).calls = p.calls := rfl
@[simp] theorem Pass.setOctaviaAPIReadyCount_calls (p : Pass) (v : Int) :
    (p.setOctaviaAPIReadyCount v).calls = p.calls := rfl
@[simp] theorem Pass.setOctaviaHealthManagerReadyCount_calls (p : Pass) (v : Int) :
    (p.setOctaviaHealthManagerReadyCount v).calls = p.calls := rfl
@[simp] theorem Pass.setOctaviaHousekeepingReadyCount_calls (p : Pass) (v : Int) :
    (p.setOctaviaHousekeepingReadyCount v).calls = p.calls := rfl
@[simp] theorem Pass.setOctaviaWorkerReadyCount_calls (p : Pass) (v : Int) :
    (p.setOctaviaWorkerReadyCount v).calls = p.calls := rfl
@[simp] theorem Pass.setObservedGeneration_calls (p : Pass) :
    p.setObservedGeneration.calls = p.calls := rfl
@[simp] theorem Pass.setHashMap_calls (p : Pass) (m : List (String × String)) :
    (p.setHashMap m).calls = p.calls := rfl
@[simp] theorem Pass.removeFinalizer_calls (p : Pass) (f : String) :
    (p.removeFinalizer f).calls = p.calls := rfl
@[simp] theorem Pass.ret_calls (p : Pass) (r : Result) (e : Option Err) (n : Nat) :
    (p.ret r e n).pass.calls = p.calls := rfl
@[simp] theorem Pass.ret_inst (p : Pass) (r : Result) (e : Option Err) (n : Nat) :
    (p.ret r e n).pass.inst = p.inst := rfl
@[simp] theorem Pass.ret_returns (p : Pass) (r : Result) (e : Option Err) (n : Nat) :
    (p.ret r e n).pass.returns = p.returns ++ [n] := rfl
@[simp] theorem Pass.ret_result (p : Pass) (r : Result) (e : Option Err) (n : Nat) :
    (p.ret r e n).result = r := rfl
@[simp] theorem Pass.ret_err (p : Pass) (r : Result) (e : Option Err) (n : Nat) :
    (p.ret r e n).err = e := rfl
@[simp] theorem Pass.ret_line (p : Pass) (r : Result) (e : Option Err) (n : Nat) :
    (p.ret r e n).line = n := rfl

@[simp] theorem createHashOfInputHashes_calls (env : Env) (p : Pass)
    (envVars : List (String × String)) :
    (createHashOfInputHashes env p envVars).pass.calls = p.calls := by
  unfold createHashOfInputHashes
  repeat' split
  all_goals rfl

/-! ## Manifest parsing -/

theorem scanStep_eq (endpoint : String) (ret : List OctaviaAmphoraImage) (text : String) :
    scanStep endpoint ret text = ret ++ (lineEntry endpoint text).toList := by
  unfold scanStep lineEntry
  split <;> simp

theorem foldl_scanStep (endpoint : String) (lines : List String) :
    ∀ ret, lines.foldl (scanStep endpoint) ret = ret ++ lines.filterMap (lineEntry endpoint) := by
  induction lines with
  | nil => intro ret; simp
  | cons l ls ih =>
    intro ret
    rw [List.foldl_cons, ih, scanStep_eq, List.filterMap_cons]
    cases h : lineEntry endpoint l <;> simp

theorem HasSuffix_append (stem suffix : String) : strings.HasSuffix (stem ++ suffix) suffix = true := by
  simp [strings.HasSuffix, String.data_append]

theorem CutSuffix_append (stem suffix : String) :
    strings.CutSuffix (stem ++ suffix) suffix = (stem, true) := by
  simp [strings.CutSuffix, HasSuffix_append, String.data_append]

theorem HasSuffix_elim (s suffix : String) (h : strings.HasSuffix s suffix = true) :
    ∃ stem, s = stem ++ suffix := by
  simp only [strings.HasSuffix, Bool.and_eq_true, decide_eq_true_eq, beq_iff_eq] at h
  refine ⟨String.mk (s.data.take (s.data.length - suffix.data.length)), ?_⟩
  apply String.ext
  rw [String.data_append]
  calc s.data
      = s.data.take (s.data.length - suffix.data.length) ++
          s.data.drop (s.data.length - suffix.data.length) := (List.take_append_drop _ _).symm
    _ = s.data.take (s.data.length - suffix.data.length) ++ suffix.data := by rw [h.2]

theorem CutSuffix_of_no_suffix (s suffix : String) (h : ∀ stem, s ≠ stem ++ suffix) :
    strings.CutSuffix s suffix = (s, false) := by
  unfold strings.CutSuffix
  split
  · rename_i hs
    obtain ⟨stem, hstem⟩ := HasSuffix_elim s suffix hs
    exact absurd hstem (h stem)
  · rfl


theorem lineEntry_length (endpoint : String) (lines : List String) :
    (lines.filterMap (lineEntry endpoint)).length =
      (lines.filter (fun l => (strings.Fields l).length = 2)).length := by
  induction lines with
  | nil => rfl
  | cons l ls ih =>
    simp only [List.filterMap_cons, List.filter_cons, lineEntry]
    generalize strings.Fields l = fs
    match fs with
    | [] => simpa using ih
    | [_] => simpa using ih
    | [_, _] => simpa using ih
    | _ :: _ :: _ :: _ => simpa using ih

theorem lineEntry_pairs (endpoint : String) (lines : List String) :
    (lines.filterMap (lineEntry endpoint)).map (fun e => (e.Checksum, e.URL)) =
      (lines.map strings.Fields).filterMap (fun fs =>
        match fs with
        | [c, f] => some (c, endpoint ++ "/" ++ f)
        | _ => none) := by
  induction lines with
  | nil => rfl
  | cons l ls ih =>
    simp only [List.filterMap_cons, List.map_cons, lineEntry]
    generalize strings.Fields l = fs
    match fs with
    | [] => simpa using ih
    | [_] => simpa using ih
    | [_, _] => simpa using ih
    | _ :: _ :: _ :: _ => simpa using ih

/-- C1: getLocalImageURLs returns one entry per line with exactly two
whitespace-separated fields, in the order of those lines, none for any other line,
and never an error for a malformed line. -/
theorem getLocalImageURLs_one_entry_per_two_field_line
    (httpGet : String → Except Err (List String)) (endpoint : String) (lines : List String)
    (h : httpGet (listUrl endpoint) = .ok lines) :
    ∃ ret, getLocalImageURLs httpGet endpoint = .ok ret ∧
      ret.length = (lines.filter (fun l => (strings.Fields l).length = 2)).length ∧
      ret.map (fun e => (e.Checksum, e.URL)) =
        (lines.map strings.Fields).filterMap (fun fs =>
          match fs with
          | [c, f] => some (c, endpoint ++ "/" ++ f)
          | _ => none) :=
  ⟨lines.filterMap (lineEntry endpoint), by simp [getLocalImageURLs, h, foldl_scanStep],
    lineEntry_length endpoint lines, lineEntry_pairs endpoint lines⟩

/-- C1, the example of the spec: of the three lines only the first yields an entry. -/
theorem getLocalImageURLs_one_entry_per_two_field_line_witness :
    ∃ ret, getLocalImageURLs (fun _ => .ok ["abc123 cirros.qcow2", "badline", "d4 e5 f6"])
        "http://img" = .ok ret ∧
      ret.length = (["abc123 cirros.qcow2", "badline", "d4 e5 f6"].filter
        (fun l => (strings.Fields l).length = 2)).length ∧
      ret.map (fun e => (e.Checksum, e.URL)) =
        (["abc123 cirros.qcow2", "badline", "d4 e5 f6"].map strings.Fields).filterMap (fun fs =>
          match fs with
          | [c, f] => some (c, "http://img" ++ "/" ++ f)
          | _ => none) :=
  getLocalImageURLs_one_entry_per_two_field_line _ "http://img" _ rfl

/-- The manifest of the spec's example holds exactly the entry `cirros`. -/
theorem getLocalImageURLs_example :
    getLocalImageURLs (fun _ => .ok ["abc123 cirros.qcow2", "badline", "d4 e5 f6"]) "http://img"
      = .ok [{ Name := "cirros", URL := "http://img/cirros.qcow2", Checksum := "abc123" }] := by
  rfl

/-- C2: a line with exactly the two fields `c` and `f` yields the entry with checksum
`c`, URL `endpoint/f`, and name `f` without one trailing `.qcow2` (or `f` itself when
it has no such suffix), placed after the entries of the lines before it. -/
theorem getLocalImageURLs_entry_of_two_field_line
    (httpGet : String → Except Err (List String)) (endpoint : String)
    (pre post : List String) (line c f : String)
    (h : httpGet (listUrl endpoint) = .ok (pre ++ line :: post))
    (hf : strings.Fields line = [c, f]) :
    ∃ a e b, getLocalImageURLs httpGet endpoint = .ok (a ++ e :: b) ∧
      a.length = (pre.filter (fun l => (strings.Fields l).length = 2)).length ∧
      e.Checksum = c ∧ e.URL = endpoint ++ "/" ++ f ∧
      (∀ stem, f = stem ++ ".qcow2" → e.Name = stem) ∧
      ((∀ stem, f ≠ stem ++ ".qcow2") → e.Name = f) := by
  refine ⟨pre.filterMap (lineEntry endpoint),
    { Name := (strings.CutSuffix f ".qcow2").1, URL := endpoint ++ "/" ++ f, Checksum := c },
    post.filterMap (lineEntry endpoint), ?_, lineEntry_length endpoint pre, rfl, rfl, ?_, ?_⟩
  · simp [getLocalImageURLs, h, foldl_scanStep, scanStep_eq, List.filterMap_append, lineEntry, hf]
  · intro stem hstem
    simp [hstem, CutSuffix_append]
  · intro hno
    simp [CutSuffix_of_no_suffix f ".qcow2" hno]

/-- C2, the example of the spec: `abc123 cirros.qcow2` gives name `cirros`. -/
theorem getLocalImageURLs_entry_of_two_field_line_witness :
    ∃ a e b, getLocalImageURLs (fun _ => .ok ([] ++ "abc123 cirros.qcow2" :: ["badline"]))
        "http://img" = .ok (a ++ e :: b) ∧
      a.length = (([] : List String).filter (fun l => (strings.Fields l).length = 2)).length ∧
      e.Checksum = "abc123" ∧ e.URL = "http://img" ++ "/" ++ "cirros.qcow2" ∧
      (∀ stem, "cirros.qcow2" = stem ++ ".qcow2" → e.Name = stem) ∧
      ((∀ stem, "cirros.qcow2" ≠ stem ++ ".qcow2") → e.Name = "cirros.qcow2") :=
  getLocalImageURLs_entry_of_two_field_line _ "http://img" [] ["badline"]
    "abc123 cirros.qcow2" "abc123" "cirros.qcow2" rfl rfl

/-! ## The rollout barrier -/

theorem NoUpsert.bind {s : Step} {f : Pass → Step} (hf : NoUpsert f) :
    (s.bind f).pass.calls.filter Call.isAmphoraUpsert
      = s.pass.calls.filter Call.isAmphoraUpsert := by
  cases s with
  | stop r => rfl
  | next p => exact hf p

theorem ensureDBLoop_noUpsert (env : Env) (now : Nat) (dbs : List String) :
    NoUpsert (ensureDBLoop env now dbs) := by
  induction dbs with
  | nil => intro p; simp [ensureDBLoop]
  | cons db dbs ih =>
    intro p
    simp only [ensureDBLoop]
    repeat' split
    all_goals simp [ih _, Call.isAmphoraUpsert]

theorem ensureDBLoop_upserts_stop {env : Env} {now : Nat} {dbs : List String} {p : Pass}
    {r : Ret} (h : ensureDBLoop env now dbs p = .stop r) :
    r.pass.calls.filter Call.isAmphoraUpsert = p.calls.filter Call.isAmphoraUpsert := by
  have := ensureDBLoop_noUpsert env now dbs p
  rwa [h] at this

theorem ensureDBLoop_upserts_next {env : Env} {now : Nat} {dbs : List String} {p q : Pass}
    (h : ensureDBLoop env now dbs p = .next q) :
    q.calls.filter Call.isAmphoraUpsert = p.calls.filter Call.isAmphoraUpsert := by
  have := ensureDBLoop_noUpsert env now dbs p
  rwa [h] at this

theorem ensureDB_upserts (env : Env) (now : Nat) (p : Pass) :
    (ensureDB env now p).pass.calls.filter Call.isAmphoraUpsert
      = p.calls.filter Call.isAmphoraUpsert := by
  simp only [ensureDB]
  repeat' split
  all_goals first
    | simp [Call.isAmphoraUpsert]; done
    | (rename_i h; simp [ensureDBLoop_upserts_stop h, Call.isAmphoraUpsert])
    | (rename_i h; simp [ensureDBLoop_upserts_next h, Call.isAmphoraUpsert])

theorem reconcileInit_upserts (env : Env) (now : Nat) (p : Pass) :
    (reconcileInit env now p).pass.calls.filter Call.isAmphoraUpsert
      = p.calls.filter Call.isAmphoraUpsert := by
  simp only [reconcileInit]
  repeat' split
  all_goals simp [ensureDB_upserts, Call.isAmphoraUpsert]

theorem checkNetworkAttachments_noUpsert (env : Env) (now : Nat) (names : List String) :
    NoUpsert (checkNetworkAttachments env now names) := by
  induction names with
  | nil => intro p; simp [checkNetworkAttachments]
  | cons n names ih =>
    intro p
    simp only [checkNetworkAttachments]
    repeat' split
    all_goals simp [ih _, Call.isAmphoraUpsert]

theorem stageRbac_noUpsert (env : Env) : NoUpsert (stageRbac env) := by
  intro p; simp only [stageRbac]; repeat' split
  all_goals simp [Call.isAmphoraUpsert]

theorem stageTransportURL_noUpsert (env : Env) (now : Nat) :
    NoUpsert (stageTransportURL env now) := by
  intro p; simp only [stageTransportURL]; repeat' split
  all_goals simp [Call.isAmphoraUpsert]

theorem stageCertsQuotas_noUpsert (env : Env) (now : Nat) :
    NoUpsert (stageCertsQuotas env now) := by
  intro p; simp only [stageCertsQuotas]; repeat' split
  all_goals simp [Call.isAmphoraUpsert]

theorem stageNetworkAttachments_noUpsert (env : Env) (now : Nat) :
    NoUpsert (stageNetworkAttachments env now) := by
  intro p
  unfold stageNetworkAttachments
  rw [NoUpsert.bind, checkNetworkAttachments_noUpsert]
  intro q; simp only []; repeat' split
  all_goals simp [Call.isAmphoraUpsert]

theorem stageInit_noUpsert (env : Env) (now : Nat) : NoUpsert (stageInit env now) := by
  intro p; simp only [stageInit]; repeat' split
  all_goals simp [reconcileInit_upserts]

theorem stageUpdate_noUpsert : NoUpsert stageUpdate := by
  intro p; simp only [stageUpdate, reconcileUpdate]; repeat' split
  all_goals simp

theorem stageUpgrade_noUpsert : NoUpsert stageUpgrade := by
  intro p; simp only [stageUpgrade, reconcileUpgrade]; repeat' split
  all_goals simp

theorem stageAPI_noUpsert (env : Env) (now : Nat) : NoUpsert (stageAPI env now) := by
  intro p; simp only [stageAPI]; repeat' split
  all_goals simp [Call.isAmphoraUpsert]

theorem stageManagementNetwork_noUpsert (env : Env) : NoUpsert (stageManagementNetwork env) := by
  intro p; simp only [stageManagementNetwork]; repeat' split
  all_goals simp [Call.isAmphoraUpsert]

theorem reconcileNormalAPI_noUpsert (env : Env) (now : Nat) :
    NoUpsert (reconcileNormalAPI env now) := by
  intro p
  unfold reconcileNormalAPI
  rw [NoUpsert.bind (stageAPI_noUpsert env now), NoUpsert.bind stageUpgrade_noUpsert,
    NoUpsert.bind stageUpdate_noUpsert, NoUpsert.bind (stageInit_noUpsert env now),
    NoUpsert.bind (stageNetworkAttachments_noUpsert env now),
    NoUpsert.bind (stageCertsQuotas_noUpsert env now),
    NoUpsert.bind (stageTransportURL_noUpsert env now), stageRbac_noUpsert env p]


theorem not_mem_of_filter_upserts {cs : List Call} (h : cs.filter Call.isAmphoraUpsert = [])
    (role : String) : Call.amphoraControllerDaemonSetCreateOrUpdate role ∉ cs := by
  intro hmem
  have : Call.amphoraControllerDaemonSetCreateOrUpdate role ∈ cs.filter Call.isAmphoraUpsert :=
    List.mem_filter.mpr ⟨hmem, rfl⟩
  rw [h] at this
  exact absurd this (List.not_mem_nil _)

theorem roles_ne : octaviav1.Housekeeping ≠ octaviav1.HealthManager ∧
    octaviav1.Worker ≠ octaviav1.HealthManager ∧ octaviav1.Housekeeping ≠ octaviav1.Worker := by
  decide

/-- C3: in a pass that observes the health manager resource with a ready count
different from the desired count, neither the Housekeeping nor the Worker role is
upserted, and the pass returns an empty result and no error (at the barrier, line
667). -/
theorem reconcileNormal_barrier_closed (env : Env) (now : Nat) (inst : Octavia)
    (hm : OctaviaAmphoraControllerStatus)
    (hobs : env.amphoraControllerDaemonSetCreateOrUpdate octaviav1.HealthManager = .ok hm)
    (hne : hm.ReadyCount ≠ hm.DesiredNumberScheduled)
    (hcall : Call.amphoraControllerDaemonSetCreateOrUpdate octaviav1.HealthManager ∈
      (reconcileNormal env now ⟨inst, [], []⟩).pass.calls) :
    Call.amphoraControllerDaemonSetCreateOrUpdate octaviav1.Housekeeping ∉
        (reconcileNormal env now ⟨inst, [], []⟩).pass.calls ∧
      Call.amphoraControllerDaemonSetCreateOrUpdate octaviav1.Worker ∉
        (reconcileNormal env now ⟨inst, [], []⟩).pass.calls ∧
      (reconcileNormal env now ⟨inst, [], []⟩).result = Result.empty ∧
      (reconcileNormal env now ⟨inst, [], []⟩).err = none ∧
      (reconcileNormal env now ⟨inst, [], []⟩).line = 667 := by
  have hframe := reconcileNormalAPI_noUpsert env now ⟨inst, [], []⟩
  simp only [List.filter_nil] at hframe
  unfold reconcileNormal at hcall ⊢
  cases hapi : reconcileNormalAPI env now ⟨inst, [], []⟩ with
  | stop r =>
    rw [hapi] at hframe hcall
    exact absurd hcall (not_mem_of_filter_upserts hframe _)
  | next q =>
    rw [hapi] at hframe hcall
    simp only [Step.pass_next] at hframe
    simp only [Step.finish_next] at hcall ⊢
    unfold reconcileNormalAmphora stageManagementNetwork at hcall ⊢
    cases hnet : env.EnsureAmphoraManagementNetwork with
    | some err =>
      simp only [hnet, Step.bind_stop, Step.finish_stop, Pass.ret_calls, Pass.call_calls,
        List.mem_append, List.mem_singleton] at hcall
      rcases hcall with h | h
      · exact absurd h (not_mem_of_filter_upserts hframe _)
      · cases h
    | none =>
      have hk := not_mem_of_filter_upserts hframe octaviav1.Housekeeping
      have hw := not_mem_of_filter_upserts hframe octaviav1.Worker
      cases hmir : condition.Mirror hm.Conditions
          (amphoraControllerReadyCondition octaviav1.HealthManager) <;>
        simp [hnet, stageHealthManager, hobs, hne, hmir, hk, hw, roles_ne]

/-- C3, the example of the spec: desired 3, ready 2 gives no dependent-role upsert. -/
theorem reconcileNormal_barrier_closed_witness :
    Call.amphoraControllerDaemonSetCreateOrUpdate octaviav1.Housekeeping ∉
        (reconcileNormal sampleEnv 5 ⟨sampleInstance, [], []⟩).pass.calls ∧
      Call.amphoraControllerDaemonSetCreateOrUpdate octaviav1.Worker ∉
        (reconcileNormal sampleEnv 5 ⟨sampleInstance, [], []⟩).pass.calls ∧
      (reconcileNormal sampleEnv 5 ⟨sampleInstance, [], []⟩).result = Result.empty ∧
      (reconcileNormal sampleEnv 5 ⟨sampleInstance, [], []⟩).err = none ∧
      (reconcileNormal sampleEnv 5 ⟨sampleInstance, [], []⟩).line = 667 :=
  reconcileNormal_barrier_closed sampleEnv 5 sampleInstance ⟨2, 3, []⟩ rfl (by decide)
    (by decide)

/-! ## The deletion cascade -/

/-- C4: when each database lookup reports NotFound or finds a database whose
finalizer removal succeeds, the finalizer removal is called for every database found,
the own finalizer is removed from the instance, and the result is empty with no
error. -/
theorem reconcileDelete_releases (env : Env) (inst : Octavia)
    (h1 : dbReleased env octavia.DatabaseCRName inst.Spec.DatabaseAccount = true)
    (h2 : dbReleased env octavia.PersistenceDatabaseCRName
      inst.Spec.PersistenceDatabaseAccount = true) :
    (reconcileDelete env ⟨inst, [], []⟩).result = Result.empty ∧
      (reconcileDelete env ⟨inst, [], []⟩).err = none ∧
      (reconcileDelete env ⟨inst, [], []⟩).pass.inst.Finalizers =
        inst.Finalizers.filter (fun f => f != env.GetFinalizer) ∧
      env.GetFinalizer ∉ (reconcileDelete env ⟨inst, [], []⟩).pass.inst.Finalizers ∧
      (env.GetDatabaseByNameAndAccount octavia.DatabaseCRName inst.Spec.DatabaseAccount = none →
        Call.DeleteFinalizer octavia.DatabaseCRName ∈
          (reconcileDelete env ⟨inst, [], []⟩).pass.calls) ∧
      (env.GetDatabaseByNameAndAccount octavia.PersistenceDatabaseCRName
          inst.Spec.PersistenceDatabaseAccount = none →
        Call.DeleteFinalizer octavia.PersistenceDatabaseCRName ∈
          (reconcileDelete env ⟨inst, [], []⟩).pass.calls) := by
  unfold dbReleased at h1 h2
  unfold reconcileDelete
  cases hd1 : env.GetDatabaseByNameAndAccount octavia.DatabaseCRName inst.Spec.DatabaseAccount <;>
  cases hd2 : env.GetDatabaseByNameAndAccount octavia.PersistenceDatabaseCRName
      inst.Spec.PersistenceDatabaseAccount <;>
  simp [hd1, hd2, IsNotFound] at h1 h2 <;>
  simp [hd1, hd2, h1, h2, IsNotFound, Pass.removeFinalizer, controllerutil.RemoveFinalizer]

/-- C4, the example of the spec: one database NotFound and one present. -/
theorem reconcileDelete_releases_witness :
    (reconcileDelete deleteEnv ⟨sampleInstance, [], []⟩).result = Result.empty ∧
      (reconcileDelete deleteEnv ⟨sampleInstance, [], []⟩).err = none ∧
      (reconcileDelete deleteEnv ⟨sampleInstance, [], []⟩).pass.inst.Finalizers =
        sampleInstance.Finalizers.filter (fun f => f != deleteEnv.GetFinalizer) ∧
      deleteEnv.GetFinalizer ∉
        (reconcileDelete deleteEnv ⟨sampleInstance, [], []⟩).pass.inst.Finalizers ∧
      (deleteEnv.GetDatabaseByNameAndAccount octavia.DatabaseCRName
          sampleInstance.Spec.DatabaseAccount = none →
        Call.DeleteFinalizer octavia.DatabaseCRName ∈
          (reconcileDelete deleteEnv ⟨sampleInstance, [], []⟩).pass.calls) ∧
      (deleteEnv.GetDatabaseByNameAndAccount octavia.PersistenceDatabaseCRName
          sampleInstance.Spec.PersistenceDatabaseAccount = none →
        Call.DeleteFinalizer octavia.PersistenceDatabaseCRName ∈
          (reconcileDelete deleteEnv ⟨sampleInstance, [], []⟩).pass.calls) :=
  reconcileDelete_releases deleteEnv sampleInstance (by decide) (by decide)

/-- The cascade of the spec's example: the missing database is skipped, the present
one is released, the own finalizer goes. -/
theorem reconcileDelete_example :
    (reconcileDelete deleteEnv ⟨sampleInstance, [], []⟩).pass.calls =
        [.GetDatabaseByNameAndAccount "octavia" "octavia",
         .GetDatabaseByNameAndAccount "octavia-persistence" "octavia-persistence",
         .DeleteFinalizer "octavia-persistence"] ∧
      (reconcileDelete deleteEnv ⟨sampleInstance, [], []⟩).pass.inst.Finalizers = [] := by
  decide

theorem crNames_ne : octavia.PersistenceDatabaseCRName ≠ octavia.DatabaseCRName := by
  decide

/-- C5: when a database is not released (its lookup fails with an error other than
NotFound, or the removal of its finalizer fails), reconcileDelete returns that error
with an empty result, performs no later step of the cascade, and leaves the instance,
its own finalizer included, as it was. -/
theorem reconcileDelete_aborts (env : Env) (inst : Octavia)
    (h : ¬ (dbReleased env octavia.DatabaseCRName inst.Spec.DatabaseAccount = true ∧
      dbReleased env octavia.PersistenceDatabaseCRName
        inst.Spec.PersistenceDatabaseAccount = true)) :
    (reconcileDelete env ⟨inst, [], []⟩).pass.inst = inst ∧
      (reconcileDelete env ⟨inst, [], []⟩).result = Result.empty ∧
      (reconcileDelete env ⟨inst, [], []⟩).err.isSome = true ∧
      (dbReleased env octavia.DatabaseCRName inst.Spec.DatabaseAccount = false →
        ((reconcileDelete env ⟨inst, [], []⟩).err =
            env.GetDatabaseByNameAndAccount octavia.DatabaseCRName inst.Spec.DatabaseAccount ∧
          (reconcileDelete env ⟨inst, [], []⟩).pass.calls =
            [.GetDatabaseByNameAndAccount octavia.DatabaseCRName inst.Spec.DatabaseAccount]) ∨
        (env.GetDatabaseByNameAndAccount octavia.DatabaseCRName inst.Spec.DatabaseAccount = none ∧
          (reconcileDelete env ⟨inst, [], []⟩).err = env.DeleteFinalizer octavia.DatabaseCRName ∧
          (reconcileDelete env ⟨inst, [], []⟩).pass.calls =
            [.GetDatabaseByNameAndAccount octavia.DatabaseCRName inst.Spec.DatabaseAccount,
             .DeleteFinalizer octavia.DatabaseCRName])) ∧
      (dbReleased env octavia.DatabaseCRName inst.Spec.DatabaseAccount = true →
        ((reconcileDelete env ⟨inst, [], []⟩).err =
            env.GetDatabaseByNameAndAccount octavia.PersistenceDatabaseCRName
              inst.Spec.PersistenceDatabaseAccount ∧
          Call.DeleteFinalizer octavia.PersistenceDatabaseCRName ∉
            (reconcileDelete env ⟨inst, [], []⟩).pass.calls) ∨
        (env.GetDatabaseByNameAndAccount octavia.PersistenceDatabaseCRName
            inst.Spec.PersistenceDatabaseAccount = none ∧
          (reconcileDelete env ⟨inst, [], []⟩).err =
            env.DeleteFinalizer octavia.PersistenceDatabaseCRName)) := by
  unfold dbReleased at h ⊢
  unfold reconcileDelete
  cases hd1 : env.GetDatabaseByNameAndAccount octavia.DatabaseCRName inst.Spec.DatabaseAccount <;>
  cases hd2 : env.GetDatabaseByNameAndAccount octavia.PersistenceDatabaseCRName
      inst.Spec.PersistenceDatabaseAccount <;>
  cases hf1 : env.DeleteFinalizer octavia.DatabaseCRName <;>
  cases hf2 : env.DeleteFinalizer octavia.PersistenceDatabaseCRName <;>
  simp [hd1, hd2, hf1, hf2, IsNotFound] at h <;>
  simp [hd1, hd2, hf1, hf2, h, IsNotFound, crNames_ne] <;>
  split_ifs <;>
  simp_all [IsNotFound, crNames_ne]

/-- C5 at a concrete cascade: the persistence database keeps its finalizer, so the
error comes back and the instance keeps its own finalizer. -/
theorem reconcileDelete_aborts_witness :
    (reconcileDelete deleteFailEnv ⟨sampleInstance, [], []⟩).pass.inst = sampleInstance ∧
      (reconcileDelete deleteFailEnv ⟨sampleInstance, [], []⟩).result = Result.empty ∧
      (reconcileDelete deleteFailEnv ⟨sampleInstance, [], []⟩).err.isSome = true :=
  have h := reconcileDelete_aborts deleteFailEnv sampleInstance (by decide)
  ⟨h.1, h.2.1, h.2.2.1⟩

/-! ## The asset pipeline gate -/

/-- C6: with a non-empty asset-image reference whose hash is the stored image-upload
hash, reconcileAmphoraImages makes no collaborator call, leaves the instance (and so
its status) unchanged, and returns an empty result with no error. -/
theorem reconcileAmphoraImages_skips_when_hash_equal (env : Env) (now : Nat) (p : Pass)
    (hash : String)
    (href : p.inst.Spec.AmphoraImageContainerImage ≠ "")
    (hhash : env.ObjectHashString p.inst.Spec.AmphoraImageContainerImage = .ok hash)
    (hstored : mapGet p.inst.Status.Hash octaviav1.ImageUploadHash = hash) :
    (reconcileAmphoraImages env now p).pass.calls = p.calls ∧
      (reconcileAmphoraImages env now p).pass.inst = p.inst ∧
      (reconcileAmphoraImages env now p).result = Result.empty ∧
      (reconcileAmphoraImages env now p).err = none ∧
      (reconcileAmphoraImages env now p).line = 902 := by
  unfold reconcileAmphoraImages
  simp [href, hhash, hstored]

/-- C6 at a concrete instance: the pass adds no call to an empty log. -/
theorem reconcileAmphoraImages_skips_when_hash_equal_witness :
    (reconcileAmphoraImages sampleEnv 5 ⟨settledInstance, [], []⟩).pass.calls = [] ∧
      (reconcileAmphoraImages sampleEnv 5 ⟨settledInstance, [], []⟩).pass.inst =
        settledInstance ∧
      (reconcileAmphoraImages sampleEnv 5 ⟨settledInstance, [], []⟩).result = Result.empty ∧
      (reconcileAmphoraImages sampleEnv 5 ⟨settledInstance, [], []⟩).err = none ∧
      (reconcileAmphoraImages sampleEnv 5 ⟨settledInstance, [], []⟩).line = 902 :=
  reconcileAmphoraImages_skips_when_hash_equal sampleEnv 5 ⟨settledInstance, [], []⟩
    "hash-of-quay.io/amphora:latest" (by decide) rfl (by decide)

/-! ## The change-hash gate -/

theorem lookup_mapPut_self (m : List (String × String)) (k v : String) :
    (mapPut m k v).lookup k = some v := by
  induction m with
  | nil => simp [mapPut, List.lookup]
  | cons kv rest ih =>
    obtain ⟨k0, v0⟩ := kv
    by_cases h : k0 = k
    · simp [mapPut, h, List.lookup]
    · have h' : (k == k0) = false := by simpa using fun e => h e.symm
      simp [mapPut, h, List.lookup, h', ih]

theorem lookup_mapPut_other (m : List (String × String)) (k v k' : String) (hk : k' ≠ k) :
    (mapPut m k v).lookup k' = m.lookup k' := by
  induction m with
  | nil =>
    have h' : (k' == k) = false := by simpa using hk
    simp [mapPut, List.lookup, h']
  | cons kv rest ih =>
    obtain ⟨k0, v0⟩ := kv
    by_cases h : k0 = k
    · subst h
      have h' : (k' == k0) = false := by simpa using hk
      simp [mapPut, List.lookup, h']
    · simp only [mapPut, h, if_false, List.lookup, ih]

/-- C7: createHashOfInputHashes reports a change, and stores the new hash under the
input-hash key, exactly when the new hash differs from the stored one (a missing key
counts as a difference); no other key is touched, and a second call with the same
inputs reports no change and leaves the state as it is. -/
theorem createHashOfInputHashes_compare_and_set (env : Env) (p : Pass)
    (envVars : List (String × String)) (hash : String)
    (hhash : env.ObjectHashEnvVars envVars = .ok hash) :
    ((createHashOfInputHashes env p envVars).changed = true ↔
        p.inst.Status.Hash.lookup common.InputHashName ≠ some hash) ∧
      (createHashOfInputHashes env p envVars).err = none ∧
      (createHashOfInputHashes env p envVars).hash = hash ∧
      (createHashOfInputHashes env p envVars).pass.inst.Status.Hash.lookup common.InputHashName
        = some hash ∧
      (∀ k, k ≠ common.InputHashName →
        (createHashOfInputHashes env p envVars).pass.inst.Status.Hash.lookup k
          = p.inst.Status.Hash.lookup k) ∧
      ((createHashOfInputHashes env p envVars).changed = false →
        (createHashOfInputHashes env p envVars).pass = p) ∧
      (createHashOfInputHashes env (createHashOfInputHashes env p envVars).pass envVars).changed
        = false ∧
      (createHashOfInputHashes env (createHashOfInputHashes env p envVars).pass envVars).pass
        = (createHashOfInputHashes env p envVars).pass := by
  unfold createHashOfInputHashes
  simp only [hhash, util.SetHash]
  by_cases hs : p.inst.Status.Hash.lookup common.InputHashName = some hash
  · simp [hs, hhash]
  · simp [hs, hhash, Pass.setHashMap, lookup_mapPut_self]
    intro k hk
    exact lookup_mapPut_other _ _ _ _ hk

/-- C7, the example of the spec: the gate reports a change once on a status without
the key, then none on the repeated input. -/
theorem createHashOfInputHashes_compare_and_set_witness :
    (createHashOfInputHashes sampleEnv
        ⟨{ sampleInstance with Status := { sampleInstance.Status with Hash := [] } }, [], []⟩
        [("k", "abc")]).changed = true ∧
      (createHashOfInputHashes sampleEnv
        (createHashOfInputHashes sampleEnv
          ⟨{ sampleInstance with Status := { sampleInstance.Status with Hash := [] } }, [], []⟩
          [("k", "abc")]).pass [("k", "abc")]).changed = false :=
  have h := createHashOfInputHashes_compare_and_set sampleEnv
    ⟨{ sampleInstance with Status := { sampleInstance.Status with Hash := [] } }, [], []⟩
    [("k", "abc")] "inputhash" rfl
  ⟨h.1.mpr (by decide), h.2.2.2.2.2.2.1⟩

/-! ## The input-hash return of `reconcileInit` seen from `reconcileNormal` -/

/-- C8 on an instance without a stored input hash: `reconcileInit` returns at line 381
because the input hash changed, and the same pass of `reconcileNormal` goes on to
upsert the API deployment, provision the management network, upsert the three role
controllers and run the asset pipeline, up to its last line; only the migration job
is left out.  The same happens when the pass is entered through `Reconcile`. -/
theorem reconcileNormal_continues_after_hash_change :
    (Reconcile pendingEnv 5).returns = [876, 381, 440, 451, 1028, 755, 215] ∧
      Call.apiDeploymentCreateOrUpdate ∈ (Reconcile pendingEnv 5).calls ∧
      Call.DoJob "" ∉ (Reconcile pendingEnv 5).calls ∧
      (reconcileNormal readyEnv 5 ⟨freshInstance, [], []⟩).pass.returns =
        [876, 381, 440, 451, 1028, 755] ∧
      (reconcileNormal readyEnv 5 ⟨freshInstance, [], []⟩).pass.calls =
        [.ReconcileRbac, .transportURLCreateOrUpdate, .EnsureAmphoraCerts, .EnsureQuotas,
         .GetNADWithName "internalapi", .CreateNetworksAnnotation_,
         .GetSecret "osp-secret", .GetSecret "rabbitmq-transport-url",
         .EnsureMariaDBAccount "octavia", .EnsureMariaDBAccount "octavia-persistence",
         .CreateOrPatchAll "octavia", .WaitForDBCreated "octavia",
         .CreateOrPatchAll "octavia-persistence", .WaitForDBCreated "octavia-persistence",
         .EnsureSecrets,
         .apiDeploymentCreateOrUpdate, .EnsureAmphoraManagementNetwork,
         .amphoraControllerDaemonSetCreateOrUpdate "healthmanager",
         .amphoraControllerDaemonSetCreateOrUpdate "housekeeping",
         .amphoraControllerDaemonSetCreateOrUpdate "worker",
         .DeleteUnusedMariaDBAccountFinalizers "octavia" "octavia",
         .DeleteUnusedMariaDBAccountFinalizers "octavia-persistence" "octavia-persistence",
         .EnsureAmpSSHConfig, .DeploymentCreateOrPatch, .NewService, .ServiceCreateOrPatch,
         .GetAPIEndpoint, .HttpGet "http://img/octavia-amphora-images.sha256sum",
         .EnsureAmphoraImages [⟨"cirros", "http://img/cirros.qcow2", "abc123"⟩],
         .DeploymentDelete] := by
  decide

/-- C9 on an instance without a stored input hash: the first pass runs to line 755,
and a second pass on its result with the same responses leaves a different status,
timestamps apart: it now runs the migration job and records its hash. -/
theorem reconcileNormal_second_pass_differs :
    (reconcileNormal readyEnv 5 ⟨freshInstance, [], []⟩).line = 755 ∧
      381 ∈ (reconcileNormal readyEnv 5 ⟨freshInstance, [], []⟩).pass.returns ∧
      (reconcileNormal readyEnv 5
        ⟨(reconcileNormal readyEnv 5 ⟨freshInstance, [], []⟩).pass.inst, [], []⟩).line = 755 ∧
      eraseTimes (reconcileNormal readyEnv 5
          ⟨(reconcileNormal readyEnv 5 ⟨freshInstance, [], []⟩).pass.inst, [], []⟩).pass.inst.Status
        ≠ eraseTimes (reconcileNormal readyEnv 5 ⟨freshInstance, [], []⟩).pass.inst.Status ∧
      mapGet (reconcileNormal readyEnv 5 ⟨freshInstance, [], []⟩).pass.inst.Status.Hash
        octaviav1.DbSyncHash = "" ∧
      mapGet (reconcileNormal readyEnv 5
          ⟨(reconcileNormal readyEnv 5 ⟨freshInstance, [], []⟩).pass.inst, [], []⟩).pass.inst.Status.Hash
        octaviav1.DbSyncHash = "jobhash" := by
  decide

/-! ## Transition times across a pass of `Reconcile` -/

theorem Get_RestoreLastTransitionTimes (conds saved : List Condition) (t : String)
    (c0 c1 : Condition) (h0 : condition.Get saved t = some c0)
    (h1 : condition.Get (condition.RestoreLastTransitionTimes conds saved) t = some c1)
    (hs : c1.Status = c0.Status) : c1.LastTransitionTime = c0.LastTransitionTime := by
  have htype : ∀ c : Condition,
      (match condition.Get saved c.Type_ with
        | some s =>
          if s.Status = c.Status then { c with LastTransitionTime := s.LastTransitionTime } else c
        | none => c).Type_ = c.Type_ := by
    intro c
    split
    · split <;> rfl
    · rfl
  unfold condition.RestoreLastTransitionTimes at h1
  rw [condition.Get, List.find?_map] at h1
  have hcomp : ((fun c : Condition => c.Type_ == t) ∘ fun c =>
      match condition.Get saved c.Type_ with
      | some s =>
        if s.Status = c.Status then { c with LastTransitionTime := s.LastTransitionTime } else c
      | none => c) = fun c : Condition => c.Type_ == t := by
    funext c
    simp only [Function.comp, htype]
  rw [hcomp] at h1
  cases hf : List.find? (fun c : Condition => c.Type_ == t) conds with
  | none => simp [hf] at h1
  | some c =>
    have hct : c.Type_ = t := by simpa using List.find?_some hf
    simp only [hf, Option.map_some', hct, h0, Option.some.injEq] at h1
    by_cases hst : c0.Status = c.Status
    · simp only [hst, if_true] at h1
      rw [← h1]
    · simp only [hst, if_false] at h1
      rw [← h1] at hs
      exact absurd hs.symm hst

theorem Set_of_Get (now : Nat) (conds : List Condition) (t : String) (c : Condition)
    (h : condition.Get conds t = some c) : condition.Set now conds c = conds := by
  induction conds with
  | nil => simp [condition.Get] at h
  | cons e rest ih =>
    by_cases he : e.Type_ = t
    · have : c = e := by simpa [condition.Get, he] using h.symm
      subst this
      simp [condition.Set]
    · have hrest : condition.Get rest t = some c := by
        simpa [condition.Get, he] using h
      have hct : c.Type_ = t := by
        have := List.find?_some hrest
        simpa using this
      simp [condition.Set, hct, he, ih hrest]

theorem deferredPatch_conditions (env : Env) (now : Nat) (saved : List Condition) (r : Ret)
    (patched : Octavia) (h : (deferredPatch env now saved r).patched = some patched) :
    patched.Status.Conditions
      = condition.RestoreLastTransitionTimes r.pass.inst.Status.Conditions saved := by
  unfold deferredPatch at h
  have hmir : ∀ conds : List Condition,
      (if condition.IsUnknown conds condition.ReadyCondition = true then
        match condition.Mirror conds condition.ReadyCondition with
        | some c => condition.Set now conds c
        | none => conds
      else conds) = conds := by
    intro conds
    split
    · cases hg : condition.Mirror conds condition.ReadyCondition with
      | none => rfl
      | some c => exact Set_of_Get now conds _ c hg
    · rfl
  simp only [hmir] at h
  cases hp : env.PatchInstance <;> simp [hp] at h <;> rw [← h]

/-- C10: in the status a pass of Reconcile hands to PatchInstance, every condition
whose status is the one it had when the pass started carries the transition time it
had when the pass started. -/
theorem Reconcile_keeps_transition_time (env : Env) (now : Nat) (inst patched : Octavia)
    (t : String) (c0 c1 : Condition)
    (hget : env.ClientGet = .ok inst)
    (hpatched : (Reconcile env now).patched = some patched)
    (h0 : condition.Get inst.Status.Conditions t = some c0)
    (h1 : condition.Get patched.Status.Conditions t = some c1)
    (hs : c1.Status = c0.Status) :
    c1.LastTransitionTime = c0.LastTransitionTime := by
  unfold Reconcile at hpatched
  simp only [hget] at hpatched
  cases hh : env.NewHelper with
  | some e => simp [hh] at hpatched
  | none =>
    simp only [hh] at hpatched
    rw [deferredPatch_conditions _ _ _ _ _ hpatched] at h1
    exact Get_RestoreLastTransitionTimes _ _ t c0 c1 h0 h1 hs

/-- C10 at a concrete pass at time 5: the input condition is reset, found True again,
and is persisted with the transition time 1 it had before. -/
theorem Reconcile_keeps_transition_time_witness :
    seenEnv.ClientGet = .ok seenInstance ∧
      (Reconcile seenEnv 5).patched = some ((Reconcile seenEnv 5).patched.getD seenInstance) ∧
      condition.Get seenInstance.Status.Conditions condition.InputReadyCondition =
        some ⟨"InputReady", .ConditionTrue, "Ready", "", "condition.InputReadyMessage", 1⟩ ∧
      condition.Get ((Reconcile seenEnv 5).patched.getD seenInstance).Status.Conditions
          condition.InputReadyCondition =
        some ⟨"InputReady", .ConditionTrue, "Ready", "", "condition.InputReadyMessage", 1⟩ ∧
      (⟨"InputReady", .ConditionTrue, "Ready", "", "condition.InputReadyMessage", 1⟩ :
          Condition).LastTransitionTime = 1 :=
  ⟨rfl, by decide, by decide, by decide,
    Reconcile_keeps_transition_time seenEnv 5 seenInstance
      ((Reconcile seenEnv 5).patched.getD seenInstance) condition.InputReadyCondition
      ⟨"InputReady", .ConditionTrue, "Ready", "", "condition.InputReadyMessage", 1⟩
      ⟨"InputReady", .ConditionTrue, "Ready", "", "condition.InputReadyMessage", 1⟩
      rfl (by decide) (by decide) (by decide) rfl⟩

/-! ## More projections of the state operations -/

@[simp] theorem Pass.setCond_Spec (p : Pass) (now : Nat) (c : Condition) :
    (p.setCond now c).inst.Spec = p.inst.Spec := rfl
@[simp] theorem Pass.setCond_Generation (p : Pass) (now : Nat) (c : Condition) :
    (p.setCond now c).inst.Generation = p.inst.Generation := rfl
@[simp] theorem Pass.setCond_Hash (p : Pass) (now : Nat) (c : Condition) :
    (p.setCond now c).inst.Status.Hash = p.inst.Status.Hash := rfl
@[simp] theorem Pass.setCond_TransportURLSecret (p : Pass) (now : Nat) (c : Condition) :
    (p.setCond now c).inst.Status.TransportURLSecret = p.inst.Status.TransportURLSecret := rfl
@[simp] theorem Pass.markTrue_Spec (p : Pass) (now : Nat) (t m : String) :
    (p.markTrue now t m).inst.Spec = p.inst.Spec := rfl
@[simp] theorem Pass.markTrue_Generation (p : Pass) (now : Nat) (t m : String) :
    (p.markTrue now t m).inst.Generation = p.inst.Generation := rfl
@[simp] theorem Pass.markTrue_Hash (p : Pass) (now : Nat) (t m : String) :
    (p.markTrue now t m).inst.Status.Hash = p.inst.Status.Hash := rfl
@[simp] theorem Pass.markTrue_TransportURLSecret (p : Pass) (now : Nat) (t m : String) :
    (p.markTrue now t m).inst.Status.TransportURLSecret = p.inst.Status.TransportURLSecret := rfl
@[simp] theorem Pass.putHash_Spec (p : Pass) (k v : String) :
    (p.putHash k v).inst.Spec = p.inst.Spec := rfl
@[simp] theorem Pass.putHash_Generation (p : Pass) (k v : String) :
    (p.putHash k v).inst.Generation = p.inst.Generation := rfl
@[simp] theorem Pass.putHash_Conditions (p : Pass) (k v : String) :
    (p.putHash k v).inst.Status.Conditions = p.inst.Status.Conditions := rfl
@[simp] theorem Pass.putHash_TransportURLSecret (p : Pass) (k v : String) :
    (p.putHash k v).inst.Status.TransportURLSecret = p.inst.Status.TransportURLSecret := rfl
@[simp] theorem Pass.setTransportURLSecret_Spec (p : Pass) (v : String) :
    (p.setTransportURLSecret v).inst.Spec = p.inst.Spec := rfl
@[simp] theorem Pass.setTransportURLSecret_Generation (p : Pass) (v : String) :
    (p.setTransportURLSecret v).inst.Generation = p.inst.Generation := rfl
@[simp] theorem Pass.setTransportURLSecret_Hash (p : Pass) (v : String) :
    (p.setTransportURLSecret v).inst.Status.Hash = p.inst.Status.Hash := rfl
@[simp] theorem Pass.setTransportURLSecret_Conditions (p : Pass) (v : String) :
    (p.setTransportURLSecret v).inst.Status.Conditions = p.inst.Status.Conditions := rfl
@[simp] theorem Pass.setDatabaseHostname_Spec (p : Pass) (v : String) :
    (p.setDatabaseHostname v).inst.Spec = p.inst.Spec := rfl
@[simp] theorem Pass.setDatabaseHostname_Generation (p : Pass) (v : String) :
    (p.setDatabaseHostname v).inst.Generation = p.inst.Generation := rfl
@[simp] theorem Pass.setDatabaseHostname_Hash (p : Pass) (v : String) :
    (p.setDatabaseHostname v).inst.Status.Hash = p.inst.Status.Hash := rfl
@[simp] theorem Pass.setDatabaseHostname_Conditions (p : Pass) (v : String) :
    (p.setDatabaseHostname v).inst.Status.Conditions = p.inst.Status.Conditions := rfl
@[simp] theorem Pass.setDatabaseHostname_TransportURLSecret (p : Pass) (v : String) :
    (p.setDatabaseHostname v).inst.Status.TransportURLSecret = p.inst.Status.TransportURLSecret := rfl
@[simp] theorem Pass.setOctaviaAPIReadyCount_Spec (p : Pass) (v : Int) :
    (p.setOctaviaAPIReadyCount v).inst.Spec = p.inst.Spec := rfl
@[simp] theorem Pass.setOctaviaAPIReadyCount_Generation (p : Pass) (v : Int) :
    (p.setOctaviaAPIReadyCount v).inst.Generation = p.inst.Generation := rfl
@[simp] theorem Pass.setOctaviaAPIReadyCount_Hash (p : Pass) (v : Int) :
    (p.setOctaviaAPIReadyCount v).inst.Status.Hash = p.inst.Status.Hash := rfl
@[simp] theorem Pass.setOctaviaAPIReadyCount_Conditions (p : Pass) (v : Int) :
    (p.setOctaviaAPIReadyCount v).inst.Status.Conditions = p.inst.Status.Conditions := rfl
@[simp] theorem Pass.setOctaviaAPIReadyCount_TransportURLSecret (p : Pass) (v : Int) :
    (p.setOctaviaAPIReadyCount v).inst.Status.TransportURLSecret = p.inst.Status.TransportURLSecret := rfl
@[simp] theorem Pass.setOctaviaHealthManagerReadyCount_Spec (p : Pass) (v : Int) :
    (p.setOctaviaHealthManagerReadyCount v).inst.Spec = p.inst.Spec := rfl
@[simp] theorem Pass.setOctaviaHealthManagerReadyCount_Generation (p : Pass) (v : Int) :
    (p.setOctaviaHealthManagerReadyCount v).inst.Generation = p.inst.Generation := rfl
@[simp] theorem Pass.setOctaviaHealthManagerReadyCount_Hash (p : Pass) (v : Int) :
    (p.setOctaviaHealthManagerReadyCount v).inst.Status.Hash = p.inst.Status.Hash := rfl
@[simp] theorem Pass.setOctaviaHealthManagerReadyCount_Conditions (p : Pass) (v : Int) :
    (p.setOctaviaHealthManagerReadyCount v).inst.Status.Conditions = p.inst.Status.Conditions := rfl
@[simp] theorem Pass.setOctaviaHealthManagerReadyCount_TransportURLSecret (p : Pass) (v : Int) :
    (p.setOctaviaHealthManagerReadyCount v).inst.Status.TransportURLSecret = p.inst.Status.TransportURLSecret := rfl
@[simp] theorem Pass.setOctaviaHousekeepingReadyCount_Spec (p : Pass) (v : Int) :
    (p.setOctaviaHousekeepingReadyCount v).inst.Spec = p.inst.Spec := rfl
@[simp] theorem Pass.setOctaviaHousekeepingReadyCount_Generation (p : Pass) (v : Int) :
    (p.setOctaviaHousekeepingReadyCount v).inst.Generation = p.inst.Generation := rfl
@[simp] theorem Pass.setOctaviaHousekeepingReadyCount_Hash (p : Pass) (v : Int) :
    (p.setOctaviaHousekeepingReadyCount v).inst.Status.Hash = p.inst.Status.Hash := rfl
@[simp] theorem Pass.setOctaviaHousekeepingReadyCount_Conditions (p : Pass) (v : Int) :
    (p.setOctaviaHousekeepingReadyCount v).inst.Status.Conditions = p.inst.Status.Conditions := rfl
@[simp] theorem Pass.setOctaviaHousekeepingReadyCount_TransportURLSecret (p : Pass) (v : Int) :
    (p.setOctaviaHousekeepingReadyCount v).inst.Status.TransportURLSecret = p.inst.Status.TransportURLSecret := rfl
@[simp] theorem Pass.setOctaviaWorkerReadyCount_Spec (p : Pass) (v : Int) :
    (p.setOctaviaWorkerReadyCount v).inst.Spec = p.inst.Spec := rfl
@[simp] theorem Pass.setOctaviaWorkerReadyCount_Generation (p : Pass) (v : Int) :
    (p.setOctaviaWorkerReadyCount v).inst.Generation = p.inst.Generation := rfl
@[simp] theorem Pass.setOctaviaWorkerReadyCount_Hash (p : Pass) (v : Int) :
    (p.setOctaviaWorkerReadyCount v).inst.Status.Hash = p.inst.Status.Hash := rfl
@[simp] theorem Pass.setOctaviaWorkerReadyCount_Conditions (p : Pass) (v : Int) :
    (p.setOctaviaWorkerReadyCount v).inst.Status.Conditions = p.inst.Status.Conditions := rfl
@[simp] theorem Pass.setOctaviaWorkerReadyCount_TransportURLSecret (p : Pass) (v : Int) :
    (p.setOctaviaWorkerReadyCount v).inst.Status.TransportURLSecret = p.inst.Status.TransportURLSecret := rfl
@[simp] theorem Pass.setObservedGeneration_Spec (p : Pass) :
    p.setObservedGeneration.inst.Spec = p.inst.Spec := rfl
@[simp] theorem Pass.setObservedGeneration_Generation (p : Pass) :
    p.setObservedGeneration.inst.Generation = p.inst.Generation := rfl
@[simp] theorem Pass.setObservedGeneration_Hash (p : Pass) :
    p.setObservedGeneration.inst.Status.Hash = p.inst.Status.Hash := rfl
@[simp] theorem Pass.setObservedGeneration_Conditions (p : Pass) :
    p.setObservedGeneration.inst.Status.Conditions = p.inst.Status.Conditions := rfl
@[simp] theorem Pass.setObservedGeneration_TransportURLSecret (p : Pass) :
    p.setObservedGeneration.inst.Status.TransportURLSecret = p.inst.Status.TransportURLSecret := rfl
@[simp] theorem Pass.setHashMap_Spec (p : Pass) (hm : List (String × String)) :
    (p.setHashMap hm).inst.Spec = p.inst.Spec := rfl
@[simp] theorem Pass.setHashMap_Generation (p : Pass) (hm : List (String × String)) :
    (p.setHashMap hm).inst.Generation = p.inst.Generation := rfl
@[simp] theorem Pass.setHashMap_Conditions (p : Pass) (hm : List (String × String)) :
    (p.setHashMap hm).inst.Status.Conditions = p.inst.Status.Conditions := rfl
@[simp] theorem Pass.setHashMap_TransportURLSecret (p : Pass) (hm : List (String × String)) :
    (p.setHashMap hm).inst.Status.TransportURLSecret = p.inst.Status.TransportURLSecret := rfl
@[simp] theorem Pass.putHash_Hash (p : Pass) (k v : String) :
    (p.putHash k v).inst.Status.Hash = mapPut p.inst.Status.Hash k v := rfl
@[simp] theorem Pass.setHashMap_Hash (p : Pass) (hm : List (String × String)) :
    (p.setHashMap hm).inst.Status.Hash = hm := rfl
@[simp] theorem Pass.setCond_Conditions (p : Pass) (now : Nat) (c : Condition) :
    (p.setCond now c).inst.Status.Conditions = condition.Set now p.inst.Status.Conditions c := rfl
@[simp] theorem Pass.markTrue_Conditions (p : Pass) (now : Nat) (t m : String) :
    (p.markTrue now t m).inst.Status.Conditions =
      condition.Set now p.inst.Status.Conditions (condition.TrueCondition t m) := rfl
@[simp] theorem Pass.setTransportURLSecret_TransportURLSecret (p : Pass) (v : String) :
    (p.setTransportURLSecret v).inst.Status.TransportURLSecret = v := rfl


/-! ## The asset pipeline -/

/-- C17: when the uploader deployment is created or patched without error and without
requeue and has no ready replica, reconcileAmphoraImages returns a requeue after one
second and no error; the deployment upsert is its only call and the instance, with its
stored image-upload hash, is unchanged. -/
theorem reconcileAmphoraImages_waits_for_uploader (env : Env) (now : Nat) (p : Pass)
    (hash : String)
    (href : p.inst.Spec.AmphoraImageContainerImage ≠ "")
    (hhash : env.ObjectHashString p.inst.Spec.AmphoraImageContainerImage = .ok hash)
    (hnew : hash ≠ mapGet p.inst.Status.Hash octaviav1.ImageUploadHash)
    (hdepl : env.DeploymentCreateOrPatch = (Result.empty, none))
    (hready : env.ReadyReplicas = 0) :
    (reconcileAmphoraImages env now p).result = { Requeue := true, RequeueAfter := 1 } ∧
      (reconcileAmphoraImages env now p).err = none ∧
      (reconcileAmphoraImages env now p).line = 936 ∧
      (reconcileAmphoraImages env now p).pass.calls = p.calls ++ [.DeploymentCreateOrPatch] ∧
      (reconcileAmphoraImages env now p).pass.inst = p.inst := by
  unfold reconcileAmphoraImages
  simp [href, hhash, hnew, hdepl, hready]

/-- C17 at a concrete pass: the uploader has no ready replica yet. -/
theorem reconcileAmphoraImages_waits_for_uploader_witness :
    (reconcileAmphoraImages waitingEnv 5 ⟨sampleInstance, [], []⟩).result =
        { Requeue := true, RequeueAfter := 1 } ∧
      (reconcileAmphoraImages waitingEnv 5 ⟨sampleInstance, [], []⟩).err = none ∧
      (reconcileAmphoraImages waitingEnv 5 ⟨sampleInstance, [], []⟩).line = 936 ∧
      (reconcileAmphoraImages waitingEnv 5 ⟨sampleInstance, [], []⟩).pass.calls =
        [] ++ [.DeploymentCreateOrPatch] ∧
      (reconcileAmphoraImages waitingEnv 5 ⟨sampleInstance, [], []⟩).pass.inst =
        sampleInstance :=
  reconcileAmphoraImages_waits_for_uploader waitingEnv 5 ⟨sampleInstance, [], []⟩
    "hash-of-quay.io/amphora:latest" (by decide) rfl (by decide) rfl rfl

/-- C18: when the asset import is called and answers without error that the import is
not complete, reconcileAmphoraImages returns a requeue after five seconds and no error,
leaves the stored hashes as they were and does not delete the uploader deployment. -/
theorem reconcileAmphoraImages_import_pending (env : Env) (now : Nat) (inst : Octavia)
    (urlMap : List OctaviaAmphoraImage)
    (hcall : Call.EnsureAmphoraImages urlMap ∈
      (reconcileAmphoraImages env now ⟨inst, [], []⟩).pass.calls)
    (hresp : env.EnsureAmphoraImages urlMap = (false, none)) :
    (reconcileAmphoraImages env now ⟨inst, [], []⟩).result =
        { Requeue := true, RequeueAfter := 5 } ∧
      (reconcileAmphoraImages env now ⟨inst, [], []⟩).err = none ∧
      (reconcileAmphoraImages env now ⟨inst, [], []⟩).line = 1019 ∧
      (reconcileAmphoraImages env now ⟨inst, [], []⟩).pass.inst.Status.Hash =
        inst.Status.Hash ∧
      Call.DeploymentDelete ∉ (reconcileAmphoraImages env now ⟨inst, [], []⟩).pass.calls := by
  unfold reconcileAmphoraImages at hcall ⊢
  repeat' split
  all_goals simp_all

/-- C18 at a concrete pass: the import is still running. -/
theorem reconcileAmphoraImages_import_pending_witness :
    (reconcileAmphoraImages importingEnv 5 ⟨sampleInstance, [], []⟩).result =
        { Requeue := true, RequeueAfter := 5 } ∧
      (reconcileAmphoraImages importingEnv 5 ⟨sampleInstance, [], []⟩).err = none ∧
      (reconcileAmphoraImages importingEnv 5 ⟨sampleInstance, [], []⟩).line = 1019 ∧
      (reconcileAmphoraImages importingEnv 5 ⟨sampleInstance, [], []⟩).pass.inst.Status.Hash =
        sampleInstance.Status.Hash ∧
      Call.DeploymentDelete ∉
        (reconcileAmphoraImages importingEnv 5 ⟨sampleInstance, [], []⟩).pass.calls :=
  reconcileAmphoraImages_import_pending importingEnv 5 sampleInstance
    [⟨"cirros", "http://img/cirros.qcow2", "abc123"⟩] (by decide) rfl

theorem mapGet_mapPut_self (m : List (String × String)) (k v : String) :
    mapGet (mapPut m k v) k = v := by
  simp [mapGet, lookup_mapPut_self]

/-- C19: when the asset import is called and answers without error that the import is
complete, the stored image-upload hash becomes the hash of the asset-image reference,
the deletion of the uploader deployment is the last call, and reconcileAmphoraImages
returns an empty result and no error, whatever the deletion answers. -/
theorem reconcileAmphoraImages_import_complete (env : Env) (now : Nat) (inst : Octavia)
    (urlMap : List OctaviaAmphoraImage)
    (hcall : Call.EnsureAmphoraImages urlMap ∈
      (reconcileAmphoraImages env now ⟨inst, [], []⟩).pass.calls)
    (hresp : env.EnsureAmphoraImages urlMap = (true, none)) :
    env.ObjectHashString inst.Spec.AmphoraImageContainerImage =
        .ok (mapGet (reconcileAmphoraImages env now ⟨inst, [], []⟩).pass.inst.Status.Hash
          octaviav1.ImageUploadHash) ∧
      (reconcileAmphoraImages env now ⟨inst, [], []⟩).pass.calls.getLast? =
        some Call.DeploymentDelete ∧
      (reconcileAmphoraImages env now ⟨inst, [], []⟩).result = Result.empty ∧
      (reconcileAmphoraImages env now ⟨inst, [], []⟩).err = none ∧
      (reconcileAmphoraImages env now ⟨inst, [], []⟩).line = 1028 := by
  unfold reconcileAmphoraImages at hcall ⊢
  repeat' split
  all_goals simp_all [mapGet_mapPut_self]

/-- C19 at a concrete pass: the deletion of the uploader deployment fails, and the
pipeline still settles. -/
theorem reconcileAmphoraImages_import_complete_witness :
    teardownFailEnv.DeploymentDelete ≠ none ∧
      teardownFailEnv.ObjectHashString sampleInstance.Spec.AmphoraImageContainerImage =
        .ok (mapGet (reconcileAmphoraImages teardownFailEnv 5
          ⟨sampleInstance, [], []⟩).pass.inst.Status.Hash octaviav1.ImageUploadHash) ∧
      (reconcileAmphoraImages teardownFailEnv 5 ⟨sampleInstance, [], []⟩).pass.calls.getLast? =
        some Call.DeploymentDelete ∧
      (reconcileAmphoraImages teardownFailEnv 5 ⟨sampleInstance, [], []⟩).result =
        Result.empty ∧
      (reconcileAmphoraImages teardownFailEnv 5 ⟨sampleInstance, [], []⟩).err = none ∧
      (reconcileAmphoraImages teardownFailEnv 5 ⟨sampleInstance, [], []⟩).line = 1028 :=
  ⟨by decide, reconcileAmphoraImages_import_complete teardownFailEnv 5 sampleInstance
    [⟨"cirros", "http://img/cirros.qcow2", "abc123"⟩] (by decide) rfl⟩


/-! ## Network attachments -/

theorem Get_Set_self (now : Nat) (conds : List Condition) (c : Condition) :
    ∃ t, condition.Get (condition.Set now conds c) c.Type_
      = some { c with LastTransitionTime := t } := by
  induction conds with
  | nil => exact ⟨now, by simp [condition.Set, condition.Get]⟩
  | cons e rest ih =>
    by_cases h : e.Type_ = c.Type_
    · by_cases hs : e.Status = c.Status
      · exact ⟨e.LastTransitionTime, by simp [condition.Set, condition.Get, h, hs]⟩
      · exact ⟨now, by simp [condition.Set, condition.Get, h, hs]⟩
    · obtain ⟨t, ht⟩ := ih
      refine ⟨t, ?_⟩
      simp only [condition.Set, h, if_false, condition.Get, List.find?_cons]
      have : (e.Type_ == c.Type_) = false := by simpa using h
      simpa [this, condition.Get] using ht

theorem checkNetworkAttachments_found (env : Env) (now : Nat) (pre rest : List String)
    (hpre : ∀ m ∈ pre, env.GetNADWithName m = none) :
    ∀ p, checkNetworkAttachments env now (pre ++ rest) p =
      checkNetworkAttachments env now rest
        (pre.foldl (fun q m => q.call (.GetNADWithName m)) p) := by
  induction pre with
  | nil => intro p; rfl
  | cons m ms ih =>
    intro p
    have hm : env.GetNADWithName m = none := hpre m (List.mem_cons_self _ _)
    have hms : ∀ x ∈ ms, env.GetNADWithName x = none :=
      fun x hx => hpre x (List.mem_cons_of_mem _ hx)
    simp only [List.cons_append, checkNetworkAttachments, hm, List.foldl_cons]
    exact ih hms _

theorem foldl_call_inst (names : List String) :
    ∀ p : Pass, (names.foldl (fun q m => q.call (.GetNADWithName m)) p).inst = p.inst := by
  induction names with
  | nil => intro p; rfl
  | cons m ms ih => intro p; simp [List.foldl_cons, ih]

theorem foldl_call_calls (names : List String) :
    ∀ p : Pass, (names.foldl (fun q m => q.call (.GetNADWithName m)) p).calls
      = p.calls ++ names.map Call.GetNADWithName := by
  induction names with
  | nil => intro p; simp
  | cons m ms ih => intro p; simp [List.foldl_cons, ih]

theorem stageRbac_ok (env : Env) (p : Pass) (h : env.ReconcileRbac = (Result.empty, none)) :
    stageRbac env p = .next (p.call .ReconcileRbac) := by
  simp [stageRbac, h]

theorem stageTransportURL_ok (env : Env) (now : Nat) (p : Pass) (secretName : String)
    (h : env.transportURLCreateOrUpdate = .ok secretName) (hne : secretName ≠ "") :
    stageTransportURL env now p = .next
      (((p.call .transportURLCreateOrUpdate).setTransportURLSecret secretName).markTrue now
        condition.RabbitMqTransportURLReadyCondition
        "condition.RabbitMqTransportURLReadyMessage") := by
  simp [stageTransportURL, h, hne]

theorem stageCertsQuotas_ok (env : Env) (now : Nat) (p : Pass)
    (hc : env.EnsureAmphoraCerts = none) (hq : env.EnsureQuotas = none) :
    stageCertsQuotas env now p = .next
      (((p.call .EnsureAmphoraCerts).call .EnsureQuotas).markTrue now
        condition.InputReadyCondition "condition.InputReadyMessage") := by
  simp [stageCertsQuotas, hc, hq]

/-- C20 at a concrete pass: the network attachment is reported NotFound and the pass
returns the requeue result together with an error. -/
theorem reconcileNormal_nad_not_found_returns_error :
    nadMissingEnv.GetNADWithName "internalapi" =
        some ⟨true, "network-attachment-definitions not found"⟩ ∧
      (reconcileNormal nadMissingEnv 5 ⟨sampleInstance, [], []⟩).result =
        { RequeueAfter := 10 } ∧
      (reconcileNormal nadMissingEnv 5 ⟨sampleInstance, [], []⟩).err =
        some ⟨false, "network-attachment-definition internalapi not found"⟩ ∧
      ¬ (reconcileNormal nadMissingEnv 5 ⟨sampleInstance, [], []⟩).err = none := by
  decide

/-- C20, amended: when the stages before the network attachments succeed and the
first declared attachment the validator does not find is reported NotFound, the pass
sets NetworkAttachmentsReady False with reason Requested and severity Info naming
that attachment, makes no further call, and returns at line 547 the requeue after ten
seconds together with the error `network-attachment-definition <name> not found`. -/
theorem reconcileNormal_nad_not_found (env : Env) (now : Nat) (inst : Octavia)
    (secretName : String) (pre post : List String) (name : String) (e : Err)
    (hrbac : env.ReconcileRbac = (Result.empty, none))
    (hurl : env.transportURLCreateOrUpdate = .ok secretName)
    (hsecret : secretName ≠ "")
    (hcerts : env.EnsureAmphoraCerts = none)
    (hquotas : env.EnsureQuotas = none)
    (hnames : inst.Spec.NetworkAttachments = pre ++ name :: post)
    (hpre : ∀ m ∈ pre, env.GetNADWithName m = none)
    (hname : env.GetNADWithName name = some e)
    (hnf : e.notFound = true) :
    (reconcileNormal env now ⟨inst, [], []⟩).result = { RequeueAfter := 10 } ∧
      (reconcileNormal env now ⟨inst, [], []⟩).err =
        some ⟨false, "network-attachment-definition " ++ name ++ " not found"⟩ ∧
      (reconcileNormal env now ⟨inst, [], []⟩).line = 547 ∧
      (reconcileNormal env now ⟨inst, [], []⟩).pass.calls.getLast? =
        some (Call.GetNADWithName name) ∧
      ∃ t, condition.Get (reconcileNormal env now ⟨inst, [], []⟩).pass.inst.Status.Conditions
          condition.NetworkAttachmentsReadyCondition =
        some { Type_ := condition.NetworkAttachmentsReadyCondition,
               Status := ConditionStatus.ConditionFalse,
               Reason := condition.RequestedReason,
               Severity := condition.SeverityInfo,
               Message := formatMessage "condition.NetworkAttachmentsReadyWaitingMessage" [name],
               LastTransitionTime := t } := by
  have hstop : ∀ p : Pass, p.inst.Spec.NetworkAttachments = pre ++ name :: post →
      stageNetworkAttachments env now p = .stop
        ((((pre.foldl (fun q m => q.call (.GetNADWithName m)) p).call
            (.GetNADWithName name)).setCond now
          (condition.FalseCondition condition.NetworkAttachmentsReadyCondition
            condition.RequestedReason condition.SeverityInfo
            "condition.NetworkAttachmentsReadyWaitingMessage" [name])).ret
          { RequeueAfter := 10 }
          (some ⟨false, "network-attachment-definition " ++ name ++ " not found"⟩) 547) := by
    intro p hp
    unfold stageNetworkAttachments
    rw [hp, checkNetworkAttachments_found env now pre (name :: post) hpre]
    simp [checkNetworkAttachments, hname, hnf]
  simp only [reconcileNormal, reconcileNormalAPI, stageRbac_ok env _ hrbac,
    stageTransportURL_ok env now _ secretName hurl hsecret,
    stageCertsQuotas_ok env now _ hcerts hquotas, Step.bind_next]
  rw [hstop _ (by simpa using hnames)]
  simp only [Step.bind_stop, Step.finish_stop, Pass.ret_result, Pass.ret_err, Pass.ret_line,
    Pass.ret_calls, Pass.ret_inst, Pass.setCond_calls, Pass.call_calls, foldl_call_calls,
    Pass.setCond_Conditions, true_and]
  refine ⟨?_, ?_⟩
  · exact List.getLast?_concat _
  · exact Get_Set_self now _
      (condition.FalseCondition condition.NetworkAttachmentsReadyCondition
        condition.RequestedReason condition.SeverityInfo
        "condition.NetworkAttachmentsReadyWaitingMessage" [name])

/-- C20, amended, at a concrete pass: the only declared attachment is NotFound. -/
theorem reconcileNormal_nad_not_found_witness :
    (reconcileNormal nadMissingEnv 5 ⟨sampleInstance, [], []⟩).result = { RequeueAfter := 10 } ∧
      (reconcileNormal nadMissingEnv 5 ⟨sampleInstance, [], []⟩).err =
        some ⟨false, "network-attachment-definition " ++ "internalapi" ++ " not found"⟩ ∧
      (reconcileNormal nadMissingEnv 5 ⟨sampleInstance, [], []⟩).line = 547 ∧
      (reconcileNormal nadMissingEnv 5 ⟨sampleInstance, [], []⟩).pass.calls.getLast? =
        some (Call.GetNADWithName "internalapi") ∧
      ∃ t, condition.Get
          (reconcileNormal nadMissingEnv 5 ⟨sampleInstance, [], []⟩).pass.inst.Status.Conditions
          condition.NetworkAttachmentsReadyCondition =
        some { Type_ := condition.NetworkAttachmentsReadyCondition,
               Status := ConditionStatus.ConditionFalse,
               Reason := condition.RequestedReason,
               Severity := condition.SeverityInfo,
               Message :=
                 formatMessage "condition.NetworkAttachmentsReadyWaitingMessage" ["internalapi"],
               LastTransitionTime := t } :=
  reconcileNormal_nad_not_found nadMissingEnv 5 sampleInstance "rabbitmq-transport-url" [] []
    "internalapi" ⟨true, "network-attachment-definitions not found"⟩ rfl rfl (by decide) rfl rfl
    rfl (by simp) rfl rfl


/-! ## The order of the stages -/

theorem Step.Holds.bindStep {S : Ret → Prop} {N N' : Pass → Prop} {s : Step} {f : Pass → Step}
    (hs : s.Holds S N) (hf : ∀ p, N p → (f p).Holds S N') : (s.bind f).Holds S N' := by
  cases s with
  | stop r => exact hs
  | next p => exact hf p hs

theorem Step.Holds.finish {S : Ret → Prop} {N : Pass → Prop} {s : Step} {f : Pass → Ret}
    (hs : s.Holds S N) (hf : ∀ p, N p → S (f p)) : S (s.finish f) := by
  cases s with
  | stop r => exact hs
  | next p => exact hf p hs

theorem OrderedUpTo.mono {k k' : Nat} {cs : List Call} (h : OrderedUpTo k cs) (hk : k ≤ k') :
    OrderedUpTo k' cs :=
  ⟨h.1, fun c hc => Nat.le_trans (h.2 c hc) hk⟩

theorem OrderedUpTo.snoc {k : Nat} {cs : List Call} {c : Call}
    (h : OrderedUpTo c.rank cs) (hk : c.rank ≤ k) : OrderedUpTo k (cs ++ [c]) := by
  refine ⟨?_, ?_⟩
  · rw [List.map_append, List.pairwise_append]
    refine ⟨h.1, by simp, ?_⟩
    intro a ha b hb
    simp only [List.map_cons, List.map_nil, List.mem_singleton] at hb
    obtain ⟨c', hc', rfl⟩ := List.mem_map.mp ha
    rw [hb]
    exact h.2 c' hc'
  · intro c' hc'
    rcases List.mem_append.mp hc' with h' | h'
    · exact Nat.le_trans (h.2 c' h') hk
    · rw [List.mem_singleton.mp h']
      exact hk

theorem OrderedUpTo.not_mem {k : Nat} {cs : List Call} (h : OrderedUpTo k cs) {c : Call}
    (hc : k < c.rank) : c ∉ cs :=
  fun hmem => absurd (h.2 c hmem) (Nat.not_le.mpr hc)

@[simp] theorem Call.rank_ReconcileRbac : Call.ReconcileRbac.rank = 0 := rfl
@[simp] theorem Call.rank_transportURLCreateOrUpdate : Call.transportURLCreateOrUpdate.rank = 1 := rfl
@[simp] theorem Call.rank_EnsureAmphoraCerts : Call.EnsureAmphoraCerts.rank = 2 := rfl
@[simp] theorem Call.rank_EnsureQuotas : Call.EnsureQuotas.rank = 2 := rfl
@[simp] theorem Call.rank_GetNADWithName (n : String) : (Call.GetNADWithName n).rank = 3 := rfl
@[simp] theorem Call.rank_CreateNetworksAnnotation : Call.CreateNetworksAnnotation_.rank = 3 := rfl
@[simp] theorem Call.rank_GetSecret (n : String) : (Call.GetSecret n).rank = 4 := rfl
@[simp] theorem Call.rank_EnsureMariaDBAccount (a : String) : (Call.EnsureMariaDBAccount a).rank = 5 := rfl
@[simp] theorem Call.rank_CreateOrPatchAll (d : String) : (Call.CreateOrPatchAll d).rank = 5 := rfl
@[simp] theorem Call.rank_WaitForDBCreated (d : String) : (Call.WaitForDBCreated d).rank = 5 := rfl
@[simp] theorem Call.rank_EnsureSecrets : Call.EnsureSecrets.rank = 6 := rfl
@[simp] theorem Call.rank_DoJob (h : String) : (Call.DoJob h).rank = 7 := rfl
@[simp] theorem Call.rank_apiDeploymentCreateOrUpdate : Call.apiDeploymentCreateOrUpdate.rank = 8 := rfl
@[simp] theorem Call.rank_EnsureAmphoraManagementNetwork : Call.EnsureAmphoraManagementNetwork.rank = 9 := rfl
@[simp] theorem Call.rank_DeleteUnusedMariaDBAccountFinalizers (d a : String) : (Call.DeleteUnusedMariaDBAccountFinalizers d a).rank = 12 := rfl
@[simp] theorem Call.rank_EnsureAmpSSHConfig : Call.EnsureAmpSSHConfig.rank = 12 := rfl
@[simp] theorem Call.rank_DeploymentCreateOrPatch : Call.DeploymentCreateOrPatch.rank = 13 := rfl
@[simp] theorem Call.rank_NewService : Call.NewService.rank = 13 := rfl
@[simp] theorem Call.rank_ServiceCreateOrPatch : Call.ServiceCreateOrPatch.rank = 13 := rfl
@[simp] theorem Call.rank_GetAPIEndpoint : Call.GetAPIEndpoint.rank = 13 := rfl
@[simp] theorem Call.rank_HttpGet (u : String) : (Call.HttpGet u).rank = 13 := rfl
@[simp] theorem Call.rank_EnsureAmphoraImages (m : List OctaviaAmphoraImage) : (Call.EnsureAmphoraImages m).rank = 13 := rfl
@[simp] theorem Call.rank_DeploymentDelete : Call.DeploymentDelete.rank = 13 := rfl
@[simp] theorem Call.rank_HealthManager :
    (Call.amphoraControllerDaemonSetCreateOrUpdate octaviav1.HealthManager).rank = 10 := by
  decide
@[simp] theorem Call.rank_Housekeeping :
    (Call.amphoraControllerDaemonSetCreateOrUpdate octaviav1.Housekeeping).rank = 11 := by
  decide
@[simp] theorem Call.rank_Worker :
    (Call.amphoraControllerDaemonSetCreateOrUpdate octaviav1.Worker).rank = 11 := by
  decide

theorem ensureDBLoop_ordered (env : Env) (now : Nat) (dbs : List String) :
    ∀ p, OrderedUpTo 5 p.calls → OrderedUpTo 5 (ensureDBLoop env now dbs p).pass.calls := by
  induction dbs with
  | nil => intro p h; simpa [ensureDBLoop] using h
  | cons db dbs ih =>
    intro p h
    simp only [ensureDBLoop]
    repeat' split
    all_goals
      try simp only [Step.pass_stop, Step.pass_next, Pass.ret_calls, Pass.setCond_calls,
        Pass.call_calls]
      repeat (first
        | exact h.mono (by simp)
        | apply ih
        | refine OrderedUpTo.snoc ?_ (by simp))

theorem ensureDBLoop_ordered_stop {env : Env} {now : Nat} {dbs : List String} {p : Pass}
    {r : Ret} (h : ensureDBLoop env now dbs p = .stop r) (hp : OrderedUpTo 5 p.calls) :
    OrderedUpTo 5 r.pass.calls := by
  have := ensureDBLoop_ordered env now dbs p hp
  rwa [h] at this

theorem ensureDBLoop_ordered_next {env : Env} {now : Nat} {dbs : List String} {p q : Pass}
    (h : ensureDBLoop env now dbs p = .next q) (hp : OrderedUpTo 5 p.calls) :
    OrderedUpTo 5 q.calls := by
  have := ensureDBLoop_ordered env now dbs p hp
  rwa [h] at this

theorem ensureDB_ordered (env : Env) (now : Nat) (p : Pass) (h : OrderedUpTo 5 p.calls) :
    OrderedUpTo 5 (ensureDB env now p).pass.calls := by
  simp only [ensureDB]
  repeat' split
  all_goals
    try simp only [Pass.ret_calls, Pass.setCond_calls, Pass.markTrue_calls,
      Pass.setDatabaseHostname_calls, Pass.call_calls]
    repeat (first
      | exact h
      | refine ensureDBLoop_ordered_stop (by assumption) ?_
      | refine ensureDBLoop_ordered_next (by assumption) ?_
      | refine OrderedUpTo.snoc ?_ (by simp))

theorem reconcileInit_ordered (env : Env) (now : Nat) (p : Pass) (h : OrderedUpTo 4 p.calls) :
    OrderedUpTo 7 (reconcileInit env now p).pass.calls := by
  have hdb : ∀ q : Pass, OrderedUpTo 5 q.calls →
      OrderedUpTo 7 (ensureDB env now q).pass.calls :=
    fun q hq => (ensureDB_ordered env now q hq).mono (by decide)
  have hdb6 : ∀ q : Pass, OrderedUpTo 5 q.calls →
      OrderedUpTo 6 (ensureDB env now q).pass.calls :=
    fun q hq => (ensureDB_ordered env now q hq).mono (by decide)
  simp only [reconcileInit]
  repeat' split
  all_goals
    try simp only [Pass.ret_calls, Pass.setCond_calls, Pass.markTrue_calls,
      Pass.putHash_calls, Pass.call_calls, createHashOfInputHashes_calls]
    repeat (first
      | exact h
      | exact h.mono (by simp)
      | refine hdb _ ?_
      | refine hdb6 _ ?_
      | refine OrderedUpTo.snoc ?_ (by simp))

theorem reconcileAmphoraImages_ordered (env : Env) (now : Nat) (p : Pass)
    (h : OrderedUpTo 13 p.calls) :
    OrderedUpTo 13 (reconcileAmphoraImages env now p).pass.calls := by
  simp only [reconcileAmphoraImages]
  repeat' split
  all_goals
    try simp only [Pass.ret_calls, Pass.setCond_calls, Pass.markTrue_calls,
      Pass.putHash_calls, Pass.call_calls]
    repeat (first
      | exact h
      | refine OrderedUpTo.snoc ?_ (by simp))

theorem checkNetworkAttachments_ordered (env : Env) (now : Nat) (names : List String) :
    ∀ p, OrderedUpTo 3 p.calls →
      (checkNetworkAttachments env now names p).Holds OrderedAtReturn
        (fun q => OrderedUpTo 3 q.calls) := by
  induction names with
  | nil => intro p h; simpa [checkNetworkAttachments, Step.Holds] using h
  | cons n names ih =>
    intro p h
    simp only [checkNetworkAttachments]
    repeat' split
    all_goals
      try simp only [Step.Holds, OrderedAtReturn, Pass.ret_calls, Pass.ret_line,
        Pass.setCond_calls, Pass.call_calls]
      repeat (first
        | exact h
        | apply ih
        | refine OrderedUpTo.snoc ?_ (by simp [lineRank]))

theorem stageRbac_ordered (env : Env) (p : Pass) (h : OrderedUpTo 0 p.calls) :
    (stageRbac env p).Holds OrderedAtReturn (fun q => OrderedUpTo 0 q.calls) := by
  simp only [stageRbac]
  repeat' split
  all_goals
    try simp only [Step.Holds, OrderedAtReturn, Pass.ret_calls, Pass.ret_line, Pass.call_calls]
    repeat (first
      | exact h
      | refine OrderedUpTo.snoc ?_ (by simp [lineRank]))

theorem stageTransportURL_ordered (env : Env) (now : Nat) (p : Pass)
    (h : OrderedUpTo 0 p.calls) :
    (stageTransportURL env now p).Holds OrderedAtReturn (fun q => OrderedUpTo 1 q.calls) := by
  simp only [stageTransportURL]
  repeat' split
  all_goals
    try simp only [Step.Holds, OrderedAtReturn, Pass.ret_calls, Pass.ret_line, Pass.call_calls,
      Pass.setCond_calls, Pass.markTrue_calls, Pass.setTransportURLSecret_calls]
    repeat (first
      | exact h.mono (by simp)
      | refine OrderedUpTo.snoc ?_ (by simp [lineRank]))

theorem stageCertsQuotas_ordered (env : Env) (now : Nat) (p : Pass)
    (h : OrderedUpTo 1 p.calls) :
    (stageCertsQuotas env now p).Holds OrderedAtReturn (fun q => OrderedUpTo 2 q.calls) := by
  simp only [stageCertsQuotas]
  repeat' split
  all_goals
    try simp only [Step.Holds, OrderedAtReturn, Pass.ret_calls, Pass.ret_line, Pass.call_calls,
      Pass.setCond_calls, Pass.markTrue_calls]
    repeat (first
      | exact h.mono (by simp)
      | refine OrderedUpTo.snoc ?_ (by simp [lineRank]))

theorem stageNetworkAttachments_ordered (env : Env) (now : Nat) (p : Pass)
    (h : OrderedUpTo 2 p.calls) :
    (stageNetworkAttachments env now p).Holds OrderedAtReturn
      (fun q => OrderedUpTo 3 q.calls) := by
  unfold stageNetworkAttachments
  refine Step.Holds.bindStep (checkNetworkAttachments_ordered env now _ p (h.mono (by decide))) ?_
  intro q hq
  simp only []
  repeat' split
  all_goals
    try simp only [Step.Holds, OrderedAtReturn, Pass.ret_calls, Pass.ret_line, Pass.call_calls,
      Pass.setCond_calls, Pass.markTrue_calls]
    repeat (first
      | exact hq
      | refine OrderedUpTo.snoc ?_ (by simp [lineRank]))

theorem stageInit_ordered (env : Env) (now : Nat) (p : Pass) (h : OrderedUpTo 3 p.calls) :
    (stageInit env now p).Holds OrderedAtReturn (fun q => OrderedUpTo 7 q.calls) := by
  have hi := reconcileInit_ordered env now p (h.mono (by decide))
  simp only [stageInit]
  repeat' split
  all_goals
    try simp only [Step.Holds, OrderedAtReturn, Pass.ret_calls, Pass.ret_line,
      Pass.markTrue_calls]
    exact hi

theorem stageUpdate_ordered (p : Pass) (h : OrderedUpTo 7 p.calls) :
    (stageUpdate p).Holds OrderedAtReturn (fun q => OrderedUpTo 7 q.calls) := by
  simp only [stageUpdate, reconcileUpdate]
  repeat' split
  all_goals
    try simp only [Step.Holds, OrderedAtReturn, Pass.ret_calls, Pass.ret_line]
    exact h

theorem stageUpgrade_ordered (p : Pass) (h : OrderedUpTo 7 p.calls) :
    (stageUpgrade p).Holds OrderedAtReturn (fun q => OrderedUpTo 7 q.calls) := by
  simp only [stageUpgrade, reconcileUpgrade]
  repeat' split
  all_goals
    try simp only [Step.Holds, OrderedAtReturn, Pass.ret_calls, Pass.ret_line]
    exact h

theorem stageAPI_ordered (env : Env) (now : Nat) (p : Pass) (h : OrderedUpTo 7 p.calls) :
    (stageAPI env now p).Holds OrderedAtReturn (fun q => OrderedUpTo 8 q.calls) := by
  simp only [stageAPI]
  repeat' split
  all_goals
    try simp only [Step.Holds, OrderedAtReturn, Pass.ret_calls, Pass.ret_line, Pass.call_calls,
      Pass.setCond_calls, Pass.markTrue_calls, Pass.setOctaviaAPIReadyCount_calls]
    repeat (first
      | exact h.mono (by simp)
      | refine OrderedUpTo.snoc ?_ (by simp [lineRank]))

theorem stageManagementNetwork_ordered (env : Env) (p : Pass) (h : OrderedUpTo 8 p.calls) :
    (stageManagementNetwork env p).Holds OrderedAtReturn (fun q => OrderedUpTo 9 q.calls) := by
  simp only [stageManagementNetwork]
  repeat' split
  all_goals
    try simp only [Step.Holds, OrderedAtReturn, Pass.ret_calls, Pass.ret_line, Pass.call_calls]
    repeat (first
      | exact h.mono (by simp)
      | refine OrderedUpTo.snoc ?_ (by simp [lineRank]))

theorem stageHealthManager_ordered (env : Env) (now : Nat) (p : Pass)
    (h : OrderedUpTo 9 p.calls) :
    (stageHealthManager env now p).Holds OrderedAtReturn (fun q => OrderedUpTo 10 q.calls) := by
  simp only [stageHealthManager]
  repeat' split
  all_goals
    try simp only [Step.Holds, OrderedAtReturn, Pass.ret_calls, Pass.ret_line, Pass.call_calls,
      Pass.setCond_calls, Pass.markTrue_calls, Pass.setOctaviaHealthManagerReadyCount_calls]
    repeat (first
      | exact h.mono (by simp)
      | refine OrderedUpTo.snoc ?_ (by simp [lineRank]))

theorem stageHousekeeping_ordered (env : Env) (now : Nat) (p : Pass)
    (h : OrderedUpTo 10 p.calls) :
    (stageHousekeeping env now p).Holds OrderedAtReturn (fun q => OrderedUpTo 11 q.calls) := by
  simp only [stageHousekeeping]
  repeat' split
  all_goals
    try simp only [Step.Holds, OrderedAtReturn, Pass.ret_calls, Pass.ret_line, Pass.call_calls,
      Pass.setCond_calls, Pass.markTrue_calls, Pass.setOctaviaHousekeepingReadyCount_calls]
    repeat (first
      | exact h.mono (by simp)
      | refine OrderedUpTo.snoc ?_ (by simp [lineRank]))

theorem stageWorker_ordered (env : Env) (now : Nat) (p : Pass)
    (h : OrderedUpTo 11 p.calls) :
    (stageWorker env now p).Holds OrderedAtReturn (fun q => OrderedUpTo 11 q.calls) := by
  simp only [stageWorker]
  repeat' split
  all_goals
    try simp only [Step.Holds, OrderedAtReturn, Pass.ret_calls, Pass.ret_line, Pass.call_calls,
      Pass.setCond_calls, Pass.markTrue_calls, Pass.setOctaviaWorkerReadyCount_calls]
    repeat (first
      | exact h
      | refine OrderedUpTo.snoc ?_ (by simp [lineRank]))

theorem stageAccountsSSH_ordered (env : Env) (p : Pass) (h : OrderedUpTo 11 p.calls) :
    (stageAccountsSSH env p).Holds OrderedAtReturn (fun q => OrderedUpTo 12 q.calls) := by
  simp only [stageAccountsSSH]
  repeat' split
  all_goals
    try simp only [Step.Holds, OrderedAtReturn, Pass.ret_calls, Pass.ret_line, Pass.call_calls]
    repeat (first
      | exact h.mono (by simp)
      | refine OrderedUpTo.snoc ?_ (by simp [lineRank]))

theorem stageAmphoraImages_ordered (env : Env) (now : Nat) (p : Pass)
    (h : OrderedUpTo 12 p.calls) :
    (stageAmphoraImages env now p).Holds OrderedAtReturn (fun q => OrderedUpTo 13 q.calls) := by
  have hi := reconcileAmphoraImages_ordered env now p (h.mono (by decide))
  simp only [stageAmphoraImages]
  repeat' split
  all_goals
    try simp only [Step.Holds, OrderedAtReturn, Pass.ret_calls, Pass.ret_line]
    exact hi

theorem stageReady_ordered (now : Nat) (p : Pass) (h : OrderedUpTo 13 p.calls) :
    OrderedAtReturn (stageReady now p) := by
  simp only [stageReady]
  repeat' split
  all_goals
    try simp only [OrderedAtReturn, Pass.ret_calls, Pass.ret_line, Pass.markTrue_calls,
      Pass.setObservedGeneration_calls]
    exact h

theorem reconcileNormal_ordered (env : Env) (now : Nat) (p : Pass)
    (h : OrderedUpTo 0 p.calls) : OrderedAtReturn (reconcileNormal env now p) := by
  unfold reconcileNormal reconcileNormalAmphora reconcileNormalAPI
  refine Step.Holds.finish (N := fun q => OrderedUpTo 8 q.calls) ?_ ?_
  · refine Step.Holds.bindStep (N := fun q => OrderedUpTo 7 q.calls) ?_
      (fun q hq => stageAPI_ordered env now q hq)
    refine Step.Holds.bindStep (N := fun q => OrderedUpTo 7 q.calls) ?_
      (fun q hq => stageUpgrade_ordered q hq)
    refine Step.Holds.bindStep (N := fun q => OrderedUpTo 7 q.calls) ?_
      (fun q hq => stageUpdate_ordered q hq)
    refine Step.Holds.bindStep (N := fun q => OrderedUpTo 3 q.calls) ?_
      (fun q hq => stageInit_ordered env now q hq)
    refine Step.Holds.bindStep (N := fun q => OrderedUpTo 2 q.calls) ?_
      (fun q hq => stageNetworkAttachments_ordered env now q hq)
    refine Step.Holds.bindStep (N := fun q => OrderedUpTo 1 q.calls) ?_
      (fun q hq => stageCertsQuotas_ordered env now q hq)
    refine Step.Holds.bindStep (N := fun q => OrderedUpTo 0 q.calls) ?_
      (fun q hq => stageTransportURL_ordered env now q hq)
    exact stageRbac_ordered env p h
  · intro q hq
    refine Step.Holds.finish (N := fun q => OrderedUpTo 13 q.calls) ?_
      (fun q hq => stageReady_ordered now q hq)
    refine Step.Holds.bindStep (N := fun q => OrderedUpTo 12 q.calls) ?_
      (fun q hq => stageAmphoraImages_ordered env now q hq)
    refine Step.Holds.bindStep (N := fun q => OrderedUpTo 11 q.calls) ?_
      (fun q hq => stageAccountsSSH_ordered env q hq)
    refine Step.Holds.bindStep (N := fun q => OrderedUpTo 11 q.calls) ?_
      (fun q hq => stageWorker_ordered env now q hq)
    refine Step.Holds.bindStep (N := fun q => OrderedUpTo 10 q.calls) ?_
      (fun q hq => stageHousekeeping_ordered env now q hq)
    refine Step.Holds.bindStep (N := fun q => OrderedUpTo 9 q.calls) ?_
      (fun q hq => stageHealthManager_ordered env now q hq)
    exact stageManagementNetwork_ordered env q hq

/-! ## The migration stage -/

@[simp] theorem Pass.setDatabaseHostname_returns (p : Pass) (v : String) :
    (p.setDatabaseHostname v).returns = p.returns := rfl

@[simp] theorem Pass.setHashMap_returns (p : Pass) (m : List (String × String)) :
    (p.setHashMap m).returns = p.returns := rfl

theorem createHashOfInputHashes_returns (env : Env) (p : Pass)
    (envVars : List (String × String)) :
    (createHashOfInputHashes env p envVars).pass.returns = p.returns := by
  simp only [createHashOfInputHashes]
  repeat' split
  all_goals simp

theorem ensureDBLoop_Hash (env : Env) (now : Nat) (dbs : List String) :
    ∀ p, (ensureDBLoop env now dbs p).pass.inst.Status.Hash = p.inst.Status.Hash := by
  induction dbs with
  | nil => intro p; simp [ensureDBLoop]
  | cons db dbs ih =>
    intro p
    simp only [ensureDBLoop]
    repeat' split
    all_goals simp [ih _]

theorem ensureDBLoop_Hash_stop {env : Env} {now : Nat} {dbs : List String} {p : Pass}
    {r : Ret} (h : ensureDBLoop env now dbs p = .stop r) :
    r.pass.inst.Status.Hash = p.inst.Status.Hash := by
  have := ensureDBLoop_Hash env now dbs p
  rwa [h] at this

theorem ensureDBLoop_Hash_next {env : Env} {now : Nat} {dbs : List String} {p q : Pass}
    (h : ensureDBLoop env now dbs p = .next q) :
    q.inst.Status.Hash = p.inst.Status.Hash := by
  have := ensureDBLoop_Hash env now dbs p
  rwa [h] at this

theorem ensureDB_Hash (env : Env) (now : Nat) (p : Pass) :
    (ensureDB env now p).pass.inst.Status.Hash = p.inst.Status.Hash := by
  simp only [ensureDB]
  repeat' split
  all_goals first
    | simp; done
    | (rename_i h; simp [ensureDBLoop_Hash_stop h])
    | (rename_i h; simp [ensureDBLoop_Hash_next h])

theorem ensureDBLoop_stop_failed (env : Env) (now : Nat) (dbs : List String) :
    ∀ p r, ensureDBLoop env now dbs p = .stop r → r.err.isSome = true ∨ r.result ≠ Result.empty := by
  induction dbs with
  | nil => intro p r h; simp [ensureDBLoop] at h
  | cons db dbs ih =>
    intro p r
    simp only [ensureDBLoop]
    repeat' split
    all_goals first
      | exact ih _ r
      | (intro h; cases h; simp_all)

theorem ensureDBLoop_returns_next (env : Env) (now : Nat) (dbs : List String) :
    ∀ p q, ensureDBLoop env now dbs p = .next q → q.returns = p.returns := by
  induction dbs with
  | nil => intro p q h; simp [ensureDBLoop] at h; rw [h]
  | cons db dbs ih =>
    intro p q
    simp only [ensureDBLoop]
    repeat' split
    all_goals first
      | (intro h; have := ih _ q h; simpa using this)
      | (intro h; cases h)

theorem ensureDB_last_line (env : Env) (now : Nat) (p : Pass)
    (herr : (ensureDB env now p).err = none)
    (hres : (ensureDB env now p).result = Result.empty) :
    (ensureDB env now p).pass.returns = p.returns ++ [876] := by
  revert herr hres
  simp only [ensureDB]
  repeat' split
  all_goals first
    | simp; done
    | (rename_i h
       intro herr hres
       rcases ensureDBLoop_stop_failed env now _ _ _ h with h1 | h1
       · simp [herr] at h1
       · exact absurd hres h1)
    | (rename_i h
       intro _ _
       simp [ensureDBLoop_returns_next env now _ _ _ h])

theorem createHashOfInputHashes_unchanged (env : Env) (p : Pass)
    (envVars : List (String × String))
    (h : (createHashOfInputHashes env p envVars).changed = false) :
    (createHashOfInputHashes env p envVars).pass = p := by
  unfold createHashOfInputHashes at h ⊢
  repeat' split
  all_goals simp_all

theorem reconcileInit_job_aux (env : Env) (now : Nat) (p : Pass) (beforeHash : String)
    (hp : OrderedUpTo 4 p.calls) :
    Call.DoJob beforeHash ∈ (reconcileInit env now p).pass.calls →
    (∃ s, env.GetSecret p.inst.Spec.Secret = .ok s) ∧
      (∃ s, env.GetSecret p.inst.Status.TransportURLSecret = .ok s) ∧
      876 ∈ (reconcileInit env now p).pass.returns ∧
      (∃ added, env.EnsureSecrets = .ok added) ∧
      beforeHash = mapGet p.inst.Status.Hash octaviav1.DbSyncHash ∧
      ((env.DoJob beforeHash).changed = false →
        mapGet (reconcileInit env now p).pass.inst.Status.Hash octaviav1.DbSyncHash
          = mapGet p.inst.Status.Hash octaviav1.DbSyncHash) ∧
      ((env.DoJob beforeHash).changed = false → (env.DoJob beforeHash).result = Result.empty →
        (env.DoJob beforeHash).err = none →
        (reconcileInit env now p).line = 429 ∧
        (reconcileInit env now p).result = Result.empty ∧
        (reconcileInit env now p).err = none) := by
  have hdb : ∀ q : Pass, OrderedUpTo 5 q.calls →
      OrderedUpTo 6 (ensureDB env now q).pass.calls :=
    fun q hq => (ensureDB_ordered env now q hq).mono (by decide)
  simp only [reconcileInit]
  repeat' split
  all_goals
    try simp only [Pass.ret_calls, Pass.setCond_calls, Pass.markTrue_calls,
      Pass.putHash_calls, Pass.call_calls, createHashOfInputHashes_calls]
  all_goals first
    | (intro hmem
       exfalso
       refine OrderedUpTo.not_mem (k := 6) ?_ (by simp) hmem
       repeat (first
         | exact hp.mono (by simp)
         | refine hdb _ ?_
         | (refine OrderedUpTo.snoc ?_ ?_ <;> [skip; (simp; done)]))
       done)
    | skip
  all_goals
    intro hmem
    have hch := createHashOfInputHashes_unchanged env _ _
      (Bool.eq_false_iff.mpr ‹¬ (createHashOfInputHashes _ _ _).changed = true›)
    have hline := ensureDB_last_line env now _
      (Option.not_isSome_iff_eq_none.mp ‹¬ (ensureDB _ _ _).err.isSome = true›)
      (not_not.mp ‹¬ (ensureDB _ _ _).result ≠ Result.empty›)
    have hs1 := ‹env.GetSecret (Pass.call p _).inst.Spec.Secret = _›
    have hs2 := ‹env.GetSecret (Pass.call _ _).inst.Status.TransportURLSecret = _›
    have hcfg := ‹(generateServiceConfigMaps env _).2 = none›
    simp only [Pass.call_inst] at hs1 hs2
    have hcfg2 : ∃ added, env.EnsureSecrets = .ok added := by
      simp only [generateServiceConfigMaps] at hcfg
      split at hcfg
      · simp at hcfg
      · exact ⟨_, ‹env.EnsureSecrets = _›⟩
    simp only [Pass.call_inst] at hch
    simp only [hch, Pass.markTrue_Hash, Pass.call_inst, ensureDB_Hash] at *
    have hb : beforeHash = mapGet p.inst.Status.Hash octaviav1.DbSyncHash := by
      rcases List.mem_append.mp hmem with h1 | h1
      · exfalso
        refine OrderedUpTo.not_mem (k := 6) ?_ (by simp) h1
        repeat (first
          | exact hp.mono (by simp)
          | refine hdb _ ?_
          | (refine OrderedUpTo.snoc ?_ ?_ <;> [skip; (simp; done)]))
      · simpa using h1
    subst hb
    refine ⟨⟨_, hs1⟩, ⟨_, hs2⟩, ?_, hcfg2, rfl, ?_, ?_⟩
    · simp [hline]
    · intro hc
      simp_all [ensureDB_Hash]
    · intro hc hr he
      simp_all [ensureDB_Hash]

/-- C16, the skip as claimed does not happen.  The stored migration hash is the hash
of the job and the job runner reports no change, and `reconcileInit` invokes the job
runner all the same, handing it the stored hash. -/
theorem reconcileInit_invokes_job_when_hash_unchanged :
    (jobEnv.DoJob (mapGet migratedInstance.Status.Hash octaviav1.DbSyncHash)).hash =
        mapGet migratedInstance.Status.Hash octaviav1.DbSyncHash ∧
      (jobEnv.DoJob (mapGet migratedInstance.Status.Hash octaviav1.DbSyncHash)).changed
        = false ∧
      (reconcileInit jobEnv 5 ⟨migratedInstance, [], []⟩).pass.calls =
        [Call.GetSecret "osp-secret", Call.GetSecret "rabbitmq-transport-url",
         Call.EnsureMariaDBAccount "octavia", Call.EnsureMariaDBAccount "octavia-persistence",
         Call.CreateOrPatchAll "octavia", Call.WaitForDBCreated "octavia",
         Call.CreateOrPatchAll "octavia-persistence",
         Call.WaitForDBCreated "octavia-persistence",
         Call.EnsureSecrets, Call.DoJob "jobhash"] := by
  decide

/-- C16, amended.  The job runner is invoked only in a pass in which both input
secrets were found, `ensureDB` returned from its last line (876, both databases
ready) and the config was rendered; it is handed the stored migration hash; when it
reports no change the stored migration hash stays what it was, and when it moreover
answers without requeue and without error, `reconcileInit` returns from its last
line with an empty result and no error. -/
theorem reconcileInit_migration (env : Env) (now : Nat) (inst : Octavia) (beforeHash : String)
    (hcall : Call.DoJob beforeHash ∈ (reconcileInit env now ⟨inst, [], []⟩).pass.calls) :
    (∃ s, env.GetSecret inst.Spec.Secret = .ok s) ∧
      (∃ s, env.GetSecret inst.Status.TransportURLSecret = .ok s) ∧
      876 ∈ (reconcileInit env now ⟨inst, [], []⟩).pass.returns ∧
      (∃ added, env.EnsureSecrets = .ok added) ∧
      beforeHash = mapGet inst.Status.Hash octaviav1.DbSyncHash ∧
      ((env.DoJob beforeHash).changed = false →
        mapGet (reconcileInit env now ⟨inst, [], []⟩).pass.inst.Status.Hash octaviav1.DbSyncHash
          = mapGet inst.Status.Hash octaviav1.DbSyncHash) ∧
      ((env.DoJob beforeHash).changed = false → (env.DoJob beforeHash).result = Result.empty →
        (env.DoJob beforeHash).err = none →
        (reconcileInit env now ⟨inst, [], []⟩).line = 429 ∧
        (reconcileInit env now ⟨inst, [], []⟩).result = Result.empty ∧
        (reconcileInit env now ⟨inst, [], []⟩).err = none) :=
  reconcileInit_job_aux env now ⟨inst, [], []⟩ beforeHash ⟨List.Pairwise.nil, by simp⟩ hcall

/-- C16, amended, at a concrete pass: the stored migration hash is the hash of the
job. -/
theorem reconcileInit_migration_witness :
    Call.DoJob "jobhash" ∈ (reconcileInit jobEnv 5 ⟨migratedInstance, [], []⟩).pass.calls ∧
      ((∃ s, jobEnv.GetSecret migratedInstance.Spec.Secret = .ok s) ∧
      (∃ s, jobEnv.GetSecret migratedInstance.Status.TransportURLSecret = .ok s) ∧
      876 ∈ (reconcileInit jobEnv 5 ⟨migratedInstance, [], []⟩).pass.returns ∧
      (∃ added, jobEnv.EnsureSecrets = .ok added) ∧
      "jobhash" = mapGet migratedInstance.Status.Hash octaviav1.DbSyncHash ∧
      ((jobEnv.DoJob "jobhash").changed = false →
        mapGet (reconcileInit jobEnv 5 ⟨migratedInstance, [], []⟩).pass.inst.Status.Hash
            octaviav1.DbSyncHash
          = mapGet migratedInstance.Status.Hash octaviav1.DbSyncHash) ∧
      ((jobEnv.DoJob "jobhash").changed = false → (jobEnv.DoJob "jobhash").result = Result.empty →
        (jobEnv.DoJob "jobhash").err = none →
        (reconcileInit jobEnv 5 ⟨migratedInstance, [], []⟩).line = 429 ∧
        (reconcileInit jobEnv 5 ⟨migratedInstance, [], []⟩).result = Result.empty ∧
        (reconcileInit jobEnv 5 ⟨migratedInstance, [], []⟩).err = none)) :=
  ⟨by decide, reconcileInit_migration jobEnv 5 migratedInstance "jobhash" (by decide)⟩


/-! ## The Ready condition -/

theorem Get_Set_other (now : Nat) (conds : List Condition) (c : Condition) (t : String)
    (h : c.Type_ ≠ t) : condition.Get (condition.Set now conds c) t = condition.Get conds t := by
  induction conds with
  | nil => simp [condition.Set, condition.Get, h]
  | cons e rest ih =>
    by_cases he : e.Type_ = c.Type_
    · have het : e.Type_ ≠ t := he ▸ h
      by_cases hs : e.Status = c.Status <;>
        simp [condition.Set, condition.Get, he, hs, h, het]
    · simp only [condition.Set, he, if_false, condition.Get, List.find?_cons]
      simp only [condition.Get] at ih
      rw [ih]

theorem AllSubConditionIsTrue_Set_Ready (now : Nat) (conds : List Condition) (c : Condition)
    (h : c.Type_ = condition.ReadyCondition) :
    condition.AllSubConditionIsTrue (condition.Set now conds c)
      = condition.AllSubConditionIsTrue conds := by
  induction conds with
  | nil => simp [condition.Set, condition.AllSubConditionIsTrue, h]
  | cons e rest ih =>
    by_cases he : e.Type_ = c.Type_
    · by_cases hs : e.Status = c.Status <;>
        simp [condition.Set, condition.AllSubConditionIsTrue, he, hs, h]
    · simp only [condition.Set, he, if_false]
      simp only [condition.AllSubConditionIsTrue, List.all_cons] at ih ⊢
      rw [ih]

theorem Mirror_type {conds : List Condition} {t : String} {c : Condition}
    (h : condition.Mirror conds t = some c) : c.Type_ = t := by
  have := List.find?_some h
  simpa using this

theorem types_ne_Ready :
    condition.DBReadyCondition ≠ condition.ReadyCondition ∧
    condition.DBSyncReadyCondition ≠ condition.ReadyCondition ∧
    condition.RabbitMqTransportURLReadyCondition ≠ condition.ReadyCondition ∧
    condition.InputReadyCondition ≠ condition.ReadyCondition ∧
    condition.ServiceConfigReadyCondition ≠ condition.ReadyCondition ∧
    condition.NetworkAttachmentsReadyCondition ≠ condition.ReadyCondition ∧
    condition.ExposeServiceReadyCondition ≠ condition.ReadyCondition ∧
    condition.DeploymentReadyCondition ≠ condition.ReadyCondition ∧
    mariadbv1.MariaDBAccountReadyCondition ≠ condition.ReadyCondition ∧
    octaviav1.OctaviaAPIReadyCondition ≠ condition.ReadyCondition ∧
    amphoraControllerReadyCondition octaviav1.HealthManager ≠ condition.ReadyCondition ∧
    amphoraControllerReadyCondition octaviav1.Housekeeping ≠ condition.ReadyCondition ∧
    amphoraControllerReadyCondition octaviav1.Worker ≠ condition.ReadyCondition := by
  decide

@[simp] theorem Pass.ready_call (p : Pass) (c : Call) : (p.call c).ready = p.ready := rfl
@[simp] theorem Pass.ready_ret (p : Pass) (r : Result) (e : Option Err) (n : Nat) :
    (p.ret r e n).pass.ready = p.ready := rfl
@[simp] theorem Pass.ready_putHash (p : Pass) (k v : String) :
    (p.putHash k v).ready = p.ready := rfl
@[simp] theorem Pass.ready_setHashMap (p : Pass) (m : List (String × String)) :
    (p.setHashMap m).ready = p.ready := rfl
@[simp] theorem Pass.ready_setTransportURLSecret (p : Pass) (v : String) :
    (p.setTransportURLSecret v).ready = p.ready := rfl
@[simp] theorem Pass.ready_setDatabaseHostname (p : Pass) (v : String) :
    (p.setDatabaseHostname v).ready = p.ready := rfl
@[simp] theorem Pass.ready_setOctaviaAPIReadyCount (p : Pass) (v : Int) :
    (p.setOctaviaAPIReadyCount v).ready = p.ready := rfl
@[simp] theorem Pass.ready_setOctaviaHealthManagerReadyCount (p : Pass) (v : Int) :
    (p.setOctaviaHealthManagerReadyCount v).ready = p.ready := rfl
@[simp] theorem Pass.ready_setOctaviaHousekeepingReadyCount (p : Pass) (v : Int) :
    (p.setOctaviaHousekeepingReadyCount v).ready = p.ready := rfl
@[simp] theorem Pass.ready_setOctaviaWorkerReadyCount (p : Pass) (v : Int) :
    (p.setOctaviaWorkerReadyCount v).ready = p.ready := rfl
@[simp] theorem Pass.ready_setObservedGeneration (p : Pass) :
    p.setObservedGeneration.ready = p.ready := rfl

theorem Pass.ready_setCond (p : Pass) (now : Nat) (c : Condition)
    (h : c.Type_ ≠ condition.ReadyCondition) : (p.setCond now c).ready = p.ready :=
  Get_Set_other now _ c _ h

theorem Pass.ready_setFalse (p : Pass) (now : Nat) (t r s f : String) (args : List String)
    (h : t ≠ condition.ReadyCondition) :
    (p.setCond now (condition.FalseCondition t r s f args)).ready = p.ready :=
  Pass.ready_setCond p now _ h

theorem Pass.ready_markTrue (p : Pass) (now : Nat) (t m : String)
    (h : t ≠ condition.ReadyCondition) : (p.markTrue now t m).ready = p.ready :=
  Pass.ready_setCond p now _ h

theorem Pass.ready_mirrored (p : Pass) (now : Nat) {conds : List Condition} {t : String}
    {c : Condition} (hm : condition.Mirror conds t = some c)
    (h : t ≠ condition.ReadyCondition) : (p.setCond now c).ready = p.ready :=
  Pass.ready_setCond p now c (by rw [Mirror_type hm]; exact h)

theorem ensureDBLoop_ready (env : Env) (now : Nat) (dbs : List String) :
    ∀ p, (ensureDBLoop env now dbs p).pass.ready = p.ready := by
  induction dbs with
  | nil => intro p; simp [ensureDBLoop]
  | cons db dbs ih =>
    intro p
    simp only [ensureDBLoop]
    repeat' split
    all_goals simp [ih _, Pass.ready_setFalse, types_ne_Ready.1]

theorem ensureDBLoop_ready_stop {env : Env} {now : Nat} {dbs : List String} {p : Pass}
    {r : Ret} (h : ensureDBLoop env now dbs p = .stop r) : r.pass.ready = p.ready := by
  have := ensureDBLoop_ready env now dbs p
  rwa [h] at this

theorem ensureDBLoop_ready_next {env : Env} {now : Nat} {dbs : List String} {p q : Pass}
    (h : ensureDBLoop env now dbs p = .next q) : q.ready = p.ready := by
  have := ensureDBLoop_ready env now dbs p
  rwa [h] at this

theorem ensureDB_ready (env : Env) (now : Nat) (p : Pass) :
    (ensureDB env now p).pass.ready = p.ready := by
  have hne := types_ne_Ready
  simp only [ensureDB]
  repeat' split
  all_goals first
    | (simp [Pass.ready_setFalse, Pass.ready_markTrue, hne]; done)
    | (rename_i h
       simp [ensureDBLoop_ready_stop h, Pass.ready_setFalse, Pass.ready_markTrue, hne])
    | (rename_i h
       simp [ensureDBLoop_ready_next h, Pass.ready_setFalse, Pass.ready_markTrue, hne])

theorem createHashOfInputHashes_ready (env : Env) (p : Pass)
    (envVars : List (String × String)) :
    (createHashOfInputHashes env p envVars).pass.ready = p.ready := by
  simp only [createHashOfInputHashes]
  repeat' split
  all_goals simp

theorem reconcileInit_ready (env : Env) (now : Nat) (p : Pass) :
    (reconcileInit env now p).pass.ready = p.ready := by
  have hne := types_ne_Ready
  simp only [reconcileInit]
  repeat' split
  all_goals
    simp [Pass.ready_setFalse, Pass.ready_markTrue, hne, ensureDB_ready,
      createHashOfInputHashes_ready]

theorem reconcileAmphoraImages_ready (env : Env) (now : Nat) (p : Pass) :
    (reconcileAmphoraImages env now p).pass.ready = p.ready := by
  have hne := types_ne_Ready
  simp only [reconcileAmphoraImages]
  repeat' split
  all_goals simp [Pass.ready_setFalse, Pass.ready_markTrue, hne]

theorem checkNetworkAttachments_ready (env : Env) (now : Nat) (X : Option Condition)
    (names : List String) :
    ∀ p, p.ready = X →
      (checkNetworkAttachments env now names p).Holds (ReadyKept X) (fun q => q.ready = X) := by
  have hne := types_ne_Ready
  induction names with
  | nil => intro p h; simpa [checkNetworkAttachments, Step.Holds] using h
  | cons n names ih =>
    intro p h
    simp only [checkNetworkAttachments]
    repeat' split
    all_goals first
      | exact ih _ (by simpa using h)
      | simp [Step.Holds, ReadyKept, Pass.ready_setFalse, hne, h]

theorem stageRbac_ready (env : Env) (X : Option Condition) (p : Pass) (h : p.ready = X) :
    (stageRbac env p).Holds (ReadyKept X) (fun q => q.ready = X) := by
  simp only [stageRbac]
  repeat' split
  all_goals simp [Step.Holds, ReadyKept, h]

theorem stageTransportURL_ready (env : Env) (now : Nat) (X : Option Condition) (p : Pass)
    (h : p.ready = X) :
    (stageTransportURL env now p).Holds (ReadyKept X) (fun q => q.ready = X) := by
  have hne := types_ne_Ready
  simp only [stageTransportURL]
  repeat' split
  all_goals simp [Step.Holds, ReadyKept, Pass.ready_setFalse, Pass.ready_markTrue, hne, h]

theorem stageCertsQuotas_ready (env : Env) (now : Nat) (X : Option Condition) (p : Pass)
    (h : p.ready = X) :
    (stageCertsQuotas env now p).Holds (ReadyKept X) (fun q => q.ready = X) := by
  have hne := types_ne_Ready
  simp only [stageCertsQuotas]
  repeat' split
  all_goals simp [Step.Holds, ReadyKept, Pass.ready_setFalse, Pass.ready_markTrue, hne, h]

theorem stageNetworkAttachments_ready (env : Env) (now : Nat) (X : Option Condition)
    (p : Pass) (h : p.ready = X) :
    (stageNetworkAttachments env now p).Holds (ReadyKept X) (fun q => q.ready = X) := by
  have hne := types_ne_Ready
  unfold stageNetworkAttachments
  refine Step.Holds.bindStep (checkNetworkAttachments_ready env now X _ p h) ?_
  intro q hq
  simp only []
  repeat' split
  all_goals simp [Step.Holds, ReadyKept, Pass.ready_markTrue, hne, hq]

theorem stageInit_ready (env : Env) (now : Nat) (X : Option Condition) (p : Pass)
    (h : p.ready = X) :
    (stageInit env now p).Holds (ReadyKept X) (fun q => q.ready = X) := by
  have hne := types_ne_Ready
  simp only [stageInit]
  repeat' split
  all_goals simp [Step.Holds, ReadyKept, Pass.ready_markTrue, hne, h, reconcileInit_ready]

theorem stageUpdate_ready (X : Option Condition) (p : Pass) (h : p.ready = X) :
    (stageUpdate p).Holds (ReadyKept X) (fun q => q.ready = X) := by
  simp only [stageUpdate, reconcileUpdate]
  repeat' split
  all_goals simp [Step.Holds, ReadyKept, h]

theorem stageUpgrade_ready (X : Option Condition) (p : Pass) (h : p.ready = X) :
    (stageUpgrade p).Holds (ReadyKept X) (fun q => q.ready = X) := by
  simp only [stageUpgrade, reconcileUpgrade]
  repeat' split
  all_goals simp [Step.Holds, ReadyKept, h]

theorem stageAPI_ready (env : Env) (now : Nat) (X : Option Condition) (p : Pass)
    (h : p.ready = X) :
    (stageAPI env now p).Holds (ReadyKept X) (fun q => q.ready = X) := by
  have hne := types_ne_Ready
  simp only [stageAPI]
  repeat' split
  all_goals first
    | (simp [Step.Holds, ReadyKept, Pass.ready_setFalse, Pass.ready_markTrue, hne, h]; done)
    | (rename_i hm
       simp [Step.Holds, Pass.ready_mirrored _ now hm hne.2.2.2.2.2.2.2.2.2.1, h])

theorem stageManagementNetwork_ready (env : Env) (X : Option Condition) (p : Pass)
    (h : p.ready = X) :
    (stageManagementNetwork env p).Holds (ReadyKept X) (fun q => q.ready = X) := by
  simp only [stageManagementNetwork]
  repeat' split
  all_goals simp [Step.Holds, ReadyKept, h]

theorem stageHealthManager_ready (env : Env) (now : Nat) (X : Option Condition) (p : Pass)
    (h : p.ready = X) :
    (stageHealthManager env now p).Holds (ReadyKept X) (fun q => q.ready = X) := by
  have hne := types_ne_Ready
  simp only [stageHealthManager]
  repeat' split
  all_goals first
    | (simp [Step.Holds, ReadyKept, Pass.ready_setFalse, Pass.ready_markTrue, hne, h]; done)
    | (rename_i hm
       simp [Step.Holds, ReadyKept, Pass.ready_mirrored _ now hm hne.2.2.2.2.2.2.2.2.2.2.1, h])

theorem stageHousekeeping_ready (env : Env) (now : Nat) (X : Option Condition) (p : Pass)
    (h : p.ready = X) :
    (stageHousekeeping env now p).Holds (ReadyKept X) (fun q => q.ready = X) := by
  have hne := types_ne_Ready
  simp only [stageHousekeeping]
  repeat' split
  all_goals first
    | (simp [Step.Holds, ReadyKept, Pass.ready_setFalse, Pass.ready_markTrue, hne, h]; done)
    | (rename_i hm
       simp [Step.Holds, Pass.ready_mirrored _ now hm hne.2.2.2.2.2.2.2.2.2.2.2.1, h])

theorem stageWorker_ready (env : Env) (now : Nat) (X : Option Condition) (p : Pass)
    (h : p.ready = X) :
    (stageWorker env now p).Holds (ReadyKept X) (fun q => q.ready = X) := by
  have hne := types_ne_Ready
  simp only [stageWorker]
  repeat' split
  all_goals first
    | (simp [Step.Holds, ReadyKept, Pass.ready_setFalse, Pass.ready_markTrue, hne, h]; done)
    | (rename_i hm
       simp [Step.Holds, Pass.ready_mirrored _ now hm hne.2.2.2.2.2.2.2.2.2.2.2.2, h])

theorem stageAccountsSSH_ready (env : Env) (X : Option Condition) (p : Pass)
    (h : p.ready = X) :
    (stageAccountsSSH env p).Holds (ReadyKept X) (fun q => q.ready = X) := by
  simp only [stageAccountsSSH]
  repeat' split
  all_goals simp [Step.Holds, ReadyKept, h]

theorem stageAmphoraImages_ready (env : Env) (now : Nat) (X : Option Condition) (p : Pass)
    (h : p.ready = X) :
    (stageAmphoraImages env now p).Holds (ReadyKept X) (fun q => q.ready = X) := by
  simp only [stageAmphoraImages]
  repeat' split
  all_goals simp [Step.Holds, ReadyKept, h, reconcileAmphoraImages_ready]

theorem reconcileNormalAPI_ready (env : Env) (now : Nat) (X : Option Condition) (p : Pass)
    (h : p.ready = X) :
    (reconcileNormalAPI env now p).Holds (ReadyKept X) (fun q => q.ready = X) := by
  unfold reconcileNormalAPI
  refine Step.Holds.bindStep ?_ (fun q hq => stageAPI_ready env now X q hq)
  refine Step.Holds.bindStep ?_ (fun q hq => stageUpgrade_ready X q hq)
  refine Step.Holds.bindStep ?_ (fun q hq => stageUpdate_ready X q hq)
  refine Step.Holds.bindStep ?_ (fun q hq => stageInit_ready env now X q hq)
  refine Step.Holds.bindStep ?_ (fun q hq => stageNetworkAttachments_ready env now X q hq)
  refine Step.Holds.bindStep ?_ (fun q hq => stageCertsQuotas_ready env now X q hq)
  refine Step.Holds.bindStep ?_ (fun q hq => stageTransportURL_ready env now X q hq)
  exact stageRbac_ready env X p h

theorem reconcileNormalAmphora_ready (env : Env) (now : Nat) (X : Option Condition) (p : Pass)
    (h : p.ready = X) :
    ((stageManagementNetwork env p).bind (stageHealthManager env now)
      |>.bind (stageHousekeeping env now)
      |>.bind (stageWorker env now)
      |>.bind (stageAccountsSSH env)
      |>.bind (stageAmphoraImages env now)).Holds (ReadyKept X) (fun q => q.ready = X) := by
  refine Step.Holds.bindStep ?_ (fun q hq => stageAmphoraImages_ready env now X q hq)
  refine Step.Holds.bindStep ?_ (fun q hq => stageAccountsSSH_ready env X q hq)
  refine Step.Holds.bindStep ?_ (fun q hq => stageWorker_ready env now X q hq)
  refine Step.Holds.bindStep ?_ (fun q hq => stageHousekeeping_ready env now X q hq)
  refine Step.Holds.bindStep ?_ (fun q hq => stageHealthManager_ready env now X q hq)
  exact stageManagementNetwork_ready env X p h

theorem stageReady_contract (now : Nat) (p : Pass) :
    (condition.AllSubConditionIsTrue (stageReady now p).pass.inst.Status.Conditions = true →
        ∃ t, (stageReady now p).pass.ready = some
          { condition.TrueCondition condition.ReadyCondition "condition.ReadyMessage" with
            LastTransitionTime := t }) ∧
      (condition.AllSubConditionIsTrue (stageReady now p).pass.inst.Status.Conditions = false →
        (stageReady now p).pass.ready = p.ready) ∧
      (stageReady now p).line = 755 := by
  simp only [stageReady]
  by_cases hall : condition.AllSubConditionIsTrue
      p.setObservedGeneration.inst.Status.Conditions = true
  · simp only [hall, if_true, Pass.ret_inst, Pass.ret_line, Pass.ready_ret,
      Pass.markTrue_Conditions, and_true]
    have hkeep := AllSubConditionIsTrue_Set_Ready now
      p.setObservedGeneration.inst.Status.Conditions
      (condition.TrueCondition condition.ReadyCondition "condition.ReadyMessage") rfl
    refine ⟨fun _ => ?_, fun hfalse => ?_⟩
    · exact Get_Set_self now _
        (condition.TrueCondition condition.ReadyCondition "condition.ReadyMessage")
    · rw [hkeep, hall] at hfalse
      exact absurd hfalse (by decide)
  · rw [if_neg hall]
    simp only [Pass.ret_inst, Pass.ret_line, Pass.ready_ret,
      Pass.ready_setObservedGeneration, and_true]
    exact ⟨fun h => absurd h hall, fun _ => trivial⟩

/-- C11: a pass of `reconcileNormal` marks the Ready condition True only on its last
line (755) and only when every sub-condition is True at the end of the pass, in which
case the Ready condition it leaves is the True condition with the Ready message; on
every early return, and whenever some sub-condition is not True at the end of the
pass, the Ready condition is the one the pass started with. -/
theorem reconcileNormal_ready_only_if_all_true (env : Env) (now : Nat) (p : Pass) :
    (((reconcileNormal env now p).line = 755 ∧
        condition.AllSubConditionIsTrue
          (reconcileNormal env now p).pass.inst.Status.Conditions = true) →
      ∃ t, condition.Get (reconcileNormal env now p).pass.inst.Status.Conditions
          condition.ReadyCondition = some
        { condition.TrueCondition condition.ReadyCondition "condition.ReadyMessage" with
          LastTransitionTime := t }) ∧
    (¬ ((reconcileNormal env now p).line = 755 ∧
        condition.AllSubConditionIsTrue
          (reconcileNormal env now p).pass.inst.Status.Conditions = true) →
      condition.Get (reconcileNormal env now p).pass.inst.Status.Conditions
          condition.ReadyCondition
        = condition.Get p.inst.Status.Conditions condition.ReadyCondition) := by
  have early : ∀ r : Ret, ReadyKept p.ready r →
      ((r.line = 755 ∧ condition.AllSubConditionIsTrue r.pass.inst.Status.Conditions = true) →
        ∃ t, r.pass.ready = some
          { condition.TrueCondition condition.ReadyCondition "condition.ReadyMessage" with
            LastTransitionTime := t }) ∧
      (¬ (r.line = 755 ∧
          condition.AllSubConditionIsTrue r.pass.inst.Status.Conditions = true) →
        r.pass.ready = p.ready) :=
    fun r hr => ⟨fun h => absurd h.1 hr.2, fun _ => hr.1⟩
  unfold reconcileNormal reconcileNormalAmphora
  refine Step.Holds.finish (S := fun r =>
      ((r.line = 755 ∧ condition.AllSubConditionIsTrue r.pass.inst.Status.Conditions = true) →
        ∃ t, r.pass.ready = some
          { condition.TrueCondition condition.ReadyCondition "condition.ReadyMessage" with
            LastTransitionTime := t }) ∧
      (¬ (r.line = 755 ∧
          condition.AllSubConditionIsTrue r.pass.inst.Status.Conditions = true) →
        r.pass.ready = p.ready)) (N := fun q => q.ready = p.ready) ?_ ?_
  · have := reconcileNormalAPI_ready env now p.ready p rfl
    cases hs : reconcileNormalAPI env now p with
    | stop r => rw [hs] at this; exact early r this
    | next q => rw [hs] at this; exact this
  · intro q hq
    have := reconcileNormalAmphora_ready env now p.ready q hq
    cases hs : ((((stageManagementNetwork env q).bind (stageHealthManager env now)).bind
        (stageHousekeeping env now)).bind (stageWorker env now)).bind
        (stageAccountsSSH env) |>.bind (stageAmphoraImages env now) with
    | stop r => rw [hs] at this; exact early r this
    | next q2 =>
      rw [hs] at this
      simp only [Step.finish_next]
      have hc := stageReady_contract now q2
      refine ⟨fun h => hc.1 h.2, fun h => ?_⟩
      have hfalse : condition.AllSubConditionIsTrue
          (stageReady now q2).pass.inst.Status.Conditions = false := by
        cases hb : condition.AllSubConditionIsTrue
            (stageReady now q2).pass.inst.Status.Conditions with
        | false => rfl
        | true => exact absurd ⟨hc.2.2, hb⟩ h
      rw [hc.2.1 hfalse]
      exact this

/-- C11 at two concrete passes: one that runs to the last line with every
sub-condition True, and one that returns early at the barrier behind the health
manager. -/
theorem reconcileNormal_ready_only_if_all_true_witness :
    (∃ t, condition.Get
        (reconcileNormal readyEnv 5 ⟨sampleInstance, [], []⟩).pass.inst.Status.Conditions
          condition.ReadyCondition = some
        { condition.TrueCondition condition.ReadyCondition "condition.ReadyMessage" with
          LastTransitionTime := t }) ∧
    condition.Get
        (reconcileNormal sampleEnv 5 ⟨sampleInstance, [], []⟩).pass.inst.Status.Conditions
          condition.ReadyCondition
      = condition.Get sampleInstance.Status.Conditions condition.ReadyCondition :=
  ⟨(reconcileNormal_ready_only_if_all_true readyEnv 5 ⟨sampleInstance, [], []⟩).1 (by decide),
   (reconcileNormal_ready_only_if_all_true sampleEnv 5 ⟨sampleInstance, [], []⟩).2 (by decide)⟩


/-! ## Deletion seen from the dispatcher -/

theorem deferredPatch_calls (env : Env) (now : Nat) (saved : List Condition) (r : Ret) :
    (deferredPatch env now saved r).calls = r.pass.calls ++ [Call.PatchInstance] := by
  unfold deferredPatch
  cases env.PatchInstance <;> rfl

theorem deferredPatch_returns (env : Env) (now : Nat) (saved : List Condition) (r : Ret) :
    (deferredPatch env now saved r).returns = r.pass.returns := by
  unfold deferredPatch
  cases env.PatchInstance <;> rfl

theorem reconcileDelete_no_rbac (env : Env) (p : Pass) (h : Call.ReconcileRbac ∉ p.calls) :
    Call.ReconcileRbac ∉ (reconcileDelete env p).pass.calls := by
  simp only [reconcileDelete]
  repeat' split
  all_goals simp [Pass.removeFinalizer, Pass.ret, Pass.call, h]

theorem reconcileDelete_returns (env : Env) (p : Pass) :
    (reconcileDelete env p).pass.returns = p.returns ++ [(reconcileDelete env p).line] := by
  simp only [reconcileDelete]
  repeat' split
  all_goals simp [Pass.removeFinalizer, Pass.ret, Pass.call]

theorem reconcileDelete_line (env : Env) (p : Pass) :
    (reconcileDelete env p).line ≠ 215 := by
  simp only [reconcileDelete]
  repeat' split
  all_goals simp [Pass.ret]

theorem dispatch_deleted (env : Env) (now : Nat) (isNewInstance : Bool) (inst : Octavia)
    (hdel : inst.DeletionTimestamp.isSome = true) :
    dispatch env now isNewInstance inst =
      if isNewInstance then
        Pass.ret ⟨{ inst with Status := { inst.Status with
            Conditions := condition.Init now inst.Status.Conditions initialConditions } },
          [.ClientGet, .NewHelper], []⟩ Result.empty none 202
      else
        (reconcileDelete env ⟨{ inst with Status := { inst.Status with
            Conditions := condition.Init now inst.Status.Conditions initialConditions } },
          [.ClientGet, .NewHelper], []⟩).pass.ret
          (reconcileDelete env ⟨{ inst with Status := { inst.Status with
            Conditions := condition.Init now inst.Status.Conditions initialConditions } },
          [.ClientGet, .NewHelper], []⟩).result
          (reconcileDelete env ⟨{ inst with Status := { inst.Status with
            Conditions := condition.Init now inst.Status.Conditions initialConditions } },
          [.ClientGet, .NewHelper], []⟩).err 211 := by
  have hnone : inst.DeletionTimestamp.isNone = false := by
    cases hd : inst.DeletionTimestamp with
    | none => simp [hd] at hdel
    | some t => rfl
  unfold dispatch
  simp only [hnone, Bool.false_eq_true, if_false, Bool.false_or, Bool.not_false, if_true]

/-! ## Errors that come with a requeue -/

/-- C13, evaluated on three passes.  The fetch of the asset manifest fails (line
1009), the migration job answers with a requeue and an error (line 410), the upsert
of the uploader deployment answers with a requeue and an error (line 922): each time
`reconcileNormal` returns the requeue result and a nil error. -/
theorem reconcileNormal_drops_error_with_requeue :
    (manifestFailEnv.HttpGet (listUrl "http://img") = .error ⟨false, "connection refused"⟩ ∧
      (reconcileNormal manifestFailEnv 5 ⟨sampleInstance, [], []⟩).pass.returns
        = [876, 429, 440, 451, 1009, 738] ∧
      (reconcileNormal manifestFailEnv 5 ⟨sampleInstance, [], []⟩).result
        = { Requeue := true, RequeueAfter := 1 } ∧
      (reconcileNormal manifestFailEnv 5 ⟨sampleInstance, [], []⟩).err = none) ∧
    ((jobFailEnv.DoJob "").err = some ⟨false, "job failed"⟩ ∧
      (reconcileNormal jobFailEnv 5 ⟨sampleInstance, [], []⟩).pass.returns = [876, 410, 571] ∧
      (reconcileNormal jobFailEnv 5 ⟨sampleInstance, [], []⟩).result = { RequeueAfter := 5 } ∧
      (reconcileNormal jobFailEnv 5 ⟨sampleInstance, [], []⟩).err = none) ∧
    (uploaderFailEnv.DeploymentCreateOrPatch.2 = some ⟨false, "conflict"⟩ ∧
      (reconcileNormal uploaderFailEnv 5 ⟨sampleInstance, [], []⟩).pass.returns
        = [876, 429, 440, 451, 922, 738] ∧
      (reconcileNormal uploaderFailEnv 5 ⟨sampleInstance, [], []⟩).result
        = { RequeueAfter := 5 } ∧
      (reconcileNormal uploaderFailEnv 5 ⟨sampleInstance, [], []⟩).err = none) := by
  refine ⟨⟨rfl, ?_, ?_, ?_⟩, ⟨rfl, ?_, ?_, ?_⟩, ⟨rfl, ?_, ?_, ?_⟩⟩ <;> decide

/-! ## Errors without a condition -/

/-- C14, evaluated on six passes.  The management network, the network annotation,
the hash of the inputs, the finalizers of unused accounts, the SSH configuration and
the asset import fail in turn: each time `reconcileNormal` returns the error, and no
condition of the status it leaves is False. -/
theorem reconcileNormal_error_without_condition :
    ((reconcileNormal mgmtNetFailEnv 5 ⟨sampleInstance, [], []⟩).pass.returns
        = [876, 429, 440, 451, 634] ∧
      (reconcileNormal mgmtNetFailEnv 5 ⟨sampleInstance, [], []⟩).err
        = some ⟨false, "neutron unavailable"⟩ ∧
      NoFalseCondition (reconcileNormal mgmtNetFailEnv 5 ⟨sampleInstance, [], []⟩).pass.inst
        = true) ∧
    ((reconcileNormal annotationFailEnv 5 ⟨sampleInstance, [], []⟩).pass.returns = [561] ∧
      (reconcileNormal annotationFailEnv 5 ⟨sampleInstance, [], []⟩).err.isSome = true ∧
      NoFalseCondition (reconcileNormal annotationFailEnv 5 ⟨sampleInstance, [], []⟩).pass.inst
        = true) ∧
    ((reconcileNormal inputHashFailEnv 5 ⟨sampleInstance, [], []⟩).pass.returns
        = [876, 377, 569] ∧
      (reconcileNormal inputHashFailEnv 5 ⟨sampleInstance, [], []⟩).err
        = some ⟨false, "hash failed"⟩ ∧
      NoFalseCondition (reconcileNormal inputHashFailEnv 5 ⟨sampleInstance, [], []⟩).pass.inst
        = true) ∧
    ((reconcileNormal accountCleanupFailEnv 5 ⟨sampleInstance, [], []⟩).pass.returns
        = [876, 429, 440, 451, 722] ∧
      (reconcileNormal accountCleanupFailEnv 5 ⟨sampleInstance, [], []⟩).err
        = some ⟨false, "conflict"⟩ ∧
      NoFalseCondition
        (reconcileNormal accountCleanupFailEnv 5 ⟨sampleInstance, [], []⟩).pass.inst = true) ∧
    ((reconcileNormal sshFailEnv 5 ⟨sampleInstance, [], []⟩).pass.returns
        = [876, 429, 440, 451, 733] ∧
      (reconcileNormal sshFailEnv 5 ⟨sampleInstance, [], []⟩).err
        = some ⟨false, "keypair failed"⟩ ∧
      NoFalseCondition (reconcileNormal sshFailEnv 5 ⟨sampleInstance, [], []⟩).pass.inst
        = true) ∧
    ((reconcileNormal importFailEnv 5 ⟨sampleInstance, [], []⟩).pass.returns
        = [876, 429, 440, 451, 1014, 741] ∧
      (reconcileNormal importFailEnv 5 ⟨sampleInstance, [], []⟩).err
        = some ⟨false, "glance unavailable"⟩ ∧
      NoFalseCondition (reconcileNormal importFailEnv 5 ⟨sampleInstance, [], []⟩).pass.inst
        = true) := by
  refine ⟨⟨?_, ?_, ?_⟩, ⟨?_, ?_, ?_⟩, ⟨?_, ?_, ?_⟩, ⟨?_, ?_, ?_⟩, ⟨?_, ?_, ?_⟩, ⟨?_, ?_, ?_⟩⟩
    <;> decide


/-! ## The input secrets -/

/-- C21: when the lookup of the password secret fails, or it succeeds and the lookup
of the transport URL secret fails, `reconcileInit` makes no call after the failed
lookup (no database, config or migration call); a NotFound failure sets InputReady
False with reason Requested and severity Info and returns a requeue after ten seconds
together with an error naming the secret; any other failure sets InputReady False
with reason Error and severity Warning and returns that error with an empty
result. -/
theorem reconcileInit_secret_lookup_fails (env : Env) (now : Nat) (p : Pass) :
    (∀ e, env.GetSecret p.inst.Spec.Secret = .error e →
      (reconcileInit env now p).pass.calls = p.calls ++ [Call.GetSecret p.inst.Spec.Secret] ∧
      InputNotReady (reconcileInit env now p) e
        ("OpenStack secret " ++ p.inst.Spec.Secret ++ " not found")) ∧
    (∀ s e, env.GetSecret p.inst.Spec.Secret = .ok s →
      env.GetSecret p.inst.Status.TransportURLSecret = .error e →
      (reconcileInit env now p).pass.calls = p.calls ++
        [Call.GetSecret p.inst.Spec.Secret, Call.GetSecret p.inst.Status.TransportURLSecret] ∧
      InputNotReady (reconcileInit env now p) e
        ("TransportURL secret " ++ p.inst.Status.TransportURLSecret ++ " not found")) := by
  refine ⟨fun e he => ?_, fun s e hs he => ?_⟩
  · cases hnf : e.notFound
    · simp only [reconcileInit, Pass.call_inst, he, hnf, InputNotReady]
      simp only [Bool.false_eq_true, if_false, Pass.ret_calls, Pass.setCond_calls,
        Pass.call_calls, Pass.ret_result, Pass.ret_err, Pass.ret_inst,
        Pass.setCond_Conditions, true_and, false_implies, forall_const]
      exact Get_Set_self now _ (condition.FalseCondition condition.InputReadyCondition
        condition.ErrorReason condition.SeverityWarning "condition.InputReadyErrorMessage"
        [e.msg])
    · simp only [reconcileInit, Pass.call_inst, he, hnf, InputNotReady]
      simp only [if_true, Pass.ret_calls, Pass.setCond_calls,
        Pass.call_calls, Pass.ret_result, Pass.ret_err, Pass.ret_inst,
        Pass.setCond_Conditions, true_and, Bool.true_eq_false, false_implies, forall_const,
        and_true]
      exact Get_Set_self now _ (condition.FalseCondition condition.InputReadyCondition
        condition.RequestedReason condition.SeverityInfo "condition.InputReadyWaitingMessage"
        [])
  · cases hnf : e.notFound
    · simp only [reconcileInit, Pass.call_inst, hs, he, hnf, InputNotReady]
      simp only [Bool.false_eq_true, if_false, Pass.ret_calls, Pass.setCond_calls,
        Pass.call_calls, Pass.ret_result, Pass.ret_err, Pass.ret_inst,
        Pass.setCond_Conditions, true_and, false_implies, forall_const,
        List.append_assoc, List.singleton_append]
      exact Get_Set_self now _ (condition.FalseCondition condition.InputReadyCondition
        condition.ErrorReason condition.SeverityWarning "condition.InputReadyErrorMessage"
        [e.msg])
    · simp only [reconcileInit, Pass.call_inst, hs, he, hnf, InputNotReady]
      simp only [if_true, Pass.ret_calls, Pass.setCond_calls,
        Pass.call_calls, Pass.ret_result, Pass.ret_err, Pass.ret_inst,
        Pass.setCond_Conditions, true_and, Bool.true_eq_false, false_implies, forall_const,
        and_true, List.append_assoc, List.singleton_append]
      exact Get_Set_self now _ (condition.FalseCondition condition.InputReadyCondition
        condition.RequestedReason condition.SeverityInfo "condition.InputReadyWaitingMessage"
        [])

/-- C21 at two concrete passes: the password secret is NotFound, and the lookup of
the transport URL secret is forbidden. -/
theorem reconcileInit_secret_lookup_fails_witness :
    ((reconcileInit noSecretEnv 5 ⟨sampleInstance, [], []⟩).pass.calls
        = [] ++ [Call.GetSecret sampleInstance.Spec.Secret] ∧
      InputNotReady (reconcileInit noSecretEnv 5 ⟨sampleInstance, [], []⟩)
        ⟨true, "secrets not found"⟩
        ("OpenStack secret " ++ sampleInstance.Spec.Secret ++ " not found")) ∧
    ((reconcileInit transportSecretFailEnv 5 ⟨sampleInstance, [], []⟩).pass.calls
        = [] ++ [Call.GetSecret sampleInstance.Spec.Secret,
            Call.GetSecret sampleInstance.Status.TransportURLSecret] ∧
      InputNotReady (reconcileInit transportSecretFailEnv 5 ⟨sampleInstance, [], []⟩)
        ⟨false, "forbidden"⟩
        ("TransportURL secret " ++ sampleInstance.Status.TransportURLSecret ++ " not found")) :=
  ⟨(reconcileInit_secret_lookup_fails noSecretEnv 5 ⟨sampleInstance, [], []⟩).1
      ⟨true, "secrets not found"⟩ rfl,
   (reconcileInit_secret_lookup_fails transportSecretFailEnv 5 ⟨sampleInstance, [], []⟩).2
      ("osp-secret", "hash-of-osp-secret") ⟨false, "forbidden"⟩ rfl rfl⟩


/-! ## The empty asset-image reference -/

/-- C25: with an empty asset-image reference reconcileAmphoraImages makes no
collaborator call, returns an empty result and no error (line 893) and leaves the
stored image-upload hash empty; a later pass on that status with a non-empty
reference, whose hash is not the empty string, does not return at the hash-equal skip
(line 902) and, when the hash is computed, goes on to the uploader deployment. -/
theorem reconcileAmphoraImages_empty_reference (env : Env) (now : Nat) (p : Pass)
    (href : p.inst.Spec.AmphoraImageContainerImage = "") :
    (reconcileAmphoraImages env now p).pass.calls = p.calls ∧
      (reconcileAmphoraImages env now p).result = Result.empty ∧
      (reconcileAmphoraImages env now p).err = none ∧
      (reconcileAmphoraImages env now p).line = 893 ∧
      mapGet (reconcileAmphoraImages env now p).pass.inst.Status.Hash
        octaviav1.ImageUploadHash = "" ∧
      (mapGet p.inst.Status.Hash octaviav1.ImageUploadHash = "" →
        (reconcileAmphoraImages env now p).pass.inst = p.inst) ∧
      ∀ (env2 : Env) (now2 : Nat) (q : Pass),
        q.inst.Status.Hash = (reconcileAmphoraImages env now p).pass.inst.Status.Hash →
        q.inst.Spec.AmphoraImageContainerImage ≠ "" →
        (∀ h, env2.ObjectHashString q.inst.Spec.AmphoraImageContainerImage = .ok h → h ≠ "") →
        (reconcileAmphoraImages env2 now2 q).line ≠ 902 ∧
        ((∃ h, env2.ObjectHashString q.inst.Spec.AmphoraImageContainerImage = .ok h) →
          Call.DeploymentCreateOrPatch ∈ (reconcileAmphoraImages env2 now2 q).pass.calls) := by
  have hget : mapGet (reconcileAmphoraImages env now p).pass.inst.Status.Hash
      octaviav1.ImageUploadHash = "" := by
    unfold reconcileAmphoraImages
    simp only [href, if_true]
    by_cases hz : mapGet p.inst.Status.Hash octaviav1.ImageUploadHash = ""
    · simp [hz]
    · simp [hz, mapGet_mapPut_self]
  refine ⟨?_, ?_, ?_, ?_, hget, ?_, ?_⟩
  · unfold reconcileAmphoraImages
    simp only [href, if_true]
    split <;> simp
  · unfold reconcileAmphoraImages
    simp [href]
  · unfold reconcileAmphoraImages
    simp [href]
  · unfold reconcileAmphoraImages
    simp [href]
  · intro hz
    unfold reconcileAmphoraImages
    simp [href, hz]
  · intro env2 now2 q hq href2 hne
    rw [← hq] at hget
    cases hh : env2.ObjectHashString q.inst.Spec.AmphoraImageContainerImage with
    | error err =>
      refine ⟨?_, fun ⟨h, hh2⟩ => by cases hh2⟩
      unfold reconcileAmphoraImages
      simp [href2, hh]
    | ok h =>
      have hne2 : h ≠ mapGet q.inst.Status.Hash octaviav1.ImageUploadHash := by
        rw [hget]
        exact hne h hh
      refine ⟨?_, fun _ => ?_⟩
      · unfold reconcileAmphoraImages
        simp only [href2, if_false, hh, hne2]
        repeat' split
        all_goals simp
      · unfold reconcileAmphoraImages
        simp only [href2, if_false, hh, hne2]
        repeat' split
        all_goals simp

/-- C25 at a concrete instance: the reference is emptied after an import, and the
reference imported before is declared again on the status that pass leaves. -/
theorem reconcileAmphoraImages_empty_reference_witness :
    (reconcileAmphoraImages sampleEnv 5 ⟨clearedInstance, [], []⟩).pass.calls = [] ∧
      (reconcileAmphoraImages sampleEnv 5 ⟨clearedInstance, [], []⟩).result = Result.empty ∧
      (reconcileAmphoraImages sampleEnv 5 ⟨clearedInstance, [], []⟩).err = none ∧
      mapGet (reconcileAmphoraImages sampleEnv 5 ⟨clearedInstance, [], []⟩).pass.inst.Status.Hash
        octaviav1.ImageUploadHash = "" ∧
      (reconcileAmphoraImages sampleEnv 6 ⟨redeclaredInstance, [], []⟩).line ≠ 902 :=
  ⟨(reconcileAmphoraImages_empty_reference sampleEnv 5 ⟨clearedInstance, [], []⟩ rfl).1,
   (reconcileAmphoraImages_empty_reference sampleEnv 5 ⟨clearedInstance, [], []⟩ rfl).2.1,
   (reconcileAmphoraImages_empty_reference sampleEnv 5 ⟨clearedInstance, [], []⟩ rfl).2.2.1,
   (reconcileAmphoraImages_empty_reference sampleEnv 5 ⟨clearedInstance, [], []⟩ rfl).2.2.2.2.1,
   ((reconcileAmphoraImages_empty_reference sampleEnv 5 ⟨clearedInstance, [], []⟩
      rfl).2.2.2.2.2.2 sampleEnv 6 ⟨redeclaredInstance, [], []⟩ (by decide) (by decide)
      (fun h hh => by cases hh; decide)).1⟩


/-! ## The calls a stage adds -/

theorem Appends.refl (k : Nat) (a : List Call) : Appends k a a :=
  ⟨[], by simp, by simp⟩

theorem Appends.weaken {k k' : Nat} {a b : List Call} (h : Appends k a b) (hk : k ≤ k') :
    Appends k' a b := by
  obtain ⟨cs, hb, hcs⟩ := h
  exact ⟨cs, hb, fun c hc => ⟨(hcs c hc).1, Nat.le_trans (hcs c hc).2 hk⟩⟩

theorem Appends.add {k : Nat} {a b : List Call} {c : Call} (h : Appends k a b)
    (hs : c.stage.isSome = true) (hk : c.rank ≤ k) : Appends k a (b ++ [c]) := by
  obtain ⟨cs, hb, hcs⟩ := h
  refine ⟨cs ++ [c], by rw [hb, List.append_assoc], ?_⟩
  intro c' hc'
  rcases List.mem_append.mp hc' with h' | h'
  · exact hcs c' h'
  · rw [List.mem_singleton.mp h']
    exact ⟨hs, hk⟩

theorem Appends.trans {k : Nat} {a b c : List Call} (h : Appends k a b) (h' : Appends k b c) :
    Appends k a c := by
  obtain ⟨cs, hb, hcs⟩ := h
  obtain ⟨ds, hc, hds⟩ := h'
  refine ⟨cs ++ ds, by rw [hc, hb, List.append_assoc], ?_⟩
  intro x hx
  rcases List.mem_append.mp hx with h1 | h1
  · exact hcs x h1
  · exact hds x h1

theorem Appends.excludes {k : Nat} {a b : List Call} {c : Call} (h : Appends k a b)
    (ha : c ∉ a) (hc : c.stage = none ∨ k < c.rank) : c ∉ b := by
  obtain ⟨cs, hb, hcs⟩ := h
  rw [hb]
  intro hmem
  rcases List.mem_append.mp hmem with h1 | h1
  · exact ha h1
  · rcases hc with h2 | h2
    · have := (hcs c h1).1
      rw [h2] at this
      exact absurd this (by decide)
    · exact absurd (hcs c h1).2 (Nat.not_le.mpr h2)

@[simp] theorem Call.staged_ReconcileRbac :
    Call.ReconcileRbac.stage.isSome = true := rfl
@[simp] theorem Call.staged_transportURLCreateOrUpdate :
    Call.transportURLCreateOrUpdate.stage.isSome = true := rfl
@[simp] theorem Call.staged_EnsureAmphoraCerts :
    Call.EnsureAmphoraCerts.stage.isSome = true := rfl
@[simp] theorem Call.staged_EnsureQuotas :
    Call.EnsureQuotas.stage.isSome = true := rfl
@[simp] theorem Call.staged_GetNADWithName (n : String) :
    (Call.GetNADWithName n).stage.isSome = true := rfl
@[simp] theorem Call.staged_CreateNetworksAnnotation :
    Call.CreateNetworksAnnotation_.stage.isSome = true := rfl
@[simp] theorem Call.staged_GetSecret (n : String) :
    (Call.GetSecret n).stage.isSome = true := rfl
@[simp] theorem Call.staged_EnsureMariaDBAccount (a : String) :
    (Call.EnsureMariaDBAccount a).stage.isSome = true := rfl
@[simp] theorem Call.staged_CreateOrPatchAll (d : String) :
    (Call.CreateOrPatchAll d).stage.isSome = true := rfl
@[simp] theorem Call.staged_WaitForDBCreated (d : String) :
    (Call.WaitForDBCreated d).stage.isSome = true := rfl
@[simp] theorem Call.staged_EnsureSecrets :
    Call.EnsureSecrets.stage.isSome = true := rfl
@[simp] theorem Call.staged_DoJob (h : String) :
    (Call.DoJob h).stage.isSome = true := rfl
@[simp] theorem Call.staged_apiDeploymentCreateOrUpdate :
    Call.apiDeploymentCreateOrUpdate.stage.isSome = true := rfl
@[simp] theorem Call.staged_EnsureAmphoraManagementNetwork :
    Call.EnsureAmphoraManagementNetwork.stage.isSome = true := rfl
@[simp] theorem Call.staged_DeleteUnusedMariaDBAccountFinalizers (d a : String) :
    (Call.DeleteUnusedMariaDBAccountFinalizers d a).stage.isSome = true := rfl
@[simp] theorem Call.staged_EnsureAmpSSHConfig :
    Call.EnsureAmpSSHConfig.stage.isSome = true := rfl
@[simp] theorem Call.staged_DeploymentCreateOrPatch :
    Call.DeploymentCreateOrPatch.stage.isSome = true := rfl
@[simp] theorem Call.staged_NewService :
    Call.NewService.stage.isSome = true := rfl
@[simp] theorem Call.staged_ServiceCreateOrPatch :
    Call.ServiceCreateOrPatch.stage.isSome = true := rfl
@[simp] theorem Call.staged_GetAPIEndpoint :
    Call.GetAPIEndpoint.stage.isSome = true := rfl
@[simp] theorem Call.staged_HttpGet (u : String) :
    (Call.HttpGet u).stage.isSome = true := rfl
@[simp] theorem Call.staged_EnsureAmphoraImages (m : List OctaviaAmphoraImage) :
    (Call.EnsureAmphoraImages m).stage.isSome = true := rfl
@[simp] theorem Call.staged_DeploymentDelete :
    Call.DeploymentDelete.stage.isSome = true := rfl
@[simp] theorem Call.staged_amphoraController (role : String) :
    (Call.amphoraControllerDaemonSetCreateOrUpdate role).stage.isSome = true := by
  simp only [Call.stage]
  split <;> rfl

theorem ensureDBLoop_appends (env : Env) (now : Nat) (k : Nat) (a : List Call) (hk : 5 ≤ k)
    (dbs : List String) :
    ∀ p, Appends k a p.calls → Appends k a (ensureDBLoop env now dbs p).pass.calls := by
  induction dbs with
  | nil => intro p h; simpa [ensureDBLoop] using h
  | cons db dbs ih =>
    intro p h
    simp only [ensureDBLoop]
    repeat' split
    all_goals
      try simp only [Step.pass_stop, Step.pass_next, Pass.ret_calls, Pass.setCond_calls,
        Pass.call_calls]
      repeat (first
        | exact h
        | apply ih
        | (refine Appends.add ?_ ?_ ?_ <;>
            [skip; (simp; done); (first | (simp; done) | (simp; omega))]))

theorem ensureDBLoop_appends_stop {env : Env} {now : Nat} {k : Nat} {a : List Call}
    {dbs : List String} {p : Pass} {r : Ret} (h : ensureDBLoop env now dbs p = .stop r)
    (hk : 5 ≤ k) (hp : Appends k a p.calls) : Appends k a r.pass.calls := by
  have := ensureDBLoop_appends env now k a hk dbs p hp
  rwa [h] at this

theorem ensureDBLoop_appends_next {env : Env} {now : Nat} {k : Nat} {a : List Call}
    {dbs : List String} {p q : Pass} (h : ensureDBLoop env now dbs p = .next q)
    (hk : 5 ≤ k) (hp : Appends k a p.calls) : Appends k a q.calls := by
  have := ensureDBLoop_appends env now k a hk dbs p hp
  rwa [h] at this

theorem ensureDB_appends (env : Env) (now : Nat) (k : Nat) (a : List Call) (p : Pass)
    (h : Appends k a p.calls) (hk : 5 ≤ k) :
    Appends k a (ensureDB env now p).pass.calls := by
  simp only [ensureDB]
  repeat' split
  all_goals
    try simp only [Pass.ret_calls, Pass.setCond_calls, Pass.markTrue_calls,
      Pass.setDatabaseHostname_calls, Pass.call_calls]
    repeat (first
      | exact h
      | refine ensureDBLoop_appends_stop (by assumption) hk ?_
      | refine ensureDBLoop_appends_next (by assumption) hk ?_
      | (refine Appends.add ?_ ?_ ?_ <;>
          [skip; (simp; done); (first | (simp; done) | (simp; omega))]))

theorem reconcileInit_appends (env : Env) (now : Nat) (k : Nat) (a : List Call) (p : Pass)
    (h : Appends k a p.calls) (hk : 7 ≤ k) :
    Appends k a (reconcileInit env now p).pass.calls := by
  have hdb : ∀ q : Pass, Appends k a q.calls → Appends k a (ensureDB env now q).pass.calls :=
    fun q hq => ensureDB_appends env now k a q hq (by omega)
  simp only [reconcileInit]
  repeat' split
  all_goals
    try simp only [Pass.ret_calls, Pass.setCond_calls, Pass.markTrue_calls,
      Pass.putHash_calls, Pass.call_calls, createHashOfInputHashes_calls]
    repeat (first
      | exact h
      | refine hdb _ ?_
      | (refine Appends.add ?_ ?_ ?_ <;>
          [skip; (simp; done); (first | (simp; done) | (simp; omega))]))

theorem reconcileAmphoraImages_appends (env : Env) (now : Nat) (k : Nat) (a : List Call)
    (p : Pass) (h : Appends k a p.calls) (hk : 13 ≤ k) :
    Appends k a (reconcileAmphoraImages env now p).pass.calls := by
  simp only [reconcileAmphoraImages]
  repeat' split
  all_goals
    try simp only [Pass.ret_calls, Pass.setCond_calls, Pass.markTrue_calls,
      Pass.putHash_calls, Pass.call_calls]
    repeat (first
      | exact h
      | (refine Appends.add ?_ ?_ ?_ <;>
          [skip; (simp; done); (first | (simp; done) | (simp; omega))]))

theorem checkNetworkAttachments_appends (env : Env) (now : Nat) (k : Nat) (a : List Call)
    (hk : 3 ≤ k) (names : List String) :
    ∀ p, Appends k a p.calls →
      (checkNetworkAttachments env now names p).Holds (fun r => Appends k a r.pass.calls)
        (fun q => Appends k a q.calls) := by
  induction names with
  | nil => intro p h; simpa [checkNetworkAttachments, Step.Holds] using h
  | cons n names ih =>
    intro p h
    simp only [checkNetworkAttachments]
    repeat' split
    all_goals
      try simp only [Step.Holds, Pass.ret_calls, Pass.setCond_calls, Pass.call_calls]
      repeat (first
        | exact h
        | apply ih
        | (refine Appends.add ?_ ?_ ?_ <;>
            [skip; (simp; done); (first | (simp; done) | (simp; omega))]))

theorem stageRbac_appends (env : Env) (k : Nat) (a : List Call) (p : Pass)
    (h : Appends k a p.calls) (_ : 0 ≤ k) :
    (stageRbac env p).Holds (fun r => Appends k a r.pass.calls) (fun q => Appends k a q.calls) := by
  simp only [stageRbac]
  repeat' split
  all_goals
    try simp only [Step.Holds, Pass.ret_calls, Pass.call_calls, Pass.setCond_calls,
      Pass.markTrue_calls, Pass.putHash_calls, Pass.setTransportURLSecret_calls,
      Pass.setDatabaseHostname_calls, Pass.setOctaviaAPIReadyCount_calls,
      Pass.setOctaviaHealthManagerReadyCount_calls,
      Pass.setOctaviaHousekeepingReadyCount_calls, Pass.setOctaviaWorkerReadyCount_calls,
      Pass.setObservedGeneration_calls, Pass.setHashMap_calls,
      createHashOfInputHashes_calls]
    repeat (first
      | exact h
      | (refine Appends.add ?_ ?_ ?_ <;>
          [skip; (simp; done); (simp; done)]))

theorem stageTransportURL_appends (env : Env) (now : Nat) (k : Nat) (a : List Call) (p : Pass)
    (h : Appends k a p.calls) (hk : 1 ≤ k) :
    (stageTransportURL env now p).Holds (fun r => Appends k a r.pass.calls) (fun q => Appends k a q.calls) := by
  simp only [stageTransportURL]
  repeat' split
  all_goals
    try simp only [Step.Holds, Pass.ret_calls, Pass.call_calls, Pass.setCond_calls,
      Pass.markTrue_calls, Pass.putHash_calls, Pass.setTransportURLSecret_calls,
      Pass.setDatabaseHostname_calls, Pass.setOctaviaAPIReadyCount_calls,
      Pass.setOctaviaHealthManagerReadyCount_calls,
      Pass.setOctaviaHousekeepingReadyCount_calls, Pass.setOctaviaWorkerReadyCount_calls,
      Pass.setObservedGeneration_calls, Pass.setHashMap_calls,
      createHashOfInputHashes_calls]
    repeat (first
      | exact h
      | (refine Appends.add ?_ ?_ ?_ <;>
          [skip; (simp; done); (first | (simp; done) | (simp; omega))]))

theorem stageCertsQuotas_appends (env : Env) (now : Nat) (k : Nat) (a : List Call) (p : Pass)
    (h : Appends k a p.calls) (hk : 2 ≤ k) :
    (stageCertsQuotas env now p).Holds (fun r => Appends k a r.pass.calls) (fun q => Appends k a q.calls) := by
  simp only [stageCertsQuotas]
  repeat' split
  all_goals
    try simp only [Step.Holds, Pass.ret_calls, Pass.call_calls, Pass.setCond_calls,
      Pass.markTrue_calls, Pass.putHash_calls, Pass.setTransportURLSecret_calls,
      Pass.setDatabaseHostname_calls, Pass.setOctaviaAPIReadyCount_calls,
      Pass.setOctaviaHealthManagerReadyCount_calls,
      Pass.setOctaviaHousekeepingReadyCount_calls, Pass.setOctaviaWorkerReadyCount_calls,
      Pass.setObservedGeneration_calls, Pass.setHashMap_calls,
      createHashOfInputHashes_calls]
    repeat (first
      | exact h
      | (refine Appends.add ?_ ?_ ?_ <;>
          [skip; (simp; done); (first | (simp; done) | (simp; omega))]))

theorem stageNetworkAttachments_appends (env : Env) (now : Nat) (k : Nat) (a : List Call)
    (p : Pass) (h : Appends k a p.calls) (hk : 3 ≤ k) :
    (stageNetworkAttachments env now p).Holds (fun r => Appends k a r.pass.calls)
      (fun q => Appends k a q.calls) := by
  unfold stageNetworkAttachments
  refine Step.Holds.bindStep (checkNetworkAttachments_appends env now k a hk _ p h) ?_
  intro q h
  simp only []
  repeat' split
  all_goals
    try simp only [Step.Holds, Pass.ret_calls, Pass.call_calls, Pass.markTrue_calls]
    repeat (first
      | exact h
      | (refine Appends.add ?_ ?_ ?_ <;>
          [skip; (simp; done); (first | (simp; done) | (simp; omega))]))

theorem stageInit_appends (env : Env) (now : Nat) (k : Nat) (a : List Call) (p : Pass)
    (h : Appends k a p.calls) (hk : 7 ≤ k) :
    (stageInit env now p).Holds (fun r => Appends k a r.pass.calls)
      (fun q => Appends k a q.calls) := by
  have hi := reconcileInit_appends env now k a p h hk
  simp only [stageInit]
  repeat' split
  all_goals
    try simp only [Step.Holds, Pass.ret_calls, Pass.markTrue_calls]
    exact hi

theorem stageUpdate_appends (k : Nat) (a : List Call) (p : Pass) (h : Appends k a p.calls) :
    (stageUpdate p).Holds (fun r => Appends k a r.pass.calls)
      (fun q => Appends k a q.calls) := by
  simp only [stageUpdate, reconcileUpdate]
  repeat' split
  all_goals
    try simp only [Step.Holds, Pass.ret_calls]
    exact h

theorem stageUpgrade_appends (k : Nat) (a : List Call) (p : Pass) (h : Appends k a p.calls) :
    (stageUpgrade p).Holds (fun r => Appends k a r.pass.calls)
      (fun q => Appends k a q.calls) := by
  simp only [stageUpgrade, reconcileUpgrade]
  repeat' split
  all_goals
    try simp only [Step.Holds, Pass.ret_calls]
    exact h

theorem stageAPI_appends (env : Env) (now : Nat) (k : Nat) (a : List Call) (p : Pass)
    (h : Appends k a p.calls) (hk : 8 ≤ k) :
    (stageAPI env now p).Holds (fun r => Appends k a r.pass.calls) (fun q => Appends k a q.calls) := by
  simp only [stageAPI]
  repeat' split
  all_goals
    try simp only [Step.Holds, Pass.ret_calls, Pass.call_calls, Pass.setCond_calls,
      Pass.markTrue_calls, Pass.putHash_calls, Pass.setTransportURLSecret_calls,
      Pass.setDatabaseHostname_calls, Pass.setOctaviaAPIReadyCount_calls,
      Pass.setOctaviaHealthManagerReadyCount_calls,
      Pass.setOctaviaHousekeepingReadyCount_calls, Pass.setOctaviaWorkerReadyCount_calls,
      Pass.setObservedGeneration_calls, Pass.setHashMap_calls,
      createHashOfInputHashes_calls]
    repeat (first
      | exact h
      | (refine Appends.add ?_ ?_ ?_ <;>
          [skip; (simp; done); (first | (simp; done) | (simp; omega))]))

theorem stageManagementNetwork_appends (env : Env) (k : Nat) (a : List Call) (p : Pass)
    (h : Appends k a p.calls) (hk : 9 ≤ k) :
    (stageManagementNetwork env p).Holds (fun r => Appends k a r.pass.calls) (fun q => Appends k a q.calls) := by
  simp only [stageManagementNetwork]
  repeat' split
  all_goals
    try simp only [Step.Holds, Pass.ret_calls, Pass.call_calls, Pass.setCond_calls,
      Pass.markTrue_calls, Pass.putHash_calls, Pass.setTransportURLSecret_calls,
      Pass.setDatabaseHostname_calls, Pass.setOctaviaAPIReadyCount_calls,
      Pass.setOctaviaHealthManagerReadyCount_calls,
      Pass.setOctaviaHousekeepingReadyCount_calls, Pass.setOctaviaWorkerReadyCount_calls,
      Pass.setObservedGeneration_calls, Pass.setHashMap_calls,
      createHashOfInputHashes_calls]
    repeat (first
      | exact h
      | (refine Appends.add ?_ ?_ ?_ <;>
          [skip; (simp; done); (first | (simp; done) | (simp; omega))]))

theorem stageHealthManager_appends (env : Env) (now : Nat) (k : Nat) (a : List Call) (p : Pass)
    (h : Appends k a p.calls) (hk : 10 ≤ k) :
    (stageHealthManager env now p).Holds (fun r => Appends k a r.pass.calls) (fun q => Appends k a q.calls) := by
  simp only [stageHealthManager]
  repeat' split
  all_goals
    try simp only [Step.Holds, Pass.ret_calls, Pass.call_calls, Pass.setCond_calls,
      Pass.markTrue_calls, Pass.putHash_calls, Pass.setTransportURLSecret_calls,
      Pass.setDatabaseHostname_calls, Pass.setOctaviaAPIReadyCount_calls,
      Pass.setOctaviaHealthManagerReadyCount_calls,
      Pass.setOctaviaHousekeepingReadyCount_calls, Pass.setOctaviaWorkerReadyCount_calls,
      Pass.setObservedGeneration_calls, Pass.setHashMap_calls,
      createHashOfInputHashes_calls]
    repeat (first
      | exact h
      | (refine Appends.add ?_ ?_ ?_ <;>
          [skip; (simp; done); (first | (simp; done) | (simp; omega))]))

theorem stageHousekeeping_appends (env : Env) (now : Nat) (k : Nat) (a : List Call) (p : Pass)
    (h : Appends k a p.calls) (hk : 11 ≤ k) :
    (stageHousekeeping env now p).Holds (fun r => Appends k a r.pass.calls) (fun q => Appends k a q.calls) := by
  simp only [stageHousekeeping]
  repeat' split
  all_goals
    try simp only [Step.Holds, Pass.ret_calls, Pass.call_calls, Pass.setCond_calls,
      Pass.markTrue_calls, Pass.putHash_calls, Pass.setTransportURLSecret_calls,
      Pass.setDatabaseHostname_calls, Pass.setOctaviaAPIReadyCount_calls,
      Pass.setOctaviaHealthManagerReadyCount_calls,
      Pass.setOctaviaHousekeepingReadyCount_calls, Pass.setOctaviaWorkerReadyCount_calls,
      Pass.setObservedGeneration_calls, Pass.setHashMap_calls,
      createHashOfInputHashes_calls]
    repeat (first
      | exact h
      | (refine Appends.add ?_ ?_ ?_ <;>
          [skip; (simp; done); (first | (simp; done) | (simp; omega))]))

theorem stageWorker_appends (env : Env) (now : Nat) (k : Nat) (a : List Call) (p : Pass)
    (h : Appends k a p.calls) (hk : 11 ≤ k) :
    (stageWorker env now p).Holds (fun r => Appends k a r.pass.calls) (fun q => Appends k a q.calls) := by
  simp only [stageWorker]
  repeat' split
  all_goals
    try simp only [Step.Holds, Pass.ret_calls, Pass.call_calls, Pass.setCond_calls,
      Pass.markTrue_calls, Pass.putHash_calls, Pass.setTransportURLSecret_calls,
      Pass.setDatabaseHostname_calls, Pass.setOctaviaAPIReadyCount_calls,
      Pass.setOctaviaHealthManagerReadyCount_calls,
      Pass.setOctaviaHousekeepingReadyCount_calls, Pass.setOctaviaWorkerReadyCount_calls,
      Pass.setObservedGeneration_calls, Pass.setHashMap_calls,
      createHashOfInputHashes_calls]
    repeat (first
      | exact h
      | (refine Appends.add ?_ ?_ ?_ <;>
          [skip; (simp; done); (first | (simp; done) | (simp; omega))]))

theorem stageAccountsSSH_appends (env : Env) (k : Nat) (a : List Call) (p : Pass)
    (h : Appends k a p.calls) (hk : 12 ≤ k) :
    (stageAccountsSSH env p).Holds (fun r => Appends k a r.pass.calls) (fun q => Appends k a q.calls) := by
  simp only [stageAccountsSSH]
  repeat' split
  all_goals
    try simp only [Step.Holds, Pass.ret_calls, Pass.call_calls, Pass.setCond_calls,
      Pass.markTrue_calls, Pass.putHash_calls, Pass.setTransportURLSecret_calls,
      Pass.setDatabaseHostname_calls, Pass.setOctaviaAPIReadyCount_calls,
      Pass.setOctaviaHealthManagerReadyCount_calls,
      Pass.setOctaviaHousekeepingReadyCount_calls, Pass.setOctaviaWorkerReadyCount_calls,
      Pass.setObservedGeneration_calls, Pass.setHashMap_calls,
      createHashOfInputHashes_calls]
    repeat (first
      | exact h
      | (refine Appends.add ?_ ?_ ?_ <;>
          [skip; (simp; done); (first | (simp; done) | (simp; omega))]))

theorem stageAmphoraImages_appends (env : Env) (now : Nat) (k : Nat) (a : List Call)
    (p : Pass) (h : Appends k a p.calls) (hk : 13 ≤ k) :
    (stageAmphoraImages env now p).Holds (fun r => Appends k a r.pass.calls)
      (fun q => Appends k a q.calls) := by
  have hi := reconcileAmphoraImages_appends env now k a p h hk
  simp only [stageAmphoraImages]
  repeat' split
  all_goals
    try simp only [Step.Holds, Pass.ret_calls]
    exact hi

theorem stageReady_appends (now : Nat) (k : Nat) (a : List Call) (p : Pass)
    (h : Appends k a p.calls) : Appends k a (stageReady now p).pass.calls := by
  simp only [stageReady]
  repeat' split
  all_goals
    try simp only [Pass.ret_calls, Pass.markTrue_calls, Pass.setObservedGeneration_calls]
    exact h

/-- The stages of `reconcileNormal` before the API deployment add calls of rank at
most 7. -/
theorem reconcileNormal_before_API_appends (env : Env) (now : Nat) (a : List Call) (p : Pass)
    (h : Appends 7 a p.calls) :
    (stageRbac env p
      |>.bind (stageTransportURL env now)
      |>.bind (stageCertsQuotas env now)
      |>.bind (stageNetworkAttachments env now)
      |>.bind (stageInit env now)
      |>.bind stageUpdate
      |>.bind stageUpgrade).Holds (fun r => Appends 7 a r.pass.calls)
        (fun q => Appends 7 a q.calls) := by
  refine Step.Holds.bindStep ?_ (fun q hq => stageUpgrade_appends 7 a q hq)
  refine Step.Holds.bindStep ?_ (fun q hq => stageUpdate_appends 7 a q hq)
  refine Step.Holds.bindStep ?_ (fun q hq => stageInit_appends env now 7 a q hq (by decide))
  refine Step.Holds.bindStep ?_
    (fun q hq => stageNetworkAttachments_appends env now 7 a q hq (by decide))
  refine Step.Holds.bindStep ?_ (fun q hq => stageCertsQuotas_appends env now 7 a q hq (by decide))
  refine Step.Holds.bindStep ?_ (fun q hq => stageTransportURL_appends env now 7 a q hq (by decide))
  exact stageRbac_appends env 7 a p h (by decide)

theorem reconcileNormalAPI_appends (env : Env) (now : Nat) (k : Nat) (a : List Call) (p : Pass)
    (h : Appends k a p.calls) (hk : 8 ≤ k) :
    (reconcileNormalAPI env now p).Holds (fun r => Appends k a r.pass.calls)
      (fun q => Appends k a q.calls) := by
  unfold reconcileNormalAPI
  refine Step.Holds.bindStep ?_ (fun q hq => stageAPI_appends env now k a q hq hk)
  refine Step.Holds.bindStep ?_ (fun q hq => stageUpgrade_appends k a q hq)
  refine Step.Holds.bindStep ?_ (fun q hq => stageUpdate_appends k a q hq)
  refine Step.Holds.bindStep ?_ (fun q hq => stageInit_appends env now k a q hq (by omega))
  refine Step.Holds.bindStep ?_
    (fun q hq => stageNetworkAttachments_appends env now k a q hq (by omega))
  refine Step.Holds.bindStep ?_ (fun q hq => stageCertsQuotas_appends env now k a q hq (by omega))
  refine Step.Holds.bindStep ?_ (fun q hq => stageTransportURL_appends env now k a q hq (by omega))
  exact stageRbac_appends env k a p h (by omega)

theorem reconcileNormalAmphora_appends (env : Env) (now : Nat) (a : List Call) (p : Pass)
    (h : Appends 13 a p.calls) :
    Appends 13 a (reconcileNormalAmphora env now p).pass.calls := by
  unfold reconcileNormalAmphora
  refine Step.Holds.finish (S := fun r => Appends 13 a r.pass.calls)
    (N := fun q => Appends 13 a q.calls) ?_ (fun q hq => stageReady_appends now 13 a q hq)
  refine Step.Holds.bindStep ?_
    (fun q hq => stageAmphoraImages_appends env now 13 a q hq (by decide))
  refine Step.Holds.bindStep ?_ (fun q hq => stageAccountsSSH_appends env 13 a q hq (by decide))
  refine Step.Holds.bindStep ?_ (fun q hq => stageWorker_appends env now 13 a q hq (by decide))
  refine Step.Holds.bindStep ?_
    (fun q hq => stageHousekeeping_appends env now 13 a q hq (by decide))
  refine Step.Holds.bindStep ?_
    (fun q hq => stageHealthManager_appends env now 13 a q hq (by decide))
  exact stageManagementNetwork_appends env 13 a p h (by decide)

theorem reconcileNormal_appends (env : Env) (now : Nat) (p : Pass) :
    Appends 13 p.calls (reconcileNormal env now p).pass.calls := by
  unfold reconcileNormal
  refine Step.Holds.finish (S := fun r => Appends 13 p.calls r.pass.calls)
    (N := fun q => Appends 13 p.calls q.calls) ?_
    (fun q hq => reconcileNormalAmphora_appends env now p.calls q hq)
  exact reconcileNormalAPI_appends env now 13 p.calls p (Appends.refl 13 p.calls) (by decide)


/-! ## The status patch on the way out of `Reconcile` -/

theorem deferredPatch_result (env : Env) (now : Nat) (saved : List Condition) (r : Ret) :
    (deferredPatch env now saved r).result = r.result := by
  unfold deferredPatch
  cases env.PatchInstance <;> rfl

theorem deferredPatch_err (env : Env) (now : Nat) (saved : List Condition) (r : Ret) :
    (deferredPatch env now saved r).err
      = match env.PatchInstance with
        | some e => some e
        | none => r.err := by
  unfold deferredPatch
  cases env.PatchInstance <;> rfl

theorem deferredPatch_patched (env : Env) (now : Nat) (saved : List Condition) (r : Ret) :
    ∃ i, (deferredPatch env now saved r).patched = some i ∧
      i.Finalizers = r.pass.inst.Finalizers ∧ i.Spec = r.pass.inst.Spec := by
  unfold deferredPatch
  cases env.PatchInstance <;> exact ⟨_, rfl, rfl, rfl⟩

theorem reconcileDelete_no_patch (env : Env) (p : Pass) (h : Call.PatchInstance ∉ p.calls) :
    Call.PatchInstance ∉ (reconcileDelete env p).pass.calls := by
  simp only [reconcileDelete]
  repeat' split
  all_goals simp [Pass.removeFinalizer, Pass.ret, Pass.call, h]

theorem reconcileNormal_no_patch (env : Env) (now : Nat) (p : Pass)
    (h : Call.PatchInstance ∉ p.calls) :
    Call.PatchInstance ∉ (reconcileNormal env now p).pass.calls :=
  (reconcileNormal_appends env now p).excludes h (Or.inl rfl)

theorem dispatch_no_patch (env : Env) (now : Nat) (isNewInstance : Bool) (inst : Octavia) :
    Call.PatchInstance ∉ (dispatch env now isNewInstance inst).pass.calls := by
  simp only [dispatch]
  repeat' split
  all_goals first
    | (simp only [Pass.ret_calls]
       first
         | (apply reconcileDelete_no_patch; simp)
         | (apply reconcileNormal_no_patch; simp)
         | simp)

theorem Reconcile_eq_deferredPatch (env : Env) (now : Nat) (inst : Octavia)
    (hget : env.ClientGet = .ok inst) (hhelper : env.NewHelper = none) :
    Reconcile env now = deferredPatch env now inst.Status.Conditions
      (dispatch env now inst.Status.Conditions.isEmpty inst) := by
  simp only [Reconcile, hget, hhelper]

theorem deferredPatch_patched_eq (env : Env) (now : Nat) (saved : List Condition) (r : Ret) :
    (deferredPatch env now saved r).patched = some
      { r.pass.inst with Status := { r.pass.inst.Status with
          Conditions :=
            condition.RestoreLastTransitionTimes r.pass.inst.Status.Conditions saved } } := by
  unfold deferredPatch
  have hmir : ∀ conds : List Condition,
      (if condition.IsUnknown conds condition.ReadyCondition = true then
        match condition.Mirror conds condition.ReadyCondition with
        | some c => condition.Set now conds c
        | none => conds
      else conds) = conds := by
    intro conds
    split
    · cases hg : condition.Mirror conds condition.ReadyCondition with
      | none => rfl
      | some c => exact Set_of_Get now conds _ c hg
    · rfl
  simp only [hmir]
  cases env.PatchInstance <;> rfl

/-- C23: when the instance is fetched and the helper is built, whatever the
statements after that do (early return at line 202, deletion cascade, normal
pipeline), `Reconcile` calls PatchInstance exactly once, as its last call; the
instance it hands over is the one those statements leave (finalizers, spec, hash map,
ready counts, hostname, observed generation and all), its conditions carrying the
transition times restored from the conditions saved at the start; it returns their
result; its error is the error of PatchInstance if the patch fails and their error if
the patch succeeds. -/
theorem Reconcile_patches_once (env : Env) (now : Nat) (inst : Octavia)
    (hget : env.ClientGet = .ok inst) (hhelper : env.NewHelper = none) :
    (Reconcile env now).calls.count Call.PatchInstance = 1 ∧
      (Reconcile env now).calls
        = (dispatch env now inst.Status.Conditions.isEmpty inst).pass.calls
            ++ [Call.PatchInstance] ∧
      (Reconcile env now).patched.isSome = true ∧
      (Reconcile env now).returns
        = (dispatch env now inst.Status.Conditions.isEmpty inst).pass.returns ∧
      (Reconcile env now).result
        = (dispatch env now inst.Status.Conditions.isEmpty inst).result ∧
      (∀ e, env.PatchInstance = some e → (Reconcile env now).err = some e) ∧
      (env.PatchInstance = none →
        (Reconcile env now).err
          = (dispatch env now inst.Status.Conditions.isEmpty inst).err) ∧
      (Reconcile env now).patched = some
        { (dispatch env now inst.Status.Conditions.isEmpty inst).pass.inst with
          Status :=
            { (dispatch env now inst.Status.Conditions.isEmpty inst).pass.inst.Status with
              Conditions := condition.RestoreLastTransitionTimes
                (dispatch env now inst.Status.Conditions.isEmpty inst).pass.inst.Status.Conditions
                inst.Status.Conditions } } := by
  rw [Reconcile_eq_deferredPatch env now inst hget hhelper]
  have hno := dispatch_no_patch env now inst.Status.Conditions.isEmpty inst
  obtain ⟨i, hi, _⟩ := deferredPatch_patched env now inst.Status.Conditions
    (dispatch env now inst.Status.Conditions.isEmpty inst)
  refine ⟨?_, deferredPatch_calls _ _ _ _, ?_, deferredPatch_returns _ _ _ _,
    deferredPatch_result _ _ _ _, ?_, ?_, deferredPatch_patched_eq _ _ _ _⟩
  · rw [deferredPatch_calls, List.count_append, List.count_eq_zero.mpr hno]
    simp
  · rw [hi]; rfl
  · intro e he
    rw [deferredPatch_err, he]
  · intro he
    rw [deferredPatch_err, he]

/-- C23 at a concrete pass in which the normal pipeline returns at the barrier and
the status patch fails: the instance handed to PatchInstance carries the hash map,
the ready counts and the hostname the pipeline wrote. -/
theorem Reconcile_patches_once_witness :
    (Reconcile seenPatchFailEnv 5).calls.count Call.PatchInstance = 1 ∧
      (Reconcile seenPatchFailEnv 5).returns = [876, 429, 440, 451, 667, 215] ∧
      (Reconcile seenPatchFailEnv 5).err = some ⟨false, "conflict"⟩ ∧
      (Reconcile seenPatchFailEnv 5).patched.map
          (fun i => (i.Status.Hash, i.Status.OctaviaAPIReadyCount,
            i.Status.OctaviaHealthManagerReadyCount, i.Status.DatabaseHostname,
            i.Status.TransportURLSecret))
        = some ([("input", "inputhash"), ("dbsync", "jobhash")], 1, 2, "openstack.svc",
            "rabbitmq-transport-url") :=
  ⟨(Reconcile_patches_once seenPatchFailEnv 5 seenInstance rfl rfl).1, by decide,
   (Reconcile_patches_once seenPatchFailEnv 5 seenInstance rfl rfl).2.2.2.2.2.1 _ rfl,
   by decide⟩

/-! ## The finalizer -/

theorem reconcileDelete_Finalizers (env : Env) (p : Pass) :
    ∀ g ∈ (reconcileDelete env p).pass.inst.Finalizers, g ∈ p.inst.Finalizers := by
  simp only [reconcileDelete]
  repeat' split
  all_goals
    simp only [Pass.removeFinalizer, Pass.ret, Pass.call, controllerutil.RemoveFinalizer]
    intro g hg
    first
      | exact hg
      | exact (List.mem_filter.mp hg).1

/-- C24, the return is not always without error.  The instance is fetched, is not
being deleted and does not carry the finalizer; `Reconcile` adds it and returns at
line 202, and the status patch fails: the error of the patch is returned. -/
theorem Reconcile_add_finalizer_patch_fails :
    patchFailEnv.ClientGet = .ok unfinalizedInstance ∧
      unfinalizedInstance.DeletionTimestamp = none ∧
      patchFailEnv.GetFinalizer ∉ unfinalizedInstance.Finalizers ∧
      (Reconcile patchFailEnv 5).returns = [202] ∧
      (Reconcile patchFailEnv 5).result = Result.empty ∧
      (Reconcile patchFailEnv 5).err = some ⟨false, "conflict"⟩ := by
  refine ⟨rfl, rfl, ?_, ?_, ?_, ?_⟩ <;> decide

/-- C24, amended.  For an instance that is fetched and for which the helper is built:
if it is not being deleted and does not carry the finalizer of the controller,
`Reconcile` adds the finalizer, returns at line 202 without a call of any stage,
hands the instance with the finalizer to PatchInstance, and returns an empty result
and the error of that patch (none if it succeeds); if it is being deleted, the
instance handed to PatchInstance carries no finalizer the fetched instance did not
carry. -/
theorem Reconcile_adds_finalizer (env : Env) (now : Nat) (inst : Octavia)
    (hget : env.ClientGet = .ok inst) (hhelper : env.NewHelper = none) :
    (inst.DeletionTimestamp = none → env.GetFinalizer ∉ inst.Finalizers →
      (Reconcile env now).calls = [Call.ClientGet, Call.NewHelper, Call.PatchInstance] ∧
      (Reconcile env now).returns = [202] ∧
      (Reconcile env now).result = Result.empty ∧
      (Reconcile env now).err = env.PatchInstance ∧
      ∃ i, (Reconcile env now).patched = some i ∧
        i.Finalizers = inst.Finalizers ++ [env.GetFinalizer]) ∧
    (inst.DeletionTimestamp.isSome = true →
      ∃ i, (Reconcile env now).patched = some i ∧ ∀ g ∈ i.Finalizers, g ∈ inst.Finalizers) := by
  rw [Reconcile_eq_deferredPatch env now inst hget hhelper]
  refine ⟨fun hdel hfin => ?_, fun hdel => ?_⟩
  · have hd : dispatch env now inst.Status.Conditions.isEmpty inst =
        Pass.ret ⟨{ inst with
            Status := { inst.Status with
              Conditions := condition.Init now inst.Status.Conditions initialConditions },
            Finalizers := inst.Finalizers ++ [env.GetFinalizer] },
          [.ClientGet, .NewHelper], []⟩ Result.empty none 202 := by
      simp [dispatch, hdel, controllerutil.AddFinalizer, hfin]
    rw [hd]
    obtain ⟨i, hi, hf, _⟩ := deferredPatch_patched env now inst.Status.Conditions
      (Pass.ret ⟨{ inst with
            Status := { inst.Status with
              Conditions := condition.Init now inst.Status.Conditions initialConditions },
            Finalizers := inst.Finalizers ++ [env.GetFinalizer] },
          [.ClientGet, .NewHelper], []⟩ Result.empty none 202)
    refine ⟨?_, ?_, ?_, ?_, i, hi, hf⟩
    · rw [deferredPatch_calls]; rfl
    · rw [deferredPatch_returns]; rfl
    · rw [deferredPatch_result]; rfl
    · rw [deferredPatch_err]
      cases env.PatchInstance <;> rfl
  · obtain ⟨i, hi, hf, _⟩ := deferredPatch_patched env now inst.Status.Conditions
      (dispatch env now inst.Status.Conditions.isEmpty inst)
    refine ⟨i, hi, ?_⟩
    rw [hf, dispatch_deleted env now _ inst hdel]
    split
    · intro g hg; exact hg
    · intro g hg
      exact reconcileDelete_Finalizers env _ g hg

/-- C24, amended, at a concrete pass: the instance carries another finalizer only. -/
theorem Reconcile_adds_finalizer_witness :
    (Reconcile unfinalizedEnv 5).calls
        = [Call.ClientGet, Call.NewHelper, Call.PatchInstance] ∧
      (Reconcile unfinalizedEnv 5).returns = [202] ∧
      (Reconcile unfinalizedEnv 5).result = Result.empty ∧
      (Reconcile unfinalizedEnv 5).err = unfinalizedEnv.PatchInstance ∧
      ∃ i, (Reconcile unfinalizedEnv 5).patched = some i ∧
        i.Finalizers = unfinalizedInstance.Finalizers ++ [unfinalizedEnv.GetFinalizer] :=
  (Reconcile_adds_finalizer unfinalizedEnv 5 unfinalizedInstance rfl rfl).1 rfl (by decide)


/-! ## What the later stages leave untouched -/

theorem Step.Holds.imp {S S' : Ret → Prop} {N N' : Pass → Prop} {s : Step}
    (h : s.Holds S N) (hS : ∀ r, S r → S' r) (hN : ∀ p, N p → N' p) : s.Holds S' N' := by
  cases s with
  | stop r => exact hS r h
  | next p => exact hN p h

theorem Get_Set_False_other (now : Nat) (conds : List Condition) (t r s f : String)
    (args : List String) (T : String) (h : t ≠ T) :
    condition.Get (condition.Set now conds (condition.FalseCondition t r s f args)) T
      = condition.Get conds T :=
  Get_Set_other now conds _ T h

theorem Get_Set_True_other (now : Nat) (conds : List Condition) (t m : String) (T : String)
    (h : t ≠ T) :
    condition.Get (condition.Set now conds (condition.TrueCondition t m)) T
      = condition.Get conds T :=
  Get_Set_other now conds _ T h

theorem Get_Set_mirrored_other (now : Nat) (conds : List Condition) {child : List Condition}
    {t : String} {c : Condition} (hm : condition.Mirror child t = some c) (T : String)
    (h : t ≠ T) :
    condition.Get (condition.Set now conds c) T = condition.Get conds T :=
  Get_Set_other now conds c T (by rw [Mirror_type hm]; exact h)

@[simp] theorem Pass.setCond_HealthManagerReadyCount (p : Pass) (now : Nat) (c : Condition) :
    (p.setCond now c).inst.Status.OctaviaHealthManagerReadyCount
      = p.inst.Status.OctaviaHealthManagerReadyCount := rfl
@[simp] theorem Pass.markTrue_HealthManagerReadyCount (p : Pass) (now : Nat) (t m : String) :
    (p.markTrue now t m).inst.Status.OctaviaHealthManagerReadyCount
      = p.inst.Status.OctaviaHealthManagerReadyCount := rfl
@[simp] theorem Pass.putHash_HealthManagerReadyCount (p : Pass) (k v : String) :
    (p.putHash k v).inst.Status.OctaviaHealthManagerReadyCount
      = p.inst.Status.OctaviaHealthManagerReadyCount := rfl
@[simp] theorem Pass.setOctaviaHousekeepingReadyCount_HealthManagerReadyCount (p : Pass) (v : Int) :
    (p.setOctaviaHousekeepingReadyCount v).inst.Status.OctaviaHealthManagerReadyCount
      = p.inst.Status.OctaviaHealthManagerReadyCount := rfl
@[simp] theorem Pass.setOctaviaWorkerReadyCount_HealthManagerReadyCount (p : Pass) (v : Int) :
    (p.setOctaviaWorkerReadyCount v).inst.Status.OctaviaHealthManagerReadyCount
      = p.inst.Status.OctaviaHealthManagerReadyCount := rfl
@[simp] theorem Pass.setObservedGeneration_HealthManagerReadyCount (p : Pass) :
    p.setObservedGeneration.inst.Status.OctaviaHealthManagerReadyCount
      = p.inst.Status.OctaviaHealthManagerReadyCount := rfl
@[simp] theorem Pass.setOctaviaHealthManagerReadyCount_HealthManagerReadyCount (p : Pass)
    (v : Int) :
    (p.setOctaviaHealthManagerReadyCount v).inst.Status.OctaviaHealthManagerReadyCount = v := rfl

theorem stageManagementNetwork_cond (env : Env) (T : String) (X : Option Condition) (p : Pass)
    (h : condition.Get p.inst.Status.Conditions T = X) :
    (stageManagementNetwork env p).Holds (fun r => condition.Get r.pass.inst.Status.Conditions T = X)
      (fun q => condition.Get q.inst.Status.Conditions T = X) := by
  simp only [stageManagementNetwork]
  repeat' split
  all_goals simp [Step.Holds, Get_Set_False_other, Get_Set_True_other, h]

theorem stageHealthManager_cond (env : Env) (now : Nat) (T : String) (X : Option Condition) (p : Pass)
    (h0 : amphoraControllerReadyCondition octaviav1.HealthManager ≠ T)
    (h : condition.Get p.inst.Status.Conditions T = X) :
    (stageHealthManager env now p).Holds (fun r => condition.Get r.pass.inst.Status.Conditions T = X)
      (fun q => condition.Get q.inst.Status.Conditions T = X) := by
  simp only [stageHealthManager]
  repeat' split
  all_goals first
    | (simp [Step.Holds, Get_Set_False_other, Get_Set_True_other, h0, h]; done)
    | (rename_i hm
       simp [Step.Holds, Get_Set_mirrored_other now _ hm T h0, h])

theorem stageHousekeeping_cond (env : Env) (now : Nat) (T : String) (X : Option Condition) (p : Pass)
    (h0 : amphoraControllerReadyCondition octaviav1.Housekeeping ≠ T)
    (h : condition.Get p.inst.Status.Conditions T = X) :
    (stageHousekeeping env now p).Holds (fun r => condition.Get r.pass.inst.Status.Conditions T = X)
      (fun q => condition.Get q.inst.Status.Conditions T = X) := by
  simp only [stageHousekeeping]
  repeat' split
  all_goals first
    | (simp [Step.Holds, Get_Set_False_other, Get_Set_True_other, h0, h]; done)
    | (rename_i hm
       simp [Step.Holds, Get_Set_mirrored_other now _ hm T h0, h])

theorem stageWorker_cond (env : Env) (now : Nat) (T : String) (X : Option Condition) (p : Pass)
    (h0 : amphoraControllerReadyCondition octaviav1.Worker ≠ T)
    (h : condition.Get p.inst.Status.Conditions T = X) :
    (stageWorker env now p).Holds (fun r => condition.Get r.pass.inst.Status.Conditions T = X)
      (fun q => condition.Get q.inst.Status.Conditions T = X) := by
  simp only [stageWorker]
  repeat' split
  all_goals first
    | (simp [Step.Holds, Get_Set_False_other, Get_Set_True_other, h0, h]; done)
    | (rename_i hm
       simp [Step.Holds, Get_Set_mirrored_other now _ hm T h0, h])

theorem stageAccountsSSH_cond (env : Env) (T : String) (X : Option Condition) (p : Pass)
    (h : condition.Get p.inst.Status.Conditions T = X) :
    (stageAccountsSSH env p).Holds (fun r => condition.Get r.pass.inst.Status.Conditions T = X)
      (fun q => condition.Get q.inst.Status.Conditions T = X) := by
  simp only [stageAccountsSSH]
  repeat' split
  all_goals simp [Step.Holds, Get_Set_False_other, Get_Set_True_other, h]

theorem reconcileAmphoraImages_cond (env : Env) (now : Nat) (T : String) (p : Pass)
    (h0 : condition.DeploymentReadyCondition ≠ T)
    (h1 : condition.ExposeServiceReadyCondition ≠ T) :
    condition.Get (reconcileAmphoraImages env now p).pass.inst.Status.Conditions T
      = condition.Get p.inst.Status.Conditions T := by
  simp only [reconcileAmphoraImages]
  repeat' split
  all_goals simp [Get_Set_False_other, Get_Set_True_other, h0, h1]

theorem stageAmphoraImages_cond (env : Env) (now : Nat) (T : String) (X : Option Condition)
    (p : Pass) (h0 : condition.DeploymentReadyCondition ≠ T)
    (h1 : condition.ExposeServiceReadyCondition ≠ T)
    (h : condition.Get p.inst.Status.Conditions T = X) :
    (stageAmphoraImages env now p).Holds (fun r => condition.Get r.pass.inst.Status.Conditions T = X)
      (fun q => condition.Get q.inst.Status.Conditions T = X) := by
  have hi := reconcileAmphoraImages_cond env now T p h0 h1
  simp only [stageAmphoraImages]
  repeat' split
  all_goals simp [Step.Holds, hi, h]

theorem stageReady_cond (now : Nat) (T : String) (p : Pass)
    (h0 : condition.ReadyCondition ≠ T) :
    condition.Get (stageReady now p).pass.inst.Status.Conditions T
      = condition.Get p.inst.Status.Conditions T := by
  simp only [stageReady]
  repeat' split
  all_goals simp [Get_Set_True_other, h0]

theorem stageHousekeeping_keeps_count (env : Env) (now : Nat) (n : Int) (p : Pass)
    (h : p.inst.Status.OctaviaHealthManagerReadyCount = n) :
    (stageHousekeeping env now p).Holds (fun r => r.pass.inst.Status.OctaviaHealthManagerReadyCount = n)
      (fun q => q.inst.Status.OctaviaHealthManagerReadyCount = n) := by
  simp only [stageHousekeeping]
  repeat' split
  all_goals simp [Step.Holds, h]

theorem stageWorker_keeps_count (env : Env) (now : Nat) (n : Int) (p : Pass)
    (h : p.inst.Status.OctaviaHealthManagerReadyCount = n) :
    (stageWorker env now p).Holds (fun r => r.pass.inst.Status.OctaviaHealthManagerReadyCount = n)
      (fun q => q.inst.Status.OctaviaHealthManagerReadyCount = n) := by
  simp only [stageWorker]
  repeat' split
  all_goals simp [Step.Holds, h]

theorem stageAccountsSSH_keeps_count (env : Env) (n : Int) (p : Pass)
    (h : p.inst.Status.OctaviaHealthManagerReadyCount = n) :
    (stageAccountsSSH env p).Holds (fun r => r.pass.inst.Status.OctaviaHealthManagerReadyCount = n)
      (fun q => q.inst.Status.OctaviaHealthManagerReadyCount = n) := by
  simp only [stageAccountsSSH]
  repeat' split
  all_goals simp [Step.Holds, h]

theorem reconcileAmphoraImages_keeps_count (env : Env) (now : Nat) (p : Pass) :
    (reconcileAmphoraImages env now p).pass.inst.Status.OctaviaHealthManagerReadyCount
      = p.inst.Status.OctaviaHealthManagerReadyCount := by
  simp only [reconcileAmphoraImages]
  repeat' split
  all_goals simp

theorem stageAmphoraImages_keeps_count (env : Env) (now : Nat) (n : Int) (p : Pass)
    (h : p.inst.Status.OctaviaHealthManagerReadyCount = n) :
    (stageAmphoraImages env now p).Holds
      (fun r => r.pass.inst.Status.OctaviaHealthManagerReadyCount = n)
      (fun q => q.inst.Status.OctaviaHealthManagerReadyCount = n) := by
  have hi := reconcileAmphoraImages_keeps_count env now p
  simp only [stageAmphoraImages]
  repeat' split
  all_goals simp [Step.Holds, hi, h]

theorem stageReady_keeps_count (now : Nat) (p : Pass) :
    (stageReady now p).pass.inst.Status.OctaviaHealthManagerReadyCount
      = p.inst.Status.OctaviaHealthManagerReadyCount := by
  simp only [stageReady]
  repeat' split
  all_goals simp


/-! ## The open barrier -/

theorem stageHealthManager_observed (env : Env) (now : Nat) (p : Pass)
    (hm : OctaviaAmphoraControllerStatus)
    (hobs : env.amphoraControllerDaemonSetCreateOrUpdate octaviav1.HealthManager = .ok hm) :
    ∃ q : Pass,
      q.calls = p.calls ++ [Call.amphoraControllerDaemonSetCreateOrUpdate octaviav1.HealthManager] ∧
      q.inst.Status.OctaviaHealthManagerReadyCount = hm.ReadyCount ∧
      stageHealthManager env now p =
        if hm.ReadyCount ≠ hm.DesiredNumberScheduled then .stop (q.ret Result.empty none 667)
        else .next q := by
  simp only [stageHealthManager, hobs]
  cases hmir : condition.Mirror hm.Conditions
      (amphoraControllerReadyCondition octaviav1.HealthManager) with
  | none => exact ⟨_, by simp, by simp, rfl⟩
  | some c => exact ⟨_, by simp, by simp, rfl⟩

theorem stageHousekeeping_calls (env : Env) (now : Nat) (p : Pass) :
    (stageHousekeeping env now p).pass.calls
      = p.calls ++ [Call.amphoraControllerDaemonSetCreateOrUpdate octaviav1.Housekeeping] := by
  simp only [stageHousekeeping]
  repeat' split
  all_goals simp

theorem stageWorker_calls (env : Env) (now : Nat) (p : Pass) :
    (stageWorker env now p).pass.calls
      = p.calls ++ [Call.amphoraControllerDaemonSetCreateOrUpdate octaviav1.Worker] := by
  simp only [stageWorker]
  repeat' split
  all_goals simp

theorem stageHousekeeping_observed (env : Env) (now : Nat) (p : Pass)
    (hk : OctaviaAmphoraControllerStatus)
    (hobs : env.amphoraControllerDaemonSetCreateOrUpdate octaviav1.Housekeeping = .ok hk) :
    ∃ q : Pass, stageHousekeeping env now p = .next q := by
  simp only [stageHousekeeping, hobs]
  cases hmir : condition.Mirror hk.Conditions
      (amphoraControllerReadyCondition octaviav1.Housekeeping) with
  | none => exact ⟨_, rfl⟩
  | some c => exact ⟨_, rfl⟩

/-- What follows the worker stage adds calls only. -/
theorem after_Worker_appends (env : Env) (now : Nat) (s : Step) :
    Appends 13 s.pass.calls
      (((s.bind (stageAccountsSSH env)).bind (stageAmphoraImages env now)).finish
        (stageReady now)).pass.calls := by
  cases s with
  | stop r => exact Appends.refl 13 _
  | next p =>
    simp only [Step.bind_next, Step.pass_next]
    refine Step.Holds.finish (S := fun r => Appends 13 p.calls r.pass.calls)
      (N := fun q => Appends 13 p.calls q.calls) ?_
      (fun q hq => stageReady_appends now 13 p.calls q hq)
    refine Step.Holds.bindStep ?_
      (fun q hq => stageAmphoraImages_appends env now 13 p.calls q hq (by decide))
    exact stageAccountsSSH_appends env 13 p.calls p (Appends.refl 13 _) (by decide)

/-- What follows the housekeeping stage adds calls only. -/
theorem after_Housekeeping_appends (env : Env) (now : Nat) (s : Step) :
    Appends 13 s.pass.calls
      ((((s.bind (stageWorker env now)).bind (stageAccountsSSH env)).bind
        (stageAmphoraImages env now)).finish (stageReady now)).pass.calls := by
  cases s with
  | stop r => exact Appends.refl 13 _
  | next p =>
    simp only [Step.bind_next, Step.pass_next]
    refine Step.Holds.finish (S := fun r => Appends 13 p.calls r.pass.calls)
      (N := fun q => Appends 13 p.calls q.calls) ?_
      (fun q hq => stageReady_appends now 13 p.calls q hq)
    refine Step.Holds.bindStep ?_
      (fun q hq => stageAmphoraImages_appends env now 13 p.calls q hq (by decide))
    refine Step.Holds.bindStep ?_
      (fun q hq => stageAccountsSSH_appends env 13 p.calls q hq (by decide))
    exact stageWorker_appends env now 13 p.calls p (Appends.refl 13 _) (by decide)

/-- What follows the health manager stage keeps the count copied from it. -/
theorem after_HealthManager_keeps_count (env : Env) (now : Nat) (p : Pass) :
    (((((stageHousekeeping env now p).bind (stageWorker env now)).bind
        (stageAccountsSSH env)).bind (stageAmphoraImages env now)).finish
        (stageReady now)).pass.inst.Status.OctaviaHealthManagerReadyCount
      = p.inst.Status.OctaviaHealthManagerReadyCount := by
  refine Step.Holds.finish
    (S := fun r => r.pass.inst.Status.OctaviaHealthManagerReadyCount
      = p.inst.Status.OctaviaHealthManagerReadyCount)
    (N := fun q => q.inst.Status.OctaviaHealthManagerReadyCount
      = p.inst.Status.OctaviaHealthManagerReadyCount) ?_
    (fun q hq => (stageReady_keeps_count now q).trans hq)
  refine Step.Holds.bindStep ?_ (fun q hq => stageAmphoraImages_keeps_count env now _ q hq)
  refine Step.Holds.bindStep ?_ (fun q hq => stageAccountsSSH_keeps_count env _ q hq)
  refine Step.Holds.bindStep ?_ (fun q hq => stageWorker_keeps_count env now _ q hq)
  exact stageHousekeeping_keeps_count env now _ p rfl

/-- C26: in a pass of `reconcileNormal` that upserts the health manager resource
without error, the parent status ends with the ready count observed on it, whether or
not the barrier opens; and when that count equals the desired count (zero and zero
included) the housekeeping upsert is attempted, and if it succeeds the worker upsert
is the next call after it. -/
theorem reconcileNormal_barrier_open (env : Env) (now : Nat) (inst : Octavia)
    (hm : OctaviaAmphoraControllerStatus)
    (hobs : env.amphoraControllerDaemonSetCreateOrUpdate octaviav1.HealthManager = .ok hm)
    (hcall : Call.amphoraControllerDaemonSetCreateOrUpdate octaviav1.HealthManager ∈
      (reconcileNormal env now ⟨inst, [], []⟩).pass.calls) :
    (reconcileNormal env now ⟨inst, [], []⟩).pass.inst.Status.OctaviaHealthManagerReadyCount
        = hm.ReadyCount ∧
      (hm.ReadyCount = hm.DesiredNumberScheduled →
        Call.amphoraControllerDaemonSetCreateOrUpdate octaviav1.Housekeeping ∈
          (reconcileNormal env now ⟨inst, [], []⟩).pass.calls ∧
        ∀ hk, env.amphoraControllerDaemonSetCreateOrUpdate octaviav1.Housekeeping = .ok hk →
          ∃ pre post, (reconcileNormal env now ⟨inst, [], []⟩).pass.calls
            = pre ++ [Call.amphoraControllerDaemonSetCreateOrUpdate octaviav1.Housekeeping,
                Call.amphoraControllerDaemonSetCreateOrUpdate octaviav1.Worker] ++ post) := by
  have hframe := reconcileNormalAPI_noUpsert env now ⟨inst, [], []⟩
  simp only [List.filter_nil] at hframe
  unfold reconcileNormal at hcall ⊢
  cases hapi : reconcileNormalAPI env now ⟨inst, [], []⟩ with
  | stop r =>
    rw [hapi] at hframe hcall
    exact absurd hcall (not_mem_of_filter_upserts hframe _)
  | next q =>
    rw [hapi] at hframe hcall
    simp only [Step.pass_next] at hframe
    simp only [Step.finish_next] at hcall ⊢
    unfold reconcileNormalAmphora stageManagementNetwork at hcall ⊢
    cases hnet : env.EnsureAmphoraManagementNetwork with
    | some err =>
      simp only [hnet, Step.bind_stop, Step.finish_stop, Pass.ret_calls, Pass.call_calls,
        List.mem_append, List.mem_singleton] at hcall
      rcases hcall with h | h
      · exact absurd h (not_mem_of_filter_upserts hframe _)
      · cases h
    | none =>
      simp only [hnet, Step.bind_next]
      obtain ⟨q1, hq1c, hq1n, hst⟩ := stageHealthManager_observed env now
        (q.call Call.EnsureAmphoraManagementNetwork) hm hobs
      rw [hst]
      by_cases hbar : hm.ReadyCount = hm.DesiredNumberScheduled
      · simp only [hbar, ne_eq, not_true_eq_false, if_false, Step.bind_next]
        refine ⟨?_, fun _ => ⟨?_, ?_⟩⟩
        · rw [after_HealthManager_keeps_count, hq1n, hbar]
        · obtain ⟨cs, hcs, _⟩ := after_Housekeeping_appends env now
            (stageHousekeeping env now q1)
          rw [hcs, stageHousekeeping_calls]
          simp
        · intro hk hhk
          obtain ⟨q2, hq2⟩ := stageHousekeeping_observed env now q1 hk hhk
          have hq2c := stageHousekeeping_calls env now q1
          rw [hq2] at hq2c ⊢
          simp only [Step.pass_next] at hq2c
          simp only [Step.bind_next]
          obtain ⟨cs, hcs, _⟩ := after_Worker_appends env now (stageWorker env now q2)
          rw [hcs, stageWorker_calls, hq2c]
          exact ⟨q1.calls, cs, by simp⟩
      · simp only [ne_eq, hbar, not_false_eq_true, if_true, Step.bind_stop, Step.finish_stop,
          Pass.ret_inst]
        exact ⟨hq1n, fun h => h.elim⟩

/-- C26 at a concrete pass: the health manager resource was just created, desired 0
and ready 0. -/
theorem reconcileNormal_barrier_open_witness :
    (reconcileNormal justCreatedEnv 5 ⟨sampleInstance, [], []⟩).pass.inst.Status.OctaviaHealthManagerReadyCount
        = 0 ∧
      Call.amphoraControllerDaemonSetCreateOrUpdate octaviav1.Housekeeping ∈
        (reconcileNormal justCreatedEnv 5 ⟨sampleInstance, [], []⟩).pass.calls ∧
      ∃ pre post, (reconcileNormal justCreatedEnv 5 ⟨sampleInstance, [], []⟩).pass.calls
        = pre ++ [Call.amphoraControllerDaemonSetCreateOrUpdate octaviav1.Housekeeping,
            Call.amphoraControllerDaemonSetCreateOrUpdate octaviav1.Worker] ++ post :=
  ⟨(reconcileNormal_barrier_open justCreatedEnv 5 sampleInstance ⟨0, 0, []⟩ rfl
      (by decide)).1,
   ((reconcileNormal_barrier_open justCreatedEnv 5 sampleInstance ⟨0, 0, []⟩ rfl
      (by decide)).2 rfl).1,
   ((reconcileNormal_barrier_open justCreatedEnv 5 sampleInstance ⟨0, 0, []⟩ rfl
      (by decide)).2 rfl).2 ⟨0, 0, []⟩ rfl⟩


/-! ## Mirrored conditions -/

theorem MirroredInto_congr {conds conds' child : List Condition} {T : String}
    (h : condition.Get conds' T = condition.Get conds T) (hm : MirroredInto conds child T) :
    MirroredInto conds' child T := by
  unfold MirroredInto at hm ⊢
  rw [h]
  exact hm

theorem MirroredInto_Set (now : Nat) (conds child : List Condition) (T : String) :
    MirroredInto
      (match condition.Mirror child T with
        | some c => condition.Set now conds c
        | none => condition.Set now conds
            (condition.TrueCondition T "condition.DeploymentReadyMessage"))
      child T := by
  unfold MirroredInto
  cases hmir : condition.Mirror child T with
  | none =>
    exact Get_Set_self now conds (condition.TrueCondition T "condition.DeploymentReadyMessage")
  | some c =>
    have ht := Mirror_type hmir
    show ∃ t, condition.Get (condition.Set now conds c) T
      = some { c with LastTransitionTime := t }
    rw [← ht]
    exact Get_Set_self now conds c

theorem Step.Holds.not_mem_of_appends {s : Step} {k : Nat} {a : List Call} {c : Call}
    (h : s.Holds (fun r => Appends k a r.pass.calls) (fun q => Appends k a q.calls))
    (ha : c ∉ a) (hc : k < c.rank) :
    s.Holds (fun r => c ∉ r.pass.calls) (fun q => c ∉ q.calls) :=
  h.imp (fun _ hr => hr.excludes ha (Or.inr hc)) (fun _ hq => hq.excludes ha (Or.inr hc))

theorem stageAPI_mirrors (env : Env) (now : Nat) (p : Pass) (api : OctaviaAPIStatus)
    (hobs : env.apiDeploymentCreateOrUpdate = .ok api) :
    ∃ q : Pass, stageAPI env now p = .next q ∧
      MirroredInto q.inst.Status.Conditions api.Conditions octaviav1.OctaviaAPIReadyCondition := by
  have hset := MirroredInto_Set now p.inst.Status.Conditions api.Conditions
    octaviav1.OctaviaAPIReadyCondition
  simp only [stageAPI, hobs]
  cases hmir : condition.Mirror api.Conditions octaviav1.OctaviaAPIReadyCondition with
  | none => rw [hmir] at hset; exact ⟨_, rfl, by simpa using hset⟩
  | some c => rw [hmir] at hset; exact ⟨_, rfl, by simpa using hset⟩

theorem stageHealthManager_mirrors (env : Env) (now : Nat) (p : Pass)
    (st : OctaviaAmphoraControllerStatus)
    (hobs : env.amphoraControllerDaemonSetCreateOrUpdate octaviav1.HealthManager = .ok st) :
    MirroredInto (stageHealthManager env now p).pass.inst.Status.Conditions st.Conditions
      (amphoraControllerReadyCondition octaviav1.HealthManager) := by
  have hset := MirroredInto_Set now p.inst.Status.Conditions st.Conditions
    (amphoraControllerReadyCondition octaviav1.HealthManager)
  simp only [stageHealthManager, hobs]
  cases hmir : condition.Mirror st.Conditions
      (amphoraControllerReadyCondition octaviav1.HealthManager) with
  | none => rw [hmir] at hset; split <;> simpa using hset
  | some c => rw [hmir] at hset; split <;> simpa using hset

theorem stageHousekeeping_mirrors (env : Env) (now : Nat) (p : Pass)
    (st : OctaviaAmphoraControllerStatus)
    (hobs : env.amphoraControllerDaemonSetCreateOrUpdate octaviav1.Housekeeping = .ok st) :
    MirroredInto (stageHousekeeping env now p).pass.inst.Status.Conditions st.Conditions
      (amphoraControllerReadyCondition octaviav1.Housekeeping) := by
  have hset := MirroredInto_Set now p.inst.Status.Conditions st.Conditions
    (amphoraControllerReadyCondition octaviav1.Housekeeping)
  simp only [stageHousekeeping, hobs]
  cases hmir : condition.Mirror st.Conditions
      (amphoraControllerReadyCondition octaviav1.Housekeeping) with
  | none => rw [hmir] at hset; simpa using hset
  | some c => rw [hmir] at hset; simpa using hset

theorem stageWorker_mirrors (env : Env) (now : Nat) (p : Pass)
    (st : OctaviaAmphoraControllerStatus)
    (hobs : env.amphoraControllerDaemonSetCreateOrUpdate octaviav1.Worker = .ok st) :
    MirroredInto (stageWorker env now p).pass.inst.Status.Conditions st.Conditions
      (amphoraControllerReadyCondition octaviav1.Worker) := by
  have hset := MirroredInto_Set now p.inst.Status.Conditions st.Conditions
    (amphoraControllerReadyCondition octaviav1.Worker)
  simp only [stageWorker, hobs]
  cases hmir : condition.Mirror st.Conditions
      (amphoraControllerReadyCondition octaviav1.Worker) with
  | none => rw [hmir] at hset; simpa using hset
  | some c => rw [hmir] at hset; simpa using hset

theorem after_Worker_cond (env : Env) (now : Nat) (T : String) (s : Step)
    (hD : condition.DeploymentReadyCondition ≠ T)
    (hE : condition.ExposeServiceReadyCondition ≠ T)
    (hR : condition.ReadyCondition ≠ T) :
    condition.Get (((s.bind (stageAccountsSSH env)).bind (stageAmphoraImages env now)).finish
        (stageReady now)).pass.inst.Status.Conditions T
      = condition.Get s.pass.inst.Status.Conditions T := by
  cases s with
  | stop r => rfl
  | next p =>
    simp only [Step.bind_next, Step.pass_next]
    refine Step.Holds.finish
      (S := fun r => condition.Get r.pass.inst.Status.Conditions T
        = condition.Get p.inst.Status.Conditions T)
      (N := fun q => condition.Get q.inst.Status.Conditions T
        = condition.Get p.inst.Status.Conditions T) ?_
      (fun q hq => (stageReady_cond now T q hR).trans hq)
    refine Step.Holds.bindStep ?_ (fun q hq => stageAmphoraImages_cond env now T _ q hD hE hq)
    exact stageAccountsSSH_cond env T _ p rfl

theorem after_Housekeeping_cond (env : Env) (now : Nat) (T : String) (s : Step)
    (hW : amphoraControllerReadyCondition octaviav1.Worker ≠ T)
    (hD : condition.DeploymentReadyCondition ≠ T)
    (hE : condition.ExposeServiceReadyCondition ≠ T)
    (hR : condition.ReadyCondition ≠ T) :
    condition.Get ((((s.bind (stageWorker env now)).bind (stageAccountsSSH env)).bind
        (stageAmphoraImages env now)).finish (stageReady now)).pass.inst.Status.Conditions T
      = condition.Get s.pass.inst.Status.Conditions T := by
  cases s with
  | stop r => rfl
  | next p =>
    simp only [Step.bind_next, Step.pass_next]
    rw [after_Worker_cond env now T _ hD hE hR]
    have := stageWorker_cond env now T _ p hW rfl
    cases hs : stageWorker env now p with
    | stop r => rw [hs] at this; exact this
    | next q => rw [hs] at this; exact this

theorem after_HealthManager_cond (env : Env) (now : Nat) (T : String) (s : Step)
    (hK : amphoraControllerReadyCondition octaviav1.Housekeeping ≠ T)
    (hW : amphoraControllerReadyCondition octaviav1.Worker ≠ T)
    (hD : condition.DeploymentReadyCondition ≠ T)
    (hE : condition.ExposeServiceReadyCondition ≠ T)
    (hR : condition.ReadyCondition ≠ T) :
    condition.Get (((((s.bind (stageHousekeeping env now)).bind (stageWorker env now)).bind
        (stageAccountsSSH env)).bind (stageAmphoraImages env now)).finish
        (stageReady now)).pass.inst.Status.Conditions T
      = condition.Get s.pass.inst.Status.Conditions T := by
  cases s with
  | stop r => rfl
  | next p =>
    simp only [Step.bind_next, Step.pass_next]
    rw [after_Housekeeping_cond env now T _ hW hD hE hR]
    have := stageHousekeeping_cond env now T _ p hK rfl
    cases hs : stageHousekeeping env now p with
    | stop r => rw [hs] at this; exact this
    | next q => rw [hs] at this; exact this

theorem reconcileNormalAmphora_cond (env : Env) (now : Nat) (T : String) (p : Pass)
    (hM : amphoraControllerReadyCondition octaviav1.HealthManager ≠ T)
    (hK : amphoraControllerReadyCondition octaviav1.Housekeeping ≠ T)
    (hW : amphoraControllerReadyCondition octaviav1.Worker ≠ T)
    (hD : condition.DeploymentReadyCondition ≠ T)
    (hE : condition.ExposeServiceReadyCondition ≠ T)
    (hR : condition.ReadyCondition ≠ T) :
    condition.Get (reconcileNormalAmphora env now p).pass.inst.Status.Conditions T
      = condition.Get p.inst.Status.Conditions T := by
  unfold reconcileNormalAmphora
  have h0 := stageManagementNetwork_cond env T _ p rfl
  cases hs0 : stageManagementNetwork env p with
  | stop r => rw [hs0] at h0; exact h0
  | next q =>
    rw [hs0] at h0
    simp only [Step.bind_next]
    rw [after_HealthManager_cond env now T _ hK hW hD hE hR]
    have h1 := stageHealthManager_cond env now T _ q hM h0
    cases hs1 : stageHealthManager env now q with
    | stop r => rw [hs1] at h1; exact h1
    | next q1 => rw [hs1] at h1; exact h1

/-- A pass of `reconcileNormal` either returns before the health manager stage,
having made calls of rank at most 9 only, or reaches that stage and is what that
stage and its successors make of the state reached. -/
theorem reconcileNormal_reaches_HealthManager (env : Env) (now : Nat) (p : Pass) :
    Appends 9 p.calls (reconcileNormal env now p).pass.calls ∨
      ∃ q : Pass, Appends 9 p.calls q.calls ∧
        reconcileNormal env now p =
          (((((stageHealthManager env now q).bind (stageHousekeeping env now)).bind
            (stageWorker env now)).bind (stageAccountsSSH env)).bind
            (stageAmphoraImages env now)).finish (stageReady now) := by
  have hapi := reconcileNormalAPI_appends env now 9 p.calls p (Appends.refl 9 _) (by decide)
  unfold reconcileNormal
  cases hs : reconcileNormalAPI env now p with
  | stop r => rw [hs] at hapi; exact Or.inl hapi
  | next q =>
    rw [hs] at hapi
    simp only [Step.finish_next]
    have hnet := stageManagementNetwork_appends env 9 p.calls q hapi (by decide)
    unfold reconcileNormalAmphora
    cases hs1 : stageManagementNetwork env q with
    | stop r => rw [hs1] at hnet; exact Or.inl hnet
    | next q1 => rw [hs1] at hnet; exact Or.inr ⟨q1, hnet, rfl⟩

/-- C22: in a pass of `reconcileNormal` that upserts the API resource, or the
resource of a role controller, without error, the condition of the parent under the
ready-condition type of that child ends as the mirror of the child's ledger gives it:
the mirrored condition if there is one, the True condition with the deployment
message if there is none (`Set` stamps the transition time). -/
theorem reconcileNormal_mirrors (env : Env) (now : Nat) (inst : Octavia) :
    (∀ api, env.apiDeploymentCreateOrUpdate = .ok api →
      Call.apiDeploymentCreateOrUpdate ∈ (reconcileNormal env now ⟨inst, [], []⟩).pass.calls →
      MirroredInto (reconcileNormal env now ⟨inst, [], []⟩).pass.inst.Status.Conditions
        api.Conditions octaviav1.OctaviaAPIReadyCondition) ∧
    (∀ st, env.amphoraControllerDaemonSetCreateOrUpdate octaviav1.HealthManager = .ok st →
      Call.amphoraControllerDaemonSetCreateOrUpdate octaviav1.HealthManager ∈
        (reconcileNormal env now ⟨inst, [], []⟩).pass.calls →
      MirroredInto (reconcileNormal env now ⟨inst, [], []⟩).pass.inst.Status.Conditions
        st.Conditions (amphoraControllerReadyCondition octaviav1.HealthManager)) ∧
    (∀ st, env.amphoraControllerDaemonSetCreateOrUpdate octaviav1.Housekeeping = .ok st →
      Call.amphoraControllerDaemonSetCreateOrUpdate octaviav1.Housekeeping ∈
        (reconcileNormal env now ⟨inst, [], []⟩).pass.calls →
      MirroredInto (reconcileNormal env now ⟨inst, [], []⟩).pass.inst.Status.Conditions
        st.Conditions (amphoraControllerReadyCondition octaviav1.Housekeeping)) ∧
    (∀ st, env.amphoraControllerDaemonSetCreateOrUpdate octaviav1.Worker = .ok st →
      Call.amphoraControllerDaemonSetCreateOrUpdate octaviav1.Worker ∈
        (reconcileNormal env now ⟨inst, [], []⟩).pass.calls →
      MirroredInto (reconcileNormal env now ⟨inst, [], []⟩).pass.inst.Status.Conditions
        st.Conditions (amphoraControllerReadyCondition octaviav1.Worker)) := by
  refine ⟨?_, ?_, ?_, ?_⟩
  · -- the API resource
    intro api hobs hcall
    have hpre := reconcileNormal_before_API_appends env now [] ⟨inst, [], []⟩ (Appends.refl 7 [])
    unfold reconcileNormal reconcileNormalAPI at hcall ⊢
    cases hs : (((((((stageRbac env ⟨inst, [], []⟩).bind (stageTransportURL env now)).bind
        (stageCertsQuotas env now)).bind (stageNetworkAttachments env now)).bind
        (stageInit env now)).bind stageUpdate).bind stageUpgrade) with
    | stop r =>
      rw [hs] at hpre hcall
      simp only [Step.bind_stop, Step.finish_stop] at hcall
      exact absurd hcall (Appends.excludes hpre (by simp) (Or.inr (by simp)))
    | next q =>
      simp only [Step.bind_next]
      obtain ⟨q1, hq1, hm⟩ := stageAPI_mirrors env now q api hobs
      rw [hq1]
      simp only [Step.finish_next]
      exact MirroredInto_congr
        (reconcileNormalAmphora_cond env now _ q1 (by decide) (by decide) (by decide)
          (by decide) (by decide) (by decide)) hm
  · -- the health manager
    intro st hobs hcall
    rcases reconcileNormal_reaches_HealthManager env now ⟨inst, [], []⟩ with h | ⟨q, _, hq⟩
    · exact absurd hcall (Appends.excludes h (by simp) (Or.inr (by simp)))
    · rw [hq]
      exact MirroredInto_congr
        (after_HealthManager_cond env now _ _ (by decide) (by decide) (by decide) (by decide)
          (by decide))
        (stageHealthManager_mirrors env now q st hobs)
  · -- housekeeping
    intro st hobs hcall
    rcases reconcileNormal_reaches_HealthManager env now ⟨inst, [], []⟩ with h | ⟨q, hqa, hq⟩
    · exact absurd hcall (Appends.excludes h (by simp) (Or.inr (by simp)))
    · rw [hq] at hcall ⊢
      have hhm := stageHealthManager_appends env now 10 [] q (hqa.weaken (by decide)) (by decide)
      cases hs : stageHealthManager env now q with
      | stop r =>
        rw [hs] at hhm hcall
        simp only [Step.bind_stop, Step.finish_stop] at hcall
        exact absurd hcall (Appends.excludes hhm (by simp) (Or.inr (by simp)))
      | next q1 =>
        simp only [Step.bind_next]
        exact MirroredInto_congr
          (after_Housekeeping_cond env now _ _ (by decide) (by decide) (by decide) (by decide))
          (stageHousekeeping_mirrors env now q1 st hobs)
  · -- worker
    intro st hobs hcall
    rcases reconcileNormal_reaches_HealthManager env now ⟨inst, [], []⟩ with h | ⟨q, hqa, hq⟩
    · exact absurd hcall (Appends.excludes h (by simp) (Or.inr (by simp)))
    · rw [hq] at hcall ⊢
      have hhm := stageHealthManager_appends env now 10 [] q (hqa.weaken (by decide)) (by decide)
      cases hs : stageHealthManager env now q with
      | stop r =>
        rw [hs] at hhm hcall
        simp only [Step.bind_stop, Step.finish_stop] at hcall
        exact absurd hcall (Appends.excludes hhm (by simp) (Or.inr (by simp)))
      | next q1 =>
        rw [hs] at hhm hcall
        simp only [Step.bind_next] at hcall ⊢
        have hq1 : Call.amphoraControllerDaemonSetCreateOrUpdate octaviav1.Worker ∉ q1.calls :=
          Appends.excludes hhm (by simp) (Or.inr (by simp))
        have hkc := stageHousekeeping_calls env now q1
        cases hs2 : stageHousekeeping env now q1 with
        | stop r =>
          rw [hs2] at hkc hcall
          simp only [Step.bind_stop, Step.finish_stop] at hcall
          simp only [Step.pass_stop] at hkc
          rw [hkc] at hcall
          simp [hq1, roles_ne.2.2.symm] at hcall
        | next q2 =>
          simp only [Step.bind_next]
          exact MirroredInto_congr
            (after_Worker_cond env now _ _ (by decide) (by decide) (by decide))
            (stageWorker_mirrors env now q2 st hobs)

/-- C22 at a concrete pass: the API resource reports its deployment as running, and
the worker resource has no condition yet. -/
theorem reconcileNormal_mirrors_witness :
    MirroredInto (reconcileNormal mirrorEnv 5 ⟨sampleInstance, [], []⟩).pass.inst.Status.Conditions
        [condition.FalseCondition octaviav1.OctaviaAPIReadyCondition condition.RequestedReason
          condition.SeverityInfo "condition.DeploymentReadyRunningMessage" []]
        octaviav1.OctaviaAPIReadyCondition ∧
      MirroredInto (reconcileNormal mirrorEnv 5 ⟨sampleInstance, [], []⟩).pass.inst.Status.Conditions
        [] (amphoraControllerReadyCondition octaviav1.Worker) :=
  ⟨(reconcileNormal_mirrors mirrorEnv 5 sampleInstance).1 _ rfl (by decide),
   (reconcileNormal_mirrors mirrorEnv 5 sampleInstance).2.2.2 _ rfl (by decide)⟩

/-- The pass of the witness, evaluated: the parent's API condition is the child's
False condition, stamped with the time of the pass, and the worker condition is
True. -/
theorem reconcileNormal_mirrors_example :
    condition.Get (reconcileNormal mirrorEnv 5 ⟨sampleInstance, [], []⟩).pass.inst.Status.Conditions
        octaviav1.OctaviaAPIReadyCondition
      = some { condition.FalseCondition octaviav1.OctaviaAPIReadyCondition
          condition.RequestedReason condition.SeverityInfo
          "condition.DeploymentReadyRunningMessage" [] with LastTransitionTime := 5 } ∧
    condition.Get (reconcileNormal mirrorEnv 5 ⟨sampleInstance, [], []⟩).pass.inst.Status.Conditions
        (amphoraControllerReadyCondition octaviav1.Worker)
      = some { condition.TrueCondition (amphoraControllerReadyCondition octaviav1.Worker)
          "condition.DeploymentReadyMessage" with LastTransitionTime := 5 } := by
  decide

/-! ## Deletion seen from the dispatcher, on a new instance and after it -/

theorem Set_ne_nil (now : Nat) (conds : List Condition) (c : Condition) :
    condition.Set now conds c ≠ [] := by
  cases conds with
  | nil => simp [condition.Set]
  | cons e rest =>
    simp only [condition.Set]
    split <;> simp

theorem Init_ne_nil (now : Nat) (cl : List Condition) (h : cl ≠ []) :
    ∀ conds, condition.Init now conds cl ≠ [] := by
  induction cl with
  | nil => exact absurd rfl h
  | cons c cs ih =>
    intro conds
    cases cs with
    | nil => exact Set_ne_nil now conds c
    | cons c' cs' =>
      have := ih (by simp) (condition.Set now conds c)
      simpa [condition.Init] using this

theorem initialConditions_ne_nil : initialConditions ≠ [] := by
  decide

theorem RestoreLastTransitionTimes_ne_nil (conds saved : List Condition) (h : conds ≠ []) :
    condition.RestoreLastTransitionTimes conds saved ≠ [] := by
  simpa [condition.RestoreLastTransitionTimes] using h

theorem deferredPatch_patched_fields (env : Env) (now : Nat) (saved : List Condition)
    (r : Ret) :
    ∃ i, (deferredPatch env now saved r).patched = some i ∧
      i.Status.Conditions
        = condition.RestoreLastTransitionTimes r.pass.inst.Status.Conditions saved ∧
      i.DeletionTimestamp = r.pass.inst.DeletionTimestamp ∧
      i.Finalizers = r.pass.inst.Finalizers :=
  ⟨_, deferredPatch_patched_eq env now saved r, rfl, rfl, rfl⟩

theorem reconcileDelete_first_call (env : Env) (p : Pass) :
    Call.GetDatabaseByNameAndAccount octavia.DatabaseCRName p.inst.Spec.DatabaseAccount ∈
      (reconcileDelete env p).pass.calls := by
  simp only [reconcileDelete]
  repeat' split
  all_goals simp [Pass.removeFinalizer, Pass.ret, Pass.call]

theorem Reconcile_runs_cascade (env : Env) (now : Nat) (inst : Octavia)
    (hget : env.ClientGet = .ok inst) (hhelper : env.NewHelper = none)
    (hdel : inst.DeletionTimestamp.isSome = true) (hc : inst.Status.Conditions ≠ []) :
    Reconcile env now = deferredPatch env now inst.Status.Conditions
      ((reconcileDelete env ⟨{ inst with Status := { inst.Status with
          Conditions := condition.Init now inst.Status.Conditions initialConditions } },
        [.ClientGet, .NewHelper], []⟩).pass.ret
        (reconcileDelete env ⟨{ inst with Status := { inst.Status with
          Conditions := condition.Init now inst.Status.Conditions initialConditions } },
        [.ClientGet, .NewHelper], []⟩).result
        (reconcileDelete env ⟨{ inst with Status := { inst.Status with
          Conditions := condition.Init now inst.Status.Conditions initialConditions } },
        [.ClientGet, .NewHelper], []⟩).err 211) := by
  have hempty : inst.Status.Conditions.isEmpty = false := by
    cases h : inst.Status.Conditions with
    | nil => exact absurd h hc
    | cons c cs => rfl
  rw [Reconcile_eq_deferredPatch env now inst hget hhelper,
    dispatch_deleted env now _ inst hdel, hempty]
  simp only [Bool.false_eq_true, if_false]

theorem Reconcile_new_deleted (env : Env) (now : Nat) (inst : Octavia)
    (hget : env.ClientGet = .ok inst) (hhelper : env.NewHelper = none)
    (hdel : inst.DeletionTimestamp.isSome = true) (hc : inst.Status.Conditions = []) :
    Reconcile env now = deferredPatch env now []
      (Pass.ret ⟨{ inst with Status := { inst.Status with
          Conditions := condition.Init now [] initialConditions } },
        [.ClientGet, .NewHelper], []⟩ Result.empty none 202) := by
  rw [Reconcile_eq_deferredPatch env now inst hget hhelper,
    dispatch_deleted env now _ inst hdel, hc]
  simp only [List.isEmpty_nil, if_true]

/-- C12, the cascade does not run for a status whose condition list has not been
initialised.  The instance is fetched and carries the deletion marker, its condition
list is empty, and `Reconcile` returns at line 202: no database is looked up and no
finalizer is removed. -/
theorem Reconcile_skips_delete_for_new_instance :
    deletedFreshEnv.ClientGet = .ok deletedFreshInstance ∧
      deletedFreshInstance.DeletionTimestamp = some 7 ∧
      deletedFreshInstance.Status.Conditions = [] ∧
      (Reconcile deletedFreshEnv 5).calls
        = [Call.ClientGet, Call.NewHelper, Call.PatchInstance] ∧
      (Reconcile deletedFreshEnv 5).returns = [202] ∧
      ((Reconcile deletedFreshEnv 5).patched.map (fun i => i.Finalizers))
        = some ["openstack.org/octavia"] := by
  refine ⟨rfl, rfl, rfl, ?_, ?_, ?_⟩ <;> decide

/-- C12, amended.  For an instance that is fetched successfully, for which the helper
is built and which carries the deletion marker, `Reconcile` never runs the normal
pipeline.  When its condition list was initialised on an earlier pass, `Reconcile`
runs the deletion cascade and returns behind it at line 211: its result is the
cascade's, its error the cascade's if the status patch succeeds and the patch error
if it fails.  When its condition list is still empty, `Reconcile` returns at line 202
without running the cascade, with an empty result and the error of the status patch
(none if it succeeds); the instance it hands to PatchInstance has its conditions
initialised and carries the deletion marker and the finalizers it had, so that a
later pass which fetches that instance runs the cascade. -/
theorem Reconcile_deleted (env : Env) (now : Nat) (inst : Octavia)
    (hget : env.ClientGet = .ok inst) (hhelper : env.NewHelper = none)
    (hdel : inst.DeletionTimestamp.isSome = true) :
    Call.ReconcileRbac ∉ (Reconcile env now).calls ∧
      215 ∉ (Reconcile env now).returns ∧
      (inst.Status.Conditions ≠ [] →
        Reconcile env now = deferredPatch env now inst.Status.Conditions
          ((reconcileDelete env ⟨{ inst with Status := { inst.Status with
              Conditions := condition.Init now inst.Status.Conditions initialConditions } },
            [.ClientGet, .NewHelper], []⟩).pass.ret
            (reconcileDelete env ⟨{ inst with Status := { inst.Status with
              Conditions := condition.Init now inst.Status.Conditions initialConditions } },
            [.ClientGet, .NewHelper], []⟩).result
            (reconcileDelete env ⟨{ inst with Status := { inst.Status with
              Conditions := condition.Init now inst.Status.Conditions initialConditions } },
            [.ClientGet, .NewHelper], []⟩).err 211) ∧
        (Reconcile env now).returns.getLast? = some 211 ∧
        (Reconcile env now).result
          = (reconcileDelete env ⟨{ inst with Status := { inst.Status with
              Conditions := condition.Init now inst.Status.Conditions initialConditions } },
            [.ClientGet, .NewHelper], []⟩).result ∧
        (∀ e, env.PatchInstance = some e → (Reconcile env now).err = some e) ∧
        (env.PatchInstance = none → (Reconcile env now).err
          = (reconcileDelete env ⟨{ inst with Status := { inst.Status with
              Conditions := condition.Init now inst.Status.Conditions initialConditions } },
            [.ClientGet, .NewHelper], []⟩).err)) ∧
      (inst.Status.Conditions = [] →
        (Reconcile env now).returns = [202] ∧
        (Reconcile env now).calls = [Call.ClientGet, Call.NewHelper, Call.PatchInstance] ∧
        (Reconcile env now).result = Result.empty ∧
        (Reconcile env now).err = env.PatchInstance ∧
        ∃ i, (Reconcile env now).patched = some i ∧
          i.Status.Conditions ≠ [] ∧
          i.DeletionTimestamp = inst.DeletionTimestamp ∧
          i.Finalizers = inst.Finalizers ∧
          ∀ (env2 : Env) (now2 : Nat), env2.ClientGet = .ok i → env2.NewHelper = none →
            (Reconcile env2 now2).returns.getLast? = some 211 ∧
            Call.GetDatabaseByNameAndAccount octavia.DatabaseCRName i.Spec.DatabaseAccount ∈
              (Reconcile env2 now2).calls ∧
            Call.ReconcileRbac ∉ (Reconcile env2 now2).calls) := by
  have hcascade : ∀ (env : Env) (now : Nat) (inst : Octavia), env.ClientGet = .ok inst →
      env.NewHelper = none → inst.DeletionTimestamp.isSome = true →
      inst.Status.Conditions ≠ [] →
      Call.ReconcileRbac ∉ (Reconcile env now).calls ∧
        215 ∉ (Reconcile env now).returns ∧
        (Reconcile env now).returns.getLast? = some 211 ∧
        Call.GetDatabaseByNameAndAccount octavia.DatabaseCRName inst.Spec.DatabaseAccount ∈
          (Reconcile env now).calls := by
    intro env now inst hget hhelper hdel hc
    rw [Reconcile_runs_cascade env now inst hget hhelper hdel hc]
    simp only [deferredPatch_calls, deferredPatch_returns, Pass.ret_calls, Pass.ret_returns]
    have hno := reconcileDelete_no_rbac env
      ⟨{ inst with Status := { inst.Status with
          Conditions := condition.Init now inst.Status.Conditions initialConditions } },
        [.ClientGet, .NewHelper], []⟩ (by simp)
    have hret := reconcileDelete_returns env
      ⟨{ inst with Status := { inst.Status with
          Conditions := condition.Init now inst.Status.Conditions initialConditions } },
        [.ClientGet, .NewHelper], []⟩
    have hline := reconcileDelete_line env
      ⟨{ inst with Status := { inst.Status with
          Conditions := condition.Init now inst.Status.Conditions initialConditions } },
        [.ClientGet, .NewHelper], []⟩
    have hfirst := reconcileDelete_first_call env
      ⟨{ inst with Status := { inst.Status with
          Conditions := condition.Init now inst.Status.Conditions initialConditions } },
        [.ClientGet, .NewHelper], []⟩
    refine ⟨?_, ?_, List.getLast?_concat _, ?_⟩
    · simpa using hno
    · rw [hret]
      simpa using hline.symm
    · exact List.mem_append_left _ hfirst
  by_cases hc : inst.Status.Conditions = []
  · have hrec := Reconcile_new_deleted env now inst hget hhelper hdel hc
    obtain ⟨hcalls, hrets⟩ : (Reconcile env now).calls
          = [Call.ClientGet, Call.NewHelper, Call.PatchInstance] ∧
        (Reconcile env now).returns = [202] := by
      rw [hrec, deferredPatch_calls, deferredPatch_returns]
      exact ⟨rfl, rfl⟩
    refine ⟨by rw [hcalls]; decide, by rw [hrets]; decide, fun h => absurd hc h, fun _ => ?_⟩
    refine ⟨hrets, hcalls, ?_, ?_, ?_⟩
    · rw [hrec, deferredPatch_result]; rfl
    · rw [hrec, deferredPatch_err]
      cases env.PatchInstance <;> rfl
    · obtain ⟨i, hi, hcond, hdt, hfin⟩ := deferredPatch_patched_fields env now []
        (Pass.ret ⟨{ inst with Status := { inst.Status with
            Conditions := condition.Init now [] initialConditions } },
          [.ClientGet, .NewHelper], []⟩ Result.empty none 202)
      rw [← hrec] at hi
      simp only [Pass.ret_inst] at hcond hdt hfin
      have hne : i.Status.Conditions ≠ [] := by
        rw [hcond]
        exact RestoreLastTransitionTimes_ne_nil _ _
          (Init_ne_nil now initialConditions initialConditions_ne_nil [])
      have hdel2 : i.DeletionTimestamp.isSome = true := by
        rw [hdt]
        exact hdel
      refine ⟨i, hi, hne, hdt, hfin, ?_⟩
      intro env2 now2 hget2 hhelper2
      have := hcascade env2 now2 i hget2 hhelper2 hdel2 hne
      exact ⟨this.2.2.1, this.2.2.2, this.1⟩
  · have h := hcascade env now inst hget hhelper hdel hc
    refine ⟨h.1, h.2.1, fun _ => ?_, fun h' => absurd h' hc⟩
    refine ⟨Reconcile_runs_cascade env now inst hget hhelper hdel hc, h.2.2.1, ?_, ?_, ?_⟩
    · rw [Reconcile_runs_cascade env now inst hget hhelper hdel hc, deferredPatch_result]
      rfl
    · intro e he
      rw [Reconcile_runs_cascade env now inst hget hhelper hdel hc, deferredPatch_err, he]
    · intro he
      rw [Reconcile_runs_cascade env now inst hget hhelper hdel hc, deferredPatch_err, he]
      rfl

/-- C12, amended, at two concrete passes: an instance seen on an earlier pass that
carries the deletion marker, and a new instance that carries it. -/
theorem Reconcile_deleted_witness :
    (Call.ReconcileRbac ∉ (Reconcile deletedSeenEnv 5).calls ∧
      (Reconcile deletedSeenEnv 5).returns = [288, 211] ∧
      (Reconcile deletedSeenEnv 5).calls =
        [Call.ClientGet, Call.NewHelper,
         Call.GetDatabaseByNameAndAccount "octavia" "octavia",
         Call.DeleteFinalizer "octavia",
         Call.GetDatabaseByNameAndAccount "octavia-persistence" "octavia-persistence",
         Call.DeleteFinalizer "octavia-persistence", Call.PatchInstance]) ∧
    ((Reconcile deletedFreshEnv 5).returns = [202] ∧
      (Reconcile deletedFreshEnv 5).result = Result.empty ∧
      (Reconcile deletedFreshEnv 5).err = deletedFreshEnv.PatchInstance) :=
  ⟨⟨(Reconcile_deleted deletedSeenEnv 5 deletedSeenInstance rfl rfl rfl).1,
    by decide, by decide⟩,
   ⟨((Reconcile_deleted deletedFreshEnv 5 deletedFreshInstance rfl rfl rfl).2.2.2 rfl).1,
    ((Reconcile_deleted deletedFreshEnv 5 deletedFreshInstance rfl rfl rfl).2.2.2 rfl).2.2.1,
    ((Reconcile_deleted deletedFreshEnv 5 deletedFreshInstance rfl rfl rfl).2.2.2 rfl).2.2.2.1⟩⟩


/-! ## The stage in which a pass returns -/

theorem returnRank_last {l : List Nat} {line : Nat} (h : l.getLast? = some line)
    (h1 : line ≠ 569) (h2 : line ≠ 571) : returnRank l = lineRank line := by
  unfold returnRank
  rw [h]
  simp [h1, h2]

theorem returnRank_behind_init {l : List Nat} {inner : Nat} (line : Nat)
    (h : l.getLast? = some inner) (hl : line = 569 ∨ line = 571) :
    returnRank (l ++ [line]) = initLineRank inner := by
  unfold returnRank
  simp [h, hl]

theorem Step.Holds.atReturn {N : Pass → Prop} {s : Step}
    (h : s.Holds OrderedAtReturn N) (hr : s.Holds ReturnsAt (fun _ => True)) :
    s.Holds (fun r => OrderedUpTo (returnRank r.pass.returns) r.pass.calls) N := by
  cases s with
  | stop r =>
    simp only [Step.Holds] at h hr ⊢
    rw [returnRank_last hr.1 hr.2.1 hr.2.2]
    exact h
  | next p => exact h

theorem stageRbac_returnsAt (env : Env) (p : Pass) :
    (stageRbac env p).Holds ReturnsAt (fun _ => True) := by
  simp only [stageRbac]
  repeat' split
  all_goals simp [Step.Holds, ReturnsAt]

theorem stageTransportURL_returnsAt (env : Env) (now : Nat) (p : Pass) :
    (stageTransportURL env now p).Holds ReturnsAt (fun _ => True) := by
  simp only [stageTransportURL]
  repeat' split
  all_goals simp [Step.Holds, ReturnsAt]

theorem stageCertsQuotas_returnsAt (env : Env) (now : Nat) (p : Pass) :
    (stageCertsQuotas env now p).Holds ReturnsAt (fun _ => True) := by
  simp only [stageCertsQuotas]
  repeat' split
  all_goals simp [Step.Holds, ReturnsAt]

theorem checkNetworkAttachments_returnsAt (env : Env) (now : Nat) (names : List String) :
    ∀ p, (checkNetworkAttachments env now names p).Holds ReturnsAt (fun _ => True) := by
  induction names with
  | nil => intro p; simp [checkNetworkAttachments, Step.Holds]
  | cons n names ih =>
    intro p
    simp only [checkNetworkAttachments]
    repeat' split
    all_goals first
      | apply ih
      | simp [Step.Holds, ReturnsAt]

theorem stageNetworkAttachments_returnsAt (env : Env) (now : Nat) (p : Pass) :
    (stageNetworkAttachments env now p).Holds ReturnsAt (fun _ => True) := by
  unfold stageNetworkAttachments
  refine Step.Holds.bindStep (checkNetworkAttachments_returnsAt env now _ p) ?_
  intro q _
  simp only []
  repeat' split
  all_goals simp [Step.Holds, ReturnsAt]

theorem stageUpdate_returnsAt (p : Pass) :
    (stageUpdate p).Holds ReturnsAt (fun _ => True) := by
  simp only [stageUpdate]
  repeat' split
  all_goals simp [Step.Holds, ReturnsAt]

theorem stageUpgrade_returnsAt (p : Pass) :
    (stageUpgrade p).Holds ReturnsAt (fun _ => True) := by
  simp only [stageUpgrade]
  repeat' split
  all_goals simp [Step.Holds, ReturnsAt]

theorem stageAPI_returnsAt (env : Env) (now : Nat) (p : Pass) :
    (stageAPI env now p).Holds ReturnsAt (fun _ => True) := by
  simp only [stageAPI]
  repeat' split
  all_goals simp [Step.Holds, ReturnsAt]

theorem stageManagementNetwork_returnsAt (env : Env) (p : Pass) :
    (stageManagementNetwork env p).Holds ReturnsAt (fun _ => True) := by
  simp only [stageManagementNetwork]
  repeat' split
  all_goals simp [Step.Holds, ReturnsAt]

theorem stageHealthManager_returnsAt (env : Env) (now : Nat) (p : Pass) :
    (stageHealthManager env now p).Holds ReturnsAt (fun _ => True) := by
  simp only [stageHealthManager]
  repeat' split
  all_goals simp [Step.Holds, ReturnsAt]

theorem stageHousekeeping_returnsAt (env : Env) (now : Nat) (p : Pass) :
    (stageHousekeeping env now p).Holds ReturnsAt (fun _ => True) := by
  simp only [stageHousekeeping]
  repeat' split
  all_goals simp [Step.Holds, ReturnsAt]

theorem stageWorker_returnsAt (env : Env) (now : Nat) (p : Pass) :
    (stageWorker env now p).Holds ReturnsAt (fun _ => True) := by
  simp only [stageWorker]
  repeat' split
  all_goals simp [Step.Holds, ReturnsAt]

theorem stageAccountsSSH_returnsAt (env : Env) (p : Pass) :
    (stageAccountsSSH env p).Holds ReturnsAt (fun _ => True) := by
  simp only [stageAccountsSSH]
  repeat' split
  all_goals simp [Step.Holds, ReturnsAt]

theorem stageAmphoraImages_returnsAt (env : Env) (now : Nat) (p : Pass) :
    (stageAmphoraImages env now p).Holds ReturnsAt (fun _ => True) := by
  simp only [stageAmphoraImages]
  repeat' split
  all_goals simp [Step.Holds, ReturnsAt]

theorem stageReady_returnsAt (now : Nat) (p : Pass) : ReturnsAt (stageReady now p) := by
  simp only [stageReady]
  repeat' split
  all_goals simp [ReturnsAt]

theorem reconcileInit_returns_last (env : Env) (now : Nat) (p : Pass) :
    (reconcileInit env now p).pass.returns.getLast? = some (reconcileInit env now p).line := by
  simp only [reconcileInit]
  repeat' split
  all_goals simp

theorem reconcileInit_ordered_at (env : Env) (now : Nat) (p : Pass)
    (h : OrderedUpTo 4 p.calls) :
    OrderedUpTo (initLineRank (reconcileInit env now p).line)
      (reconcileInit env now p).pass.calls := by
  have hdb5 : ∀ q : Pass, OrderedUpTo 5 q.calls →
      OrderedUpTo 5 (ensureDB env now q).pass.calls :=
    fun q hq => ensureDB_ordered env now q hq
  have hdb6 : ∀ q : Pass, OrderedUpTo 5 q.calls →
      OrderedUpTo 6 (ensureDB env now q).pass.calls :=
    fun q hq => (ensureDB_ordered env now q hq).mono (by decide)
  have hdb7 : ∀ q : Pass, OrderedUpTo 5 q.calls →
      OrderedUpTo 7 (ensureDB env now q).pass.calls :=
    fun q hq => (ensureDB_ordered env now q hq).mono (by decide)
  simp only [reconcileInit]
  repeat' split
  all_goals
    try simp only [Pass.ret_calls, Pass.ret_line, Pass.setCond_calls, Pass.markTrue_calls,
      Pass.putHash_calls, Pass.call_calls, createHashOfInputHashes_calls]
    repeat (first
      | exact h
      | refine hdb5 _ ?_
      | refine hdb6 _ ?_
      | refine hdb7 _ ?_
      | refine OrderedUpTo.snoc ?_ (by simp [initLineRank]))

theorem stageInit_ordered_at (env : Env) (now : Nat) (p : Pass) (h : OrderedUpTo 3 p.calls) :
    (stageInit env now p).Holds
      (fun r => OrderedUpTo (returnRank r.pass.returns) r.pass.calls)
      (fun q => OrderedUpTo 7 q.calls) := by
  have h7 := reconcileInit_ordered env now p (h.mono (by decide))
  have hat := reconcileInit_ordered_at env now p (h.mono (by decide))
  have hlast := reconcileInit_returns_last env now p
  simp only [stageInit]
  split
  · simp only [Step.Holds, Pass.ret_calls, Pass.ret_returns]
    rw [returnRank_behind_init 569 hlast (Or.inl rfl)]
    exact hat
  · split
    · simp only [Step.Holds, Pass.ret_calls, Pass.ret_returns]
      rw [returnRank_behind_init 571 hlast (Or.inr rfl)]
      exact hat
    · simpa only [Step.Holds, Pass.markTrue_calls] using h7

theorem reconcileNormal_ordered_at (env : Env) (now : Nat) (p : Pass)
    (h : OrderedUpTo 0 p.calls) :
    OrderedUpTo (returnRank (reconcileNormal env now p).pass.returns)
      (reconcileNormal env now p).pass.calls := by
  unfold reconcileNormal reconcileNormalAmphora reconcileNormalAPI
  refine Step.Holds.finish
    (S := fun r => OrderedUpTo (returnRank r.pass.returns) r.pass.calls)
    (N := fun q => OrderedUpTo 8 q.calls) ?_ ?_
  · refine Step.Holds.bindStep (N := fun q => OrderedUpTo 7 q.calls) ?_
      (fun q hq => (stageAPI_ordered env now q hq).atReturn (stageAPI_returnsAt env now q))
    refine Step.Holds.bindStep (N := fun q => OrderedUpTo 7 q.calls) ?_
      (fun q hq => (stageUpgrade_ordered q hq).atReturn (stageUpgrade_returnsAt q))
    refine Step.Holds.bindStep (N := fun q => OrderedUpTo 7 q.calls) ?_
      (fun q hq => (stageUpdate_ordered q hq).atReturn (stageUpdate_returnsAt q))
    refine Step.Holds.bindStep (N := fun q => OrderedUpTo 3 q.calls) ?_
      (fun q hq => stageInit_ordered_at env now q hq)
    refine Step.Holds.bindStep (N := fun q => OrderedUpTo 2 q.calls) ?_
      (fun q hq => (stageNetworkAttachments_ordered env now q hq).atReturn
        (stageNetworkAttachments_returnsAt env now q))
    refine Step.Holds.bindStep (N := fun q => OrderedUpTo 1 q.calls) ?_
      (fun q hq => (stageCertsQuotas_ordered env now q hq).atReturn
        (stageCertsQuotas_returnsAt env now q))
    refine Step.Holds.bindStep (N := fun q => OrderedUpTo 0 q.calls) ?_
      (fun q hq => (stageTransportURL_ordered env now q hq).atReturn
        (stageTransportURL_returnsAt env now q))
    exact (stageRbac_ordered env p h).atReturn (stageRbac_returnsAt env p)
  · intro q hq
    refine Step.Holds.finish
      (S := fun r => OrderedUpTo (returnRank r.pass.returns) r.pass.calls)
      (N := fun q => OrderedUpTo 13 q.calls) ?_ ?_
    · refine Step.Holds.bindStep (N := fun q => OrderedUpTo 12 q.calls) ?_
        (fun q hq => (stageAmphoraImages_ordered env now q hq).atReturn
          (stageAmphoraImages_returnsAt env now q))
      refine Step.Holds.bindStep (N := fun q => OrderedUpTo 11 q.calls) ?_
        (fun q hq => (stageAccountsSSH_ordered env q hq).atReturn
          (stageAccountsSSH_returnsAt env q))
      refine Step.Holds.bindStep (N := fun q => OrderedUpTo 11 q.calls) ?_
        (fun q hq => (stageWorker_ordered env now q hq).atReturn
          (stageWorker_returnsAt env now q))
      refine Step.Holds.bindStep (N := fun q => OrderedUpTo 10 q.calls) ?_
        (fun q hq => (stageHousekeeping_ordered env now q hq).atReturn
          (stageHousekeeping_returnsAt env now q))
      refine Step.Holds.bindStep (N := fun q => OrderedUpTo 9 q.calls) ?_
        (fun q hq => (stageHealthManager_ordered env now q hq).atReturn
          (stageHealthManager_returnsAt env now q))
      exact (stageManagementNetwork_ordered env q hq).atReturn
        (stageManagementNetwork_returnsAt env q)
    · intro q hq
      have h1 := stageReady_ordered now q hq
      have h2 := stageReady_returnsAt now q
      show OrderedUpTo (returnRank (stageReady now q).pass.returns) (stageReady now q).pass.calls
      rw [returnRank_last h2.1 h2.2.1 h2.2.2]
      exact h1

/-- C15, the order as claimed does not hold.  When neither input secret exists the
pass still runs RBAC, the transport URL, certificates, quotas and the network
attachments, all of them before the first secret is looked up, and returns the
error of the missing secret; and on a pass in which every stage succeeds the calls
are not in the order of the states of spec 4.4. -/
theorem reconcileNormal_rbac_before_credentials :
    (reconcileNormal noSecretEnv 5 ⟨sampleInstance, [], []⟩).pass.calls
        = [Call.ReconcileRbac, Call.transportURLCreateOrUpdate, Call.EnsureAmphoraCerts,
           Call.EnsureQuotas, Call.GetNADWithName "internalapi",
           Call.CreateNetworksAnnotation_, Call.GetSecret "osp-secret"]
      ∧ (reconcileNormal noSecretEnv 5 ⟨sampleInstance, [], []⟩).pass.returns = [315, 569]
      ∧ (reconcileNormal noSecretEnv 5 ⟨sampleInstance, [], []⟩).err.isSome = true
      ∧ ¬ ((reconcileNormal readyEnv 5 ⟨sampleInstance, [], []⟩).pass.calls.filterMap
            Call.specRank).Pairwise (· ≤ ·) := by
  decide

/-- C15, amended.  On every pass of `reconcileNormal` the collaborator calls are made
in the order of the stages of the source (RBAC, transport URL, certificates and
quotas, network attachments, credentials, database, config, migration, API,
management network, health manager, housekeeping and worker, account finalizers and
SSH, asset pipeline), and no call belongs to a stage behind the one in which the pass
returns.  The stage of return is the one of the last `return` statement executed; for
the two statements that hand on the outcome of service init (lines 569 and 571) it is
the stage of the `return` of `reconcileInit` executed just before, so that a pass that
returns in the credentials, the database or the config stage made no call of a later
one. -/
theorem reconcileNormal_stage_order (env : Env) (now : Nat) (inst : Octavia) :
    ((reconcileNormal env now ⟨inst, [], []⟩).pass.calls.map Call.rank).Pairwise (· ≤ ·)
      ∧ ∀ c ∈ (reconcileNormal env now ⟨inst, [], []⟩).pass.calls,
          c.rank ≤ returnRank (reconcileNormal env now ⟨inst, [], []⟩).pass.returns :=
  reconcileNormal_ordered_at env now ⟨inst, [], []⟩ ⟨List.Pairwise.nil, by simp⟩

/-- C15, amended, at two concrete passes: one on which neither input secret exists,
which returns in the credentials stage, and one on which the database cannot be
created, which returns in the database stage. -/
theorem reconcileNormal_stage_order_witness :
    ((reconcileNormal noSecretEnv 5 ⟨sampleInstance, [], []⟩).pass.returns = [315, 569]
        ∧ returnRank (reconcileNormal noSecretEnv 5 ⟨sampleInstance, [], []⟩).pass.returns = 4
        ∧ ((reconcileNormal noSecretEnv 5 ⟨sampleInstance, [], []⟩).pass.calls.map
            Call.rank).Pairwise (· ≤ ·)
        ∧ ∀ c ∈ (reconcileNormal noSecretEnv 5 ⟨sampleInstance, [], []⟩).pass.calls,
            c.rank ≤ returnRank
              (reconcileNormal noSecretEnv 5 ⟨sampleInstance, [], []⟩).pass.returns)
      ∧ ((reconcileNormal dbFailEnv 5 ⟨sampleInstance, [], []⟩).pass.returns = [840, 349, 569]
        ∧ returnRank (reconcileNormal dbFailEnv 5 ⟨sampleInstance, [], []⟩).pass.returns = 5
        ∧ Call.EnsureSecrets ∉ (reconcileNormal dbFailEnv 5 ⟨sampleInstance, [], []⟩).pass.calls
        ∧ ∀ c ∈ (reconcileNormal dbFailEnv 5 ⟨sampleInstance, [], []⟩).pass.calls,
            c.rank ≤ returnRank
              (reconcileNormal dbFailEnv 5 ⟨sampleInstance, [], []⟩).pass.returns) :=
  ⟨⟨by decide, by decide, reconcileNormal_stage_order noSecretEnv 5 sampleInstance⟩,
   ⟨by decide, by decide, by decide,
    (reconcileNormal_stage_order dbFailEnv 5 sampleInstance).2⟩⟩

end OctaviaOperator
